import Mathlib

/-!
# tinyproxy: access control (`src/acl.c`)

A shallow embedding of the access-control engine of tinyproxy and theorems
about it.

Conventions of the embedding

* A C string is the list of its characters before the terminating NUL.
* A byte array is a `List Nat` whose elements are the byte values; an array read
  `a[i]` is `a.getD i 0`.
* `assert (e)` is modelled as an abort: functions that contain assertions return
  an `Option`, and `none` is "an assertion was violated".
* Functions of the C library and of repository files other than `acl.c`
  (`full_inet_pton`, `inet_pton`, `getaddrinfo`, `get_ip_string`, the vector and
  heap primitives) are parameters, collected in the structure `Env`.
-/

namespace Tinyproxy

/-! ## C strings and `strtoul` -/

/-- A C string: its characters up to (excluding) the terminating NUL. -/
abbrev CString := List Char

/-- The `isspace` of the C locale. -/
def isspace (c : Char) : Bool :=
  c == ' ' || c == '\t' || c == '\n' || c == '\x0b' || c == '\x0c' || c == '\r'

/-- Value of one decimal digit character. -/
def digit_value (c : Char) : Nat := c.toNat - '0'.toNat

/-- Value of a run of decimal digits, most significant first. -/
def digits_value (ds : List Char) : Nat :=
  ds.foldl (fun acc c => 10 * acc + digit_value c) 0

/-- The `errno` value `ERANGE`. -/
def ERANGE : Nat := 34

/-- What a call `strtoul (nptr, &endptr, 10)` leaves behind: the returned value,
the value of `errno` (which the caller cleared before the call), and the offset
`endptr - nptr`. -/
structure strtoul_t where
  value : Nat
  errno : Nat
  consumed : Nat
deriving DecidableEq, Repr

/-- The C library function `strtoul` in base 10, for an `unsigned long` whose
largest value is `ULONG_MAX`: leading white space is skipped, one sign is
accepted, then the longest run of digits is converted.  Without a digit nothing
is consumed and 0 is returned; a value above `ULONG_MAX` gives `ULONG_MAX` with
`errno = ERANGE`; a leading minus sign negates the value in `unsigned long`. -/
def strtoul (ULONG_MAX : Nat) (nptr : CString) : strtoul_t :=
  let s := nptr.dropWhile isspace
  let neg : Bool := s.head? == some '-'
  let body := if s.head? == some '-' || s.head? == some '+' then s.tail else s
  let ds := body.takeWhile Char.isDigit
  if ds.isEmpty then
    { value := 0, errno := 0, consumed := 0 }
  else
    let v := digits_value ds
    let consumed := nptr.length - (body.length - ds.length)
    if v > ULONG_MAX then
      { value := ULONG_MAX, errno := ERANGE, consumed := consumed }
    else
      { value := if neg then (ULONG_MAX + 1 - v) % (ULONG_MAX + 1) else v,
        errno := 0, consumed := consumed }

/-! ## Data model -/

/-- Length of an IPv6 address in bytes (`#define IPV6_LEN 16`). -/
def IPV6_LEN : Nat := 16

/-- The enumeration `acl_access_t` of `acl.h`. -/
inductive acl_access_t where
  | ACL_ALLOW
  | ACL_DENY
deriving DecidableEq, Repr

/-- The enumeration `enum acl_type`. -/
inductive acl_type where
  | ACL_STRING
  | ACL_NUMERIC
deriving DecidableEq, Repr

/-- The union `address` of `struct acl_s`: either the string, or the pair of
byte arrays `ip.network`, `ip.mask`. -/
inductive acl_address where
  | string (s : CString)
  | ip (network : List Nat) (mask : List Nat)
deriving DecidableEq, Repr

/-- The record `struct acl_s`.  The tag `type` is the constructor of the
union. -/
structure acl_s where
  access : acl_access_t
  address : acl_address
deriving DecidableEq, Repr

/-- The field `type` of `struct acl_s`. -/
def acl_s.type (acl : acl_s) : acl_type :=
  match acl.address with
  | .string _ => .ACL_STRING
  | .ip _ _ => .ACL_NUMERIC

/-- Log levels used by `acl.c` and `upstream.c`. -/
inductive log_level where
  | LOG_ERR
  | LOG_NOTICE
  | LOG_WARNING
  | LOG_INFO
deriving DecidableEq, Repr

/-- One call of `log_message`: the level and the formatted text. -/
structure log_entry where
  level : log_level
  text : CString
deriving DecidableEq, Repr

/-- An access list `vector_t`: `none` is the NULL pointer (no list created yet),
`some l` a vector holding the entries `l` in order. -/
abbrev vector_t := Option (List acl_s)

/-- Everything `acl.c` calls but does not define.

* `ULONG_MAX`: the constant of `<limits.h>`.
* `full_inet_pton text`: `some bytes` when the call returns a positive value,
  with `bytes` the 16-byte address written to the destination; `none` when it
  returns `<= 0`.
* `inet_pton6 text`: whether `inet_pton (AF_INET6, text, dst) > 0`.
* `getaddrinfo name`: `none` when the call fails, else the list of results, each
  already printed by `get_ip_string`.
* `vector_create_ok`, `safestrdup_ok`: whether the allocation succeeds.
* `vector_append_ret`: the return value of `vector_append` (0 on success, when
  the entry is appended; negative on failure, when the vector is unchanged). -/
structure Env where
  ULONG_MAX : Nat
  full_inet_pton : CString → Option (List Nat)
  inet_pton6 : CString → Bool
  getaddrinfo : CString → Option (List CString)
  vector_create_ok : Bool
  safestrdup_ok : Bool
  vector_append_ret : Int

/-! ## `fill_netmask_array` -/

/-- The loop of `fill_netmask_array`: `fill_netmask_loop k mask` is the bytes
written by the remaining `k` iterations when the variable `mask` holds
`mask`. -/
def fill_netmask_loop : Nat → Nat → List Nat
  | 0, _ => []
  | k + 1, mask =>
    if mask ≥ 8 then
      0xff :: fill_netmask_loop k (mask - 8)
    else if mask > 0 then
      ((0xff <<< (8 - mask)) % 256) :: fill_netmask_loop k 0
    else
      0 :: fill_netmask_loop k mask

/-- The function `fill_netmask_array (bitmask_string, v6, array, len)`: the
returned `int` and the contents of `array` after the call. -/
def fill_netmask_array (ULONG_MAX : Nat) (bitmask_string : CString) (v6 : Int)
    (array : List Nat) (len : Nat) : Int × List Nat :=
  let r := strtoul ULONG_MAX bitmask_string
  let mask := r.value
  if (r.errno = ERANGE ∧ mask = ULONG_MAX) ∨ (r.errno ≠ 0 ∧ mask = 0)
      ∨ r.consumed = 0 then
    (-1, array)
  else
    let mask := if v6 = 0 then (mask + 12 * 8) % (ULONG_MAX + 1) else mask
    if mask > 8 * len then
      (-1, array)
    else
      (0, fill_netmask_loop len mask ++ array.drop len)

/-! ## `insert_acl` -/

/-- The function `init_access_list`: return value, the list afterwards, and the
messages logged. -/
def init_access_list (env : Env) (access_list : vector_t) :
    Int × vector_t × List log_entry :=
  match access_list with
  | some l => (0, some l, [])
  | none =>
    if env.vector_create_ok then (0, some [], [])
    else (-1, none,
      [{ level := .LOG_ERR,
         text := "Unable to allocate memory for access list".toList }])

/-- Result of `insert_acl`: the returned `int`, the access list afterwards and
the messages logged. -/
structure insert_result where
  ret : Int
  access_list : vector_t
  log : List log_entry
deriving DecidableEq, Repr

/-- The statement `memcpy (dst, src, IPV6_LEN)`. -/
def memcpy16 (src : List Nat) : List Nat :=
  (List.range IPV6_LEN).map (fun i => src.getD i 0)

/-- The call `vector_append (*access_list, &acl, sizeof (struct acl_s))` that
ends `insert_acl`. -/
def vector_append (env : Env) (l : List acl_s) (acl : acl_s)
    (log : List log_entry) : insert_result :=
  if env.vector_append_ret = 0 then
    { ret := 0, access_list := some (l ++ [acl]), log := log }
  else
    { ret := env.vector_append_ret, access_list := some l, log := log }

/-- The function `insert_acl (location, access_type, access_list)`. -/
def insert_acl (env : Env) (location : CString) (access_type : acl_access_t)
    (access_list : vector_t) : insert_result :=
  match init_access_list env access_list with
  | (_, none, log) => { ret := -1, access_list := none, log := log }
  | (ret, some l, log) =>
    if ret ≠ 0 then { ret := -1, access_list := some l, log := log }
    else
      match env.full_inet_pton location with
      | some ip_dst =>
        vector_append env l
          { access := access_type,
            address := .ip (memcpy16 ip_dst) (List.replicate IPV6_LEN 0xff) } log
      | none =>
        if location.contains '/' then
          -- `p = strchr (location, '/'); *p = 0`
          let left := location.takeWhile (fun c => c != '/')
          let right := (location.dropWhile (fun c => c != '/')).tail
          match env.full_inet_pton left with
          | none => { ret := -1, access_list := some l, log := log }
          | some ip_dst =>
            let v6 : Int := if env.inet_pton6 left then 1 else 0
            let r := fill_netmask_array env.ULONG_MAX right v6
              (List.replicate IPV6_LEN 0) IPV6_LEN
            if r.1 < 0 then { ret := -1, access_list := some l, log := log }
            else
              let mask := r.2
              let network := (List.range IPV6_LEN).map
                (fun i => ip_dst.getD i 0 &&& mask.getD i 0)
              vector_append env l
                { access := access_type, address := .ip network mask } log
        else
          if env.safestrdup_ok then
            vector_append env l
              { access := access_type, address := .string location } log
          else { ret := -1, access_list := some l, log := log }

/-! ## Evaluation -/

/-- The function `strcasecmp (a, b) == 0` in the C locale. -/
def strcasecmp_eq (a b : CString) : Bool :=
  a.map Char.toLower == b.map Char.toLower

/-- The value returned for a matching entry by `acl_string_processing`. -/
def string_perm (access : acl_access_t) : Int :=
  if access = .ACL_DENY then 0 else 1

/-- The function `acl_string_processing (acl, ip_address, string_address)`;
`none` when one of its three assertions fails. -/
def acl_string_processing (env : Env) (acl : acl_s) (ip_address : CString)
    (string_address : CString) : Option Int :=
  match acl.address with
  | .ip _ _ => none
  | .string s =>
    if ip_address.length = 0 then none
    else if string_address.length = 0 then none
    else
      -- the reverse lookup test, `true` when it ends in `match`
      let matched : Bool :=
        if s.head? != some '.' then
          match env.getaddrinfo s with
          | none => false
          | some res => res.any (fun ipbuf => ip_address == ipbuf)
        else false
      if matched then some (string_perm acl.access)
      else
        let test_length := string_address.length
        let match_length := s.length
        if test_length < match_length then some (-1)
        else if strcasecmp_eq (string_address.drop (test_length - match_length)) s
        then some (string_perm acl.access)
        else some (-1)

/-- The function `check_numeric_acl (acl, ip)`; `none` when one of its two
assertions fails. -/
def check_numeric_acl (env : Env) (acl : acl_s) (ip : CString) : Option Int :=
  match acl.address with
  | .string _ => none
  | .ip network mask =>
    if ip.length = 0 then none
    else
      match env.full_inet_pton ip with
      | none => some (-1)
      | some addr =>
        if (List.range IPV6_LEN).all
            (fun i => (addr.getD i 0 &&& mask.getD i 0) == network.getD i 0)
        then some (if acl.access = .ACL_ALLOW then 1 else 0)
        else some (-1)

/-- The message logged by `check_acl` when it denies a connection. -/
def unauthorized (ip host : CString) : log_entry :=
  { level := .LOG_NOTICE,
    text := "Unauthorized connection from \"".toList ++ host ++ "\" [".toList
      ++ ip ++ "].".toList }

/-- The loop of `check_acl` over the entries from index `i` on, followed by the
code after the loop. -/
def check_acl_loop (env : Env) (ip host : CString) :
    List acl_s → Option (Int × List log_entry)
  | [] => some (0, [unauthorized ip host])
  | acl :: rest =>
    match acl.type with
    | .ACL_STRING =>
      match acl_string_processing env acl ip host with
      | none => none
      | some perm =>
        if perm = 0 then some (0, [unauthorized ip host])
        else if perm = 1 then some (perm, [])
        else check_acl_loop env ip host rest
    | .ACL_NUMERIC =>
      if ip.head? = none then check_acl_loop env ip host rest
      else
        match check_numeric_acl env acl ip with
        | none => none
        | some perm =>
          if perm = 0 then some (0, [unauthorized ip host])
          else if perm = 1 then some (perm, [])
          else check_acl_loop env ip host rest

/-- The function `check_acl (ip, host, access_list)`: the returned `int` and the
messages logged; `none` when an assertion fails on the way. -/
def check_acl (env : Env) (ip host : CString) (access_list : vector_t) :
    Option (Int × List log_entry) :=
  match access_list with
  | none => some (1, [])
  | some l => check_acl_loop env ip host l

/-! ## Specification-level notions used by the theorems -/

/-- Bit `j` of a byte array, counting from the most significant bit of byte 0. -/
def mask_bit (array : List Nat) (j : Nat) : Bool :=
  (array.getD (j / 8) 0).testBit (7 - j % 8)

/-- The decimal text of `n`. -/
def decimal (n : Nat) : CString := (Nat.repr n).toList

/-- The entry is passed over by the loop of `check_acl`: its test completes and
yields the "skip" value -1, or (Numeric entry, empty `ip`) the entry is left by
`continue`. -/
def acl_skips (env : Env) (acl : acl_s) (ip host : CString) : Prop :=
  match acl.type with
  | .ACL_STRING => acl_string_processing env acl ip host = some (-1)
  | .ACL_NUMERIC => ip.head? = none ∨ check_numeric_acl env acl ip = some (-1)

/-- The entry matches the peer: its test in the loop of `check_acl` completes
with a verdict, 0 or 1. -/
def acl_matches (env : Env) (acl : acl_s) (ip host : CString) : Prop :=
  match acl.type with
  | .ACL_STRING =>
    acl_string_processing env acl ip host = some 0
      ∨ acl_string_processing env acl ip host = some 1
  | .ACL_NUMERIC =>
    ip.head? ≠ none
      ∧ (check_numeric_acl env acl ip = some 0 ∨ check_numeric_acl env acl ip = some 1)

instance (env : Env) (acl : acl_s) (ip host : CString) :
    Decidable (acl_skips env acl ip host) := by
  unfold acl_skips; split <;> infer_instance

instance (env : Env) (acl : acl_s) (ip host : CString) :
    Decidable (acl_matches env acl ip host) := by
  unfold acl_matches; split <;> infer_instance

/-- The verdict that `check_acl` returns for an access: 1 for allow, 0 for
deny. -/
def verdict (access : acl_access_t) : Int :=
  if access = .ACL_ALLOW then 1 else 0

/-! ### A concrete environment -/

/-- Splits a string at every occurrence of the character `sep`. -/
def split_at (sep : Char) : List Char → List (List Char)
  | [] => [[]]
  | c :: cs =>
    if c = sep then [] :: split_at sep cs
    else
      match split_at sep cs with
      | [] => [[c]]
      | w :: ws => (c :: w) :: ws

/-- One component of a dotted quad: one to three digits, at most 255. -/
def parse_octet (s : List Char) : Option Nat :=
  if s.length = 0 ∨ 3 < s.length ∨ s.all Char.isDigit = false then none
  else if 255 < digits_value s then none
  else some (digits_value s)

/-- The IPv4-mapped address `::ffff:a.b.c.d` as 16 bytes. -/
def ipv4_mapped (a b c d : Nat) : List Nat :=
  [0, 0, 0, 0, 0, 0, 0, 0, 0, 0, 0xff, 0xff, a, b, c, d]

/-- Modelled from the spec: `full_inet_pton` of `network.c` (`parse_ip`),
restricted to IPv4: a dotted quad `a.b.c.d` gives the IPv4-mapped form
`::ffff:a.b.c.d`; empty or malformed input fails.  IPv6 text is not accepted by
this model. -/
def parse_ip4 (text : CString) : Option (List Nat) :=
  match (split_at '.' text).map parse_octet with
  | [some a, some b, some c, some d] => some (ipv4_mapped a b c d)
  | _ => none

/-- A concrete environment: a 64-bit `unsigned long`, an IPv4-only address
parser, a resolver that knows no name, and allocations that succeed. -/
def env0 : Env :=
  { ULONG_MAX := 2 ^ 64 - 1
    full_inet_pton := parse_ip4
    inet_pton6 := fun _ => false
    getaddrinfo := fun _ => none
    vector_create_ok := true
    safestrdup_ok := true
    vector_append_ret := 0 }

/-- The mask is a run of one bits from the most significant bit of byte 0
followed only by zero bits: 16 bytes whose bit `j` is one exactly when
`j < k`, for some `k` in `0..=128`. -/
def contiguous_mask (mask : List Nat) : Prop :=
  mask.length = 16 ∧ (∀ i < 16, mask.getD i 0 < 256)
    ∧ ∃ k ≤ 128, ∀ j < 128, mask_bit mask j = decide (j < k)

/-- The condition `network & ~mask == 0`, byte by byte, on `unsigned char`
values (`~m` restricted to a byte is `255 - m`). -/
def host_bits_zero (network mask : List Nat) : Prop :=
  ∀ i < 16, network.getD i 0 &&& (255 - mask.getD i 0) = 0

/-- The invariant of an entry of the access list: a Numeric entry has its host
bits zero and a contiguous mask. -/
def acl_invariant (acl : acl_s) : Prop :=
  match acl.address with
  | .string _ => True
  | .ip network mask =>
    network.length = 16 ∧ host_bits_zero network mask ∧ contiguous_mask mask

/-- A sequence of `insert_acl` calls, each with its own environment, pattern and
access; the return values are ignored, as the directive handlers do. -/
def insert_acls : List (Env × CString × acl_access_t) → vector_t → vector_t
  | [], access_list => access_list
  | (env, location, access_type) :: calls, access_list =>
    insert_acls calls (insert_acl env location access_type access_list).access_list

/-- The entries held by an access list (none for the NULL vector). -/
def entries (access_list : vector_t) : List acl_s := access_list.getD []

/-- Resolving the name `s` succeeds and some resolved address prints exactly as
`ip`. -/
def resolves_to (env : Env) (s ip : CString) : Prop :=
  ∃ res, env.getaddrinfo s = some res ∧ ip ∈ res

/-- The host name is at least as long as `s` and its last `len (s)` characters
equal `s` ignoring ASCII case. -/
def ends_with_nocase (host s : CString) : Prop :=
  s.length ≤ host.length
    ∧ ∃ front back, host = front ++ back ∧ back.length = s.length
      ∧ back.map Char.toLower = s.map Char.toLower

/-- The match condition of a String entry with pattern `s`, in the words of the
specification. -/
def string_rule_matches (env : Env) (s ip host : CString) : Prop :=
  (s.head? ≠ some '.' ∧ resolves_to env s ip) ∨ ends_with_nocase host s

/-- The 32-bit value of the IPv4 address `a.b.c.d`. -/
def ipv4_value (a b c d : Nat) : Nat := ((a * 256 + b) * 256 + c) * 256 + d

/-- The top `n` bits of a 32-bit value. -/
def top_bits (n x : Nat) : Nat := x / 2 ^ (32 - n)

/-- The entry never consults the resolver: it is Numeric, or a String entry
whose pattern starts with `.`. -/
def suffix_only (acl : acl_s) : Bool :=
  match acl.address with
  | .ip _ _ => true
  | .string s => s.head? == some '.'

/-- The environment `env0` with a resolver that answers every name with the
single address `1.2.3.4`. -/
def env_dns : Env :=
  { env0 with getaddrinfo := fun _ => some ["1.2.3.4".toList] }

/-! ## Upstream proxies (`src/upstream.c`) -/

/-- The record `struct upstream` of `upstream.h`, without the link `next`: a
list of upstream rules is a `List upstream`, head first.  `none` is the NULL
pointer; `ip` and `mask` are `in_addr_t` values in host byte order. -/
structure upstream where
  host : Option CString
  domain : Option CString
  user : Option CString
  pwd : Option CString
  port : Int
  ip : Nat
  mask : Nat
deriving DecidableEq, Repr

/-- Everything `upstream.c` calls but does not define.

* `inet_aton text`: `some a` when `inet_aton (text, &addr)` succeeds, with
  `a = ntohl (addr.s_addr)`; `none` when it returns 0.
* `safemalloc_ok`, `dup_user_ok`, `dup_pwd_ok`, `dup_host_ok`, `dup_domain_ok`:
  whether the allocation of the record, and each `safestrdup`, succeeds.
* `uninit_port`: the contents of the field `port` of a freshly allocated
  record, which `upstream_build` does not initialise.
* `shl_undefined k`: the value that `~((1 << k) - 1)` leaves in an `in_addr_t`
  when `k` is outside `0..=31`, where the shift is undefined in C. -/
structure upstream_env where
  inet_aton : CString → Option Nat
  safemalloc_ok : Bool
  dup_user_ok : Bool
  dup_pwd_ok : Bool
  dup_host_ok : Bool
  dup_domain_ok : Bool
  uninit_port : Int
  shl_undefined : Int → Nat

/-- The call `safestrdup (s)`: NULL when the allocation fails. -/
def safestrdup (ok : Bool) (s : CString) : Option CString :=
  if ok then some s else none

/-- The C library function `atoi`: white space, an optional sign and the
longest run of decimal digits; 0 without a digit.  For a value outside the
range of `int`, where C leaves the result undefined, this is the mathematical
value. -/
def atoi (s : CString) : Int :=
  let t := s.dropWhile isspace
  let neg : Bool := t.head? == some '-'
  let body := if t.head? == some '-' || t.head? == some '+' then t.tail else t
  let v : Int := digits_value (body.takeWhile Char.isDigit)
  if neg then -v else v

/-- The expression `~((1 << (32 - n)) - 1)` stored in an `in_addr_t`. -/
def shift_mask (env : upstream_env) (n : Int) : Nat :=
  let k := 32 - n
  if 0 ≤ k ∧ k ≤ 31 then 2 ^ 32 - 2 ^ k.toNat else env.shl_undefined k

/-- Text of an `int` printed with `%d`. -/
def decimal_int (i : Int) : CString :=
  if i < 0 then '-' :: decimal i.natAbs else decimal i.toNat

/-- Text of a string argument printed with `%s`; the C library prints a NULL
pointer as `(null)`. -/
def fmt_s (s : Option CString) : CString :=
  match s with
  | some t => t
  | none => "(null)".toList

/-- The function `upstream_build (user, pwd, host, port, domain)`: the record
built (`none` for NULL) and the messages logged. -/
def upstream_build (env : upstream_env) (user pwd host : Option CString) (port : Int)
    (domain : Option CString) : Option upstream × List log_entry :=
  if env.safemalloc_ok = false then
    (none, [{ level := .LOG_ERR,
              text := "Unable to allocate memory in upstream_build()".toList }])
  else
    let up : upstream :=
      { host := none, domain := none, ip := 0, mask := 0,
        user := match user with
          | none => some []
          | some u => safestrdup env.dup_user_ok u,
        pwd := match pwd with
          | none => some []
          | some w => safestrdup env.dup_pwd_ok w,
        port := env.uninit_port }
    match domain, host with
    | none, none =>
      (none, [{ level := .LOG_WARNING,
                text := "Nonsense upstream rule: invalid host or port".toList }])
    | none, some h =>
      if h.head? = none ∨ port < 1 then
        (none, [{ level := .LOG_WARNING,
                  text := "Nonsense upstream rule: invalid host or port".toList }])
      else
        (some { up with host := safestrdup env.dup_host_ok h, port := port },
          [{ level := .LOG_INFO,
             text := "Added upstream ".toList ++ h ++ ":".toList ++ decimal_int port
               ++ " for [default]".toList }])
    | some d, none =>
      if d.head? = none then
        (none, [{ level := .LOG_WARNING,
                  text := "Nonsense no-upstream rule: empty domain".toList }])
      else if d.contains '/' then
        -- `ptr = strchr (domain, '/'); *ptr = 0`
        let left := d.takeWhile (fun c => c != '/')
        let ptr := (d.dropWhile (fun c => c != '/')).tail
        match env.inet_aton left with
        | some a =>
          -- `*ptr++ = '/'` restores the string
          let mask :=
            if ptr.contains '.' then
              match env.inet_aton ptr with
              | some m => m
              | none => 0
            else shift_mask env (atoi ptr)
          (some { up with ip := a, mask := mask },
            [{ level := .LOG_INFO, text := "Added no-upstream for ".toList ++ d }])
        | none =>
          -- the string stays cut at the slash
          (some up,
            [{ level := .LOG_INFO, text := "Added no-upstream for ".toList ++ left }])
      else
        (some { up with domain := safestrdup env.dup_domain_ok d },
          [{ level := .LOG_INFO, text := "Added no-upstream for ".toList ++ d }])
    | some d, some h =>
      -- `domain == 0` compares the pointer, which is not NULL here
      if h.head? = none ∨ port < 1 then
        (none, [{ level := .LOG_WARNING,
                  text := "Nonsense upstream rule: invalid parameters".toList }])
      else
        (some { up with host := safestrdup env.dup_host_ok h, port := port,
                        domain := safestrdup env.dup_domain_ok d },
          [{ level := .LOG_INFO,
             text := "Added upstream ".toList ++ fmt_s user ++ ":<pwd>@".toList ++ h
               ++ ":".toList ++ decimal_int port ++ " for ".toList ++ d }])

/-- The test `!up->domain && !up->ip` of `upstream_add` and `upstream_get`: the
rule has neither a domain nor a CIDR address. -/
def is_default (up : upstream) : Bool :=
  up.domain.isNone && up.ip == 0

/-- The loop `while (tmp)` of `upstream_add`, entered with `tmp` at the head of
the given list: `none` when a default rule is found (`goto upstream_cleanup`),
otherwise the list with `up` linked behind its last element (for the empty
list the loop is not entered and `up` becomes the head). -/
def upstream_add_loop (up : upstream) : List upstream → Option (List upstream)
  | [] => some [up]
  | tmp :: rest =>
    if is_default tmp then none
    else
      match rest with
      | [] => some [tmp, up]
      | _ :: _ => (upstream_add_loop up rest).map (fun l => tmp :: l)

/-- The function `upstream_add (user, pwd, host, port, domain, upstream_list)`:
the list afterwards and the messages logged. -/
def upstream_add (env : upstream_env) (user pwd host : Option CString) (port : Int)
    (domain : Option CString) (upstream_list : List upstream) :
    List upstream × List log_entry :=
  match upstream_build env user pwd host port domain with
  | (none, log) => (upstream_list, log)
  | (some up, log) =>
    if is_default up then
      match upstream_add_loop up upstream_list with
      | none =>
        (upstream_list,
          log ++ [{ level := .LOG_WARNING, text := "Duplicate default upstream".toList }])
      | some l => (l, log)
    else
      (up :: upstream_list, log)

/-- The constant `INADDR_NONE`. -/
def INADDR_NONE : Nat := 0xffffffff

/-- The expression `ntohl (inet_addr (host))`: `inet_addr` returns
`INADDR_NONE` for a text that `inet_aton` rejects. -/
def inet_addr (env : upstream_env) (host : CString) : Nat :=
  match env.inet_aton host with
  | some a => a
  | none => INADDR_NONE

/-- The call `strchr (s, c)` for a character `c` other than NUL: the rest of the
string from the first `c` on, `none` for NULL. -/
def strchr (c : Char) : CString → Option CString
  | [] => none
  | x :: xs => if x = c then some (x :: xs) else strchr c xs

/-- The statements `dot = strchr (s, '.'); while (dot && strcasecmp (dot, domain))
dot = strchr (dot + 1, '.');` of `upstream_get`: the final value of `dot`. -/
def dot_search (domain : CString) : CString → Option CString
  | [] => none
  | x :: xs =>
    if x = '.' then
      if strcasecmp_eq (x :: xs) domain then some (x :: xs) else dot_search domain xs
    else dot_search domain xs

/-- The selector test of `upstream_get` for a rule with a domain: `true` when
the loop is left by one of the three `break`s. -/
def domain_test (host domain : CString) : Bool :=
  if strcasecmp_eq host domain then true
  else if domain.head? == some '.' then
    if (strchr '.' host).isNone && domain.tail.head? == none then true
    else (dot_search domain host).isSome
  else false

/-- The loop `while (up)` of `upstream_get`, with the current value of `my_ip`:
the rule at which the loop is left, `none` when the list is exhausted. -/
def upstream_get_loop (env : upstream_env) (host : CString) :
    Nat → List upstream → Option upstream
  | _, [] => none
  | my_ip, up :: rest =>
    match up.domain with
    | some domain =>
      if domain_test host domain then some up
      else upstream_get_loop env host my_ip rest
    | none =>
      if up.ip ≠ 0 then
        let my_ip := if my_ip = INADDR_NONE then inet_addr env host else my_ip
        if my_ip &&& up.mask = up.ip then some up
        else upstream_get_loop env host my_ip rest
      else some up

/-- The function `upstream_get (host, up)`: the rule returned (`none` for NULL)
and the message logged. -/
def upstream_get (env : upstream_env) (host : CString) (up : List upstream) :
    Option upstream × List log_entry :=
  match upstream_get_loop env host INADDR_NONE up with
  | none =>
    (none, [{ level := .LOG_INFO, text := "No upstream proxy for ".toList ++ host }])
  | some u =>
    if u.host.isNone || u.port == 0 then
      (none, [{ level := .LOG_INFO, text := "No upstream proxy for ".toList ++ host }])
    else
      (some u,
        [{ level := .LOG_INFO,
           text := "Found upstream proxy ".toList ++ fmt_s u.host ++ ":".toList
             ++ decimal_int u.port ++ " for ".toList ++ host }])

/-- The selector test of `upstream_get` for one rule, with `my_ip` the parsed
destination host. -/
def upstream_matches (env : upstream_env) (host : CString) (up : upstream) : Bool :=
  match up.domain with
  | some domain => domain_test host domain
  | none => if up.ip ≠ 0 then inet_addr env host &&& up.mask == up.ip else true

/-- A call of `upstream_add`: its environment and its five arguments. -/
structure upstream_call where
  env : upstream_env
  user : Option CString
  pwd : Option CString
  host : Option CString
  port : Int
  domain : Option CString

/-- A sequence of `upstream_add` calls on a list. -/
def upstream_adds : List upstream_call → List upstream → List upstream
  | [], l => l
  | c :: cs, l =>
    upstream_adds cs (upstream_add c.env c.user c.pwd c.host c.port c.domain l).1

/-- The value of a dotted quad `a.b.c.d` with four decimal components, each at
most 255. -/
def parse_quad (text : CString) : Option Nat :=
  match (split_at '.' text).map parse_octet with
  | [some a, some b, some c, some d] => some (ipv4_value a b c d)
  | _ => none

/-- A concrete environment for `upstream.c`: an `inet_aton` that accepts dotted
quads of four decimal components, allocations that succeed, a fresh record
filled with zero bytes, and a shift that uses the low five bits of its count. -/
def uenv0 : upstream_env :=
  { inet_aton := parse_quad
    safemalloc_ok := true
    dup_user_ok := true
    dup_pwd_ok := true
    dup_host_ok := true
    dup_domain_ok := true
    uninit_port := 0
    shl_undefined := fun k => 2 ^ 32 - 2 ^ (k % 32).toNat }

/-- The invariant of the upstream list: no rule before the last one is a
default rule. -/
def default_last (l : List upstream) : Prop :=
  ∀ r ∈ l.dropLast, is_default r = false

/-- The calls made by the directives `upstream p1:3128 ".a.com"`,
`upstream p2:3128` and `no upstream "intra.corp"`, in this order. -/
def scenario_calls : List upstream_call :=
  [{ env := uenv0, user := none, pwd := none, host := some "p1".toList, port := 3128,
     domain := some ".a.com".toList },
   { env := uenv0, user := none, pwd := none, host := some "p2".toList, port := 3128,
     domain := none },
   { env := uenv0, user := none, pwd := none, host := none, port := 0,
     domain := some "intra.corp".toList }]

/-- The default proxy `p2:3128` as `upstream_build` makes it in `uenv0`. -/
def proxy_p2 : upstream :=
  { host := some "p2".toList, domain := none, user := some [], pwd := some [],
    port := 3128, ip := 0, mask := 0 }

/-- The proxy `p1:3128` for the domain `.a.com` as `upstream_build` makes it in
`uenv0`. -/
def proxy_p1 : upstream :=
  { host := some "p1".toList, domain := some ".a.com".toList, user := some [],
    pwd := some [], port := 3128, ip := 0, mask := 0 }

/-- Equality of two strings ignoring ASCII case. -/
def eq_nocase (a b : CString) : Prop :=
  a.map Char.toLower = b.map Char.toLower

instance (a b : CString) : Decidable (eq_nocase a b) := by
  unfold eq_nocase; infer_instance

/-- Some suffix of `host` that starts at a `.` character equals `s` ignoring
ASCII case. -/
def dot_suffix_nocase (host s : CString) : Prop :=
  ∃ front suf, host = front ++ suf ∧ suf.head? = some '.' ∧ eq_nocase suf s

/-- The rule that `no upstream "255.255.0.0/16"` makes in `uenv0`. -/
def cidr_rule : upstream :=
  { host := none, domain := none, user := some [], pwd := some [], port := 0,
    ip := 0xffff0000, mask := 0xffff0000 }

/-- The rule that `no upstream "foo/24"` makes in `uenv0`: it has no domain and
no address. -/
def empty_rule : upstream :=
  { host := none, domain := none, user := some [], pwd := some [], port := 0,
    ip := 0, mask := 0 }

/-- The record built by the call, `none` when `upstream_build` returns NULL. -/
def built (c : upstream_call) : Option upstream :=
  (upstream_build c.env c.user c.pwd c.host c.port c.domain).1

/-! ## The configuration record (`conf.h`) -/

/-- One added header of `conf->add_headers` (`http_header_t`). -/
structure http_header_t where
  name : Option CString
  value : Option CString
deriving DecidableEq, Repr

/-- One entry of `conf->reversepath_list`, as `reversepath_add (path, url,
&list)` receives it. -/
structure reversepath where
  path : Option CString
  url : CString
deriving DecidableEq, Repr

/-- The record `struct config_s`, with the fields that `conf.c` and
`transparent-proxy.c` use.  Character pointers are `Option CString` (`none` is
NULL), `unsigned int` fields are `Nat`; `errorpages` and `anonymous_map` are
handles of hash maps kept by other modules (`true` when not NULL). -/
structure config_s where
  logf_name : Option CString
  config_file : Option CString
  syslog : Nat
  port : Nat
  stathost : Option CString
  godaemon : Nat
  quit : Nat
  user : Option CString
  group : Option CString
  ipAddr : Option CString
  filter : Option CString
  filter_url : Nat
  filter_extended : Nat
  filter_casesensitive : Nat
  add_xtinyproxy : Nat
  reversepath_list : List reversepath
  reverseonly : Nat
  reversemagic : Nat
  reversebaseurl : Option CString
  upstream_list : List upstream
  pidpath : Option CString
  idletimeout : Nat
  bind_address : Option CString
  bindsame : Nat
  via_proxy_name : Option CString
  disable_viaheader : Nat
  errorpages : Bool
  errorpage_undef : Option CString
  statpage : Option CString
  access_list : vector_t
  connect_ports : Option (List Nat)
  anonymous_map : Bool
  add_headers : Option (List http_header_t)
deriving DecidableEq, Repr

/-- The record after `memset (conf, 0, sizeof (*conf))`. -/
def config_zero : config_s :=
  { logf_name := none, config_file := none, syslog := 0, port := 0, stathost := none,
    godaemon := 0, quit := 0, user := none, group := none, ipAddr := none, filter := none,
    filter_url := 0, filter_extended := 0, filter_casesensitive := 0, add_xtinyproxy := 0,
    reversepath_list := [], reverseonly := 0, reversemagic := 0, reversebaseurl := none,
    upstream_list := [], pidpath := none, idletimeout := 0, bind_address := none,
    bindsame := 0, via_proxy_name := none, disable_viaheader := 0, errorpages := false,
    errorpage_undef := none, statpage := none, access_list := none, connect_ports := none,
    anonymous_map := false, add_headers := none }

/-! ## Transparent proxy (`src/transparent-proxy.c`) -/

/-- The record `struct request_s` of `reqs.h`; `port` is a `uint16_t`. -/
structure request_s where
  method : Option CString
  host : Option CString
  port : Nat
  path : Option CString
deriving DecidableEq, Repr

/-- Everything `transparent-proxy.c` calls but does not define.

* `ULONG_MAX`: the constant of `<limits.h>`, used by the conversion `%hu`.
* `HTTP_PORT`: the macro of that name, which no file under `src/` defines.
* `getsockname`: `none` when `getsockname` fails, else the text that `inet_ntoa`
  prints for the address found and `ntohs` of its port.
* `malloc_host_ok`, `malloc_path_ok`, `malloc_url_ok`: whether the allocation of
  `request->host`, of `request->path` and of the new `*url` succeeds. -/
structure transparent_env where
  ULONG_MAX : Nat
  HTTP_PORT : Nat
  getsockname : Option (CString × Nat)
  malloc_host_ok : Bool
  malloc_path_ok : Bool
  malloc_url_ok : Bool

/-- A call of `indicate_http_error`: the status, the message and the pairs of
the variable argument list (a NULL url is `none`). -/
structure http_error where
  number : Nat
  message : CString
  detail : CString
  url : Option CString
deriving DecidableEq, Repr

/-- The result of `strlcpy (dst, src, size)` in `dst`: at most `size - 1`
characters of `src`. -/
def strlcpy (src : CString) (size : Nat) : CString :=
  src.take (size - 1)

/-- The call `sscanf (data, "%[^:]:%hu", host, &port)`: the return value, the
string stored through `host` and the value stored in the `uint16_t` `port`
(`none` where nothing is stored).  `%[^:]` takes the longest non-empty run of
characters other than `:`; `%hu` converts like `strtoul` in base 10 and keeps
the low 16 bits. -/
def sscanf_host_port (ULONG_MAX : Nat) (data : CString) :
    Int × Option CString × Option Nat :=
  let name := data.takeWhile (fun c => c != ':')
  if name.isEmpty then
    (if data.isEmpty then -1 else 0, none, none)
  else
    match data.dropWhile (fun c => c != ':') with
    | ':' :: tail =>
      let r := strtoul ULONG_MAX tail
      if r.consumed = 0 then (1, some name, none)
      else (2, some name, some (r.value % 65536))
    | _ => (1, some name, none)

/-- The statement
`if (sscanf (data, "%[^:]:%hu", request->host, &request->port) != 2)
   { strlcpy (request->host, data, length + 1); request->port = HTTP_PORT; }`:
the host and the port that it leaves in the request, whose port is a
`uint16_t`. -/
def host_header (env : transparent_env) (length : Nat) (data : CString) : CString × Nat :=
  match sscanf_host_port env.ULONG_MAX data with
  | (2, some name, some port) => (name, port)
  | _ => (strlcpy data (length + 1), env.HTTP_PORT % 65536)

/-- The statements of `build_url` after its assertions: the return value and the
new `*url` (`none` for NULL). -/
def build_url_body (env : transparent_env) (h : CString) (port : Int) (p : CString) :
    Int × Option CString :=
  let len := h.length + p.length + 14
  if env.malloc_url_ok = false then (-1, none)
  else
    let s := "http://".toList ++ h ++ ":".toList ++ decimal_int port ++ p
    -- `snprintf` returns the length of `s` and stores at most `len - 1` characters
    ((s.length : Int), some (s.take (len - 1)))

/-- The function `build_url (url, host, port, path)`: the return value and the
new `*url` (`none` for NULL); `none` altogether when an assertion fails. -/
def build_url (env : transparent_env) (host : Option CString) (port : Int)
    (path : Option CString) : Option (Int × Option CString) :=
  match host, path with
  | some h, some p =>
    if 0 < port ∧ port < 32768 then some (build_url_body env h port p)
    else none
  | _, _ => none

/-- What `do_transparent_proxy` leaves behind: the return value, `*request`,
`*url`, the messages logged and the error page requested. -/
structure transparent_result where
  ret : Int
  request : request_s
  url : Option CString
  log : List log_entry
  error : Option http_error
deriving DecidableEq, Repr

/-- The end of `do_transparent_proxy`: the comparison of `request->host` with
`conf->ipAddr`. -/
def transparent_check (client_fd : Int) (conf : config_s) (request : request_s)
    (url : Option CString) (log : List log_entry) : Option transparent_result :=
  match conf.ipAddr with
  | none => some { ret := 1, request := request, url := url, log := log, error := none }
  | some ip =>
    match request.host with
    | none => none
    | some h =>
      if h = ip then
        some { ret := 0, request := request, url := url,
               log := log ++ [
                 { level := .LOG_ERR,
                   text := "process_request: destination IP is localhost ".toList
                     ++ decimal_int client_fd }],
               error := some
                 { number := 400, message := "Bad Request".toList,
                   detail := ("You tried to connect to the machine "
                     ++ "the proxy is running on").toList,
                   url := url } }
      else some { ret := 1, request := request, url := url, log := log, error := none }

/-- The function `do_transparent_proxy (connptr, hashofheaders, request, conf,
url)`.  `client_fd` is `connptr->client_fd`; `hashofheaders` is what
`hashmap_entry_by_key (hashofheaders, "host", &data)` gives: its return value and
`data`.  `none` when an assertion fails or a NULL pointer is written through. -/
def do_transparent_proxy (env : transparent_env) (client_fd : Int)
    (hashofheaders : Int × CString) (request : request_s) (conf : config_s)
    (url : CString) : Option transparent_result :=
  let ulen := url.length
  -- `socklen_t length`
  let length : Nat := (hashofheaders.1 % 2 ^ 32).toNat
  let data := hashofheaders.2
  if length ≤ 0 then
    match env.getsockname with
    | none =>
      some { ret := 0, request := request, url := some url,
             log := [
               { level := .LOG_ERR,
                 text := "process_request: cannot get destination IP for ".toList
                   ++ decimal_int client_fd }],
             error := some { number := 400, message := "Bad Request".toList,
                             detail := "Unknown destination".toList, url := some url } }
    | some (ntoa, port) =>
      if env.malloc_host_ok = false ∨ env.malloc_path_ok = false then none
      else
        let request := { request with
          host := some (strlcpy ntoa 17), port := port % 65536,
          path := some (strlcpy url (ulen + 1)) }
        match build_url env request.host request.port request.path with
        | none => none
        | some (_, url) =>
          transparent_check client_fd conf request url
            [{ level := .LOG_INFO,
               text := "process_request: trans IP ".toList ++ fmt_s request.method
                 ++ " ".toList ++ fmt_s url ++ " for ".toList ++ decimal_int client_fd }]
  else
    if env.malloc_host_ok = false ∨ env.malloc_path_ok = false then none
    else
      let hp := host_header env length data
      let request := { request with
        host := some hp.1, port := hp.2, path := some (strlcpy url (ulen + 1)) }
      match build_url env request.host request.port request.path with
      | none => none
      | some (_, url) =>
        transparent_check client_fd conf request url
          [{ level := .LOG_INFO,
             text := "process_request: trans Host ".toList ++ fmt_s request.method
               ++ " ".toList ++ fmt_s url ++ " for ".toList ++ decimal_int client_fd }]

/-- A concrete environment for `transparent-proxy.c`: a 64-bit `unsigned long`,
an intercepted connection to `10.0.0.1`, port 80, and allocations that
succeed. -/
def tenv0 : transparent_env :=
  { ULONG_MAX := 2 ^ 64 - 1
    HTTP_PORT := 80
    getsockname := some ("10.0.0.1".toList, 80)
    malloc_host_ok := true
    malloc_path_ok := true
    malloc_url_ok := true }

/-- A request as the caller passes it: the method is known, the rest is not
yet filled in. -/
def request0 : request_s :=
  { method := some "GET".toList, host := none, port := 0, path := none }

/-! ## Configuration file (`src/conf.c`): arguments of a directive -/

/-- Value of a character as a digit of `strtoul`: `0`-`9`, then the letters in
either case from 10 on; 36 for any other character. -/
def digit_of (c : Char) : Nat :=
  if '0' ≤ c ∧ c ≤ '9' then c.toNat - '0'.toNat
  else if 'a' ≤ c ∧ c ≤ 'z' then c.toNat - 'a'.toNat + 10
  else if 'A' ≤ c ∧ c ≤ 'Z' then c.toNat - 'A'.toNat + 10
  else 36

/-- Value of a run of digits in base `b`, most significant first. -/
def base_value (b : Nat) (ds : List Char) : Nat :=
  ds.foldl (fun acc c => b * acc + digit_of c) 0

/-- The C library function `strtoul (nptr, &endptr, base)` for `base` 0 or
between 2 and 36: white space is skipped and one sign accepted; with base 0 or
16 a prefix `0x` or `0X` in front of a hexadecimal digit is skipped and selects
base 16; otherwise base 0 means base 8 when the text starts with `0` and base
10 when it does not.  Then the longest run of digits of the base is converted.
The result is the value, `errno` and the offset `endptr - nptr`, as for
`strtoul`. -/
def strtoul_base (ULONG_MAX : Nat) (base : Nat) (nptr : CString) : strtoul_t :=
  let s := nptr.dropWhile isspace
  let neg : Bool := s.head? == some '-'
  let body := if s.head? == some '-' || s.head? == some '+' then s.tail else s
  let hex : Bool :=
    match body with
    | '0' :: x :: d :: _ => (x == 'x' || x == 'X') && decide (digit_of d < 16)
    | _ => false
  let b : Nat :=
    if (base = 0 ∨ base = 16) ∧ hex = true then 16
    else if base = 0 then (if body.head? == some '0' then 8 else 10)
    else base
  let text := if (base = 0 ∨ base = 16) ∧ hex = true then body.drop 2 else body
  let ds := text.takeWhile (fun c => decide (digit_of c < b))
  if ds.isEmpty then
    { value := 0, errno := 0, consumed := 0 }
  else
    let v := base_value b ds
    let consumed := nptr.length - (text.length - ds.length)
    if v > ULONG_MAX then
      { value := ULONG_MAX, errno := ERANGE, consumed := consumed }
    else
      { value := if neg then (ULONG_MAX + 1 - v) % (ULONG_MAX + 1) else v,
        errno := 0, consumed := consumed }

/-- The type `regmatch_t` of `<regex.h>`: the offsets of a matched substring,
both `-1` for a group that took no part in the match. -/
structure regmatch_t where
  rm_so : Int
  rm_eo : Int
deriving DecidableEq, Repr

/-- The element `match[i]` of the array of `RE_MAX_MATCHES` offsets; `regexec`
fills the entries it does not use with `-1`. -/
def match_at (m : List regmatch_t) (i : Nat) : regmatch_t :=
  m.getD i { rm_so := -1, rm_eo := -1 }

/-- The function `get_long_arg (line, match)`: `none` when the assertion
`match->rm_so != -1` fails, else `strtoul (line + match->rm_so, NULL, 0)`. -/
def get_long_arg (ULONG_MAX : Nat) (line : CString) (m : regmatch_t) : Option Nat :=
  if m.rm_so = -1 then none
  else some (strtoul_base ULONG_MAX 0 (line.drop m.rm_so.toNat)).value

/-! ## Configuration file (`src/conf.c`): the environment -/

/-- What `conf.c` does outside the configuration record: the messages it logs
or prints and its calls into other modules. -/
inductive conf_event where
  | log (e : log_entry)
  | stderr (text : CString)
  | stdout (text : CString)
  | anonymous_insert (arg : CString)
  | child_configure (type : CString) (val : Nat)
  | add_new_errorpage (page : Option CString) (err : Nat)
  | set_log_level (level : CString)
  | filter_set_default_policy (policy : CString)
deriving DecidableEq, Repr

/-- Everything `conf.c` uses but does not define.

* `ULONG_MAX`, `UINT_MAX`: the constants of `<limits.h>`.
* `MAX_IDLE_TIME`, `PACKAGE`: the macros of the same names.
* `FILTER_ENABLE`, `REVERSE_SUPPORT`, `UPSTREAM_SUPPORT`, `XTINYPROXY_ENABLE`,
  `HAVE_SYSLOG_H`, `TRANSPARENT_PROXY`: whether the macro is defined in the
  build.
* `acl`, `upstream`: the environments of `acl.c` and `upstream.c`.
* `regexec re line`: the call `regexec (cre, line, RE_MAX_MATCHES, match, 0)`
  for the expression compiled from `re` with `REG_EXTENDED | REG_ICASE |
  REG_NEWLINE`; `none` when it does not return 0, else the array `match`.
* `fopen name`: the text of the file, `none` when it cannot be opened.
* `safemalloc_ok size`, `safestrdup_ok s`: whether the allocation succeeds.
* `vector_create_ok`, `header_malloc_ok`, `vector_prepend_ok`: whether
  `vector_create`, the allocation of an `http_header_t` and `vector_prepend` on
  an existing vector succeed in `handle_addheader`.
* `add_connect_port_allowed`, `reversepath_add`: the functions of
  `connect-ports.c` and `reverse-proxy.c`, as the list they leave. -/
structure conf_env where
  ULONG_MAX : Nat
  UINT_MAX : Nat
  MAX_IDLE_TIME : Nat
  PACKAGE : CString
  FILTER_ENABLE : Bool
  REVERSE_SUPPORT : Bool
  UPSTREAM_SUPPORT : Bool
  XTINYPROXY_ENABLE : Bool
  HAVE_SYSLOG_H : Bool
  TRANSPARENT_PROXY : Bool
  acl : Env
  upstream : upstream_env
  regexec : CString → CString → Option (List regmatch_t)
  fopen : CString → Option CString
  safemalloc_ok : Nat → Bool
  safestrdup_ok : CString → Bool
  vector_create_ok : Bool
  header_malloc_ok : Bool
  vector_prepend_ok : Bool
  add_connect_port_allowed : Nat → Option (List Nat) → Option (List Nat)
  reversepath_add : Option CString → CString → List reversepath → List reversepath

/-- What a directive handler leaves behind: its return value, the record and
what it did outside the record. -/
structure handler_result where
  ret : Int
  conf : config_s
  events : List conf_event
deriving DecidableEq, Repr

/-- The function `get_string_arg (line, match)`: the outer `none` when the
assertion `len > 0` fails, `some none` for the NULL of a failed allocation,
else the `len` characters from offset `match->rm_so` of the line, where `len`
is the `unsigned int` `match->rm_eo - match->rm_so`. -/
def get_string_arg (env : conf_env) (line : CString) (m : regmatch_t) :
    Option (Option CString) :=
  let len : Nat := ((m.rm_eo - m.rm_so) % ((env.UINT_MAX : Int) + 1)).toNat
  if len = 0 then none
  else if env.safemalloc_ok (len + 1) = false then some none
  else some (some ((line.drop m.rm_so.toNat).take len))

/-- The function `set_string_arg (var, line, match)`: the return value and the
new `*var`. -/
def set_string_arg (env : conf_env) (var : Option CString) (line : CString)
    (m : regmatch_t) : Option (Int × Option CString) :=
  match get_string_arg env line m with
  | none => none
  | some none => some (-1, var)
  | some (some arg) => some (0, some arg)

/-- The function `get_bool_arg (line, match)`: `none` when the assertion
`match->rm_so != -1` fails; `p[i]` past the end of the line reads as NUL. -/
def get_bool_arg (line : CString) (m : regmatch_t) : Option Int :=
  if m.rm_so = -1 then none
  else
    let p := line.drop m.rm_so.toNat
    if (p.getD 0 '\x00').toLower = 'y' ∨ (p.getD 1 '\x00').toLower = 'n' then some 1
    else some 0

/-- The function `set_bool_arg (var, line, match)`: the return value and the new
`*var`. -/
def set_bool_arg (line : CString) (m : regmatch_t) : Option (Int × Nat) :=
  (get_bool_arg line m).map (fun b => (0, b.toNat))

/-- The function `set_int_arg (var, line, match)`: the return value and the new
`*var`, the result of `get_long_arg` converted to `unsigned int`. -/
def set_int_arg (env : conf_env) (line : CString) (m : regmatch_t) : Option (Int × Nat) :=
  (get_long_arg env.ULONG_MAX line m).map (fun v => (0, v % (env.UINT_MAX + 1)))

/-- A handler that returns `ret` after the events `ev`. -/
def handled (ret : Int) (conf : config_s) (ev : List conf_event) : Option handler_result :=
  some { ret := ret, conf := conf, events := ev }

/-! ## Configuration file (`src/conf.c`): the directive handlers -/

/-- The function `handle_nop`. -/
def handle_nop (_env : conf_env) (conf : config_s) (_line : CString)
    (_m : List regmatch_t) : Option handler_result :=
  handled 0 conf []

/-- The function `handle_logfile`. -/
def handle_logfile (env : conf_env) (conf : config_s) (line : CString)
    (m : List regmatch_t) : Option handler_result :=
  (set_string_arg env conf.logf_name line (match_at m 2)).bind
    (fun r => handled r.1 { conf with logf_name := r.2 } [])

/-- The function `handle_pidfile`. -/
def handle_pidfile (env : conf_env) (conf : config_s) (line : CString)
    (m : List regmatch_t) : Option handler_result :=
  (set_string_arg env conf.pidpath line (match_at m 2)).bind
    (fun r => handled r.1 { conf with pidpath := r.2 } [])

/-- The function `handle_anonymous`. -/
def handle_anonymous (env : conf_env) (conf : config_s) (line : CString)
    (m : List regmatch_t) : Option handler_result :=
  match get_string_arg env line (match_at m 2) with
  | none => none
  | some none => handled (-1) conf []
  | some (some arg) => handled 0 conf [.anonymous_insert arg]

/-- The function `handle_viaproxyname`. -/
def handle_viaproxyname (env : conf_env) (conf : config_s) (line : CString)
    (m : List regmatch_t) : Option handler_result :=
  (set_string_arg env conf.via_proxy_name line (match_at m 2)).bind
    (fun r =>
      if r.1 ≠ 0 then handled r.1 { conf with via_proxy_name := r.2 } []
      else handled 0 { conf with via_proxy_name := r.2 }
        [.log { level := .LOG_INFO,
                text := "Setting \"Via\" header to \x27".toList ++ fmt_s r.2
                  ++ "\x27".toList }])

/-- The function `handle_disableviaheader`. -/
def handle_disableviaheader (_env : conf_env) (conf : config_s) (line : CString)
    (m : List regmatch_t) : Option handler_result :=
  (set_bool_arg line (match_at m 2)).bind
    (fun r =>
      if r.1 ≠ 0 then handled r.1 { conf with disable_viaheader := r.2 } []
      else handled 0 { conf with disable_viaheader := r.2 }
        [.log { level := .LOG_INFO,
                text := "Disabling transmission of the \"Via\" header.".toList }])

/-- The function `handle_defaulterrorfile`. -/
def handle_defaulterrorfile (env : conf_env) (conf : config_s) (line : CString)
    (m : List regmatch_t) : Option handler_result :=
  (set_string_arg env conf.errorpage_undef line (match_at m 2)).bind
    (fun r => handled r.1 { conf with errorpage_undef := r.2 } [])

/-- The function `handle_statfile`. -/
def handle_statfile (env : conf_env) (conf : config_s) (line : CString)
    (m : List regmatch_t) : Option handler_result :=
  (set_string_arg env conf.statpage line (match_at m 2)).bind
    (fun r => handled r.1 { conf with statpage := r.2 } [])

/-- The function `handle_stathost`. -/
def handle_stathost (env : conf_env) (conf : config_s) (line : CString)
    (m : List regmatch_t) : Option handler_result :=
  (set_string_arg env conf.stathost line (match_at m 2)).bind
    (fun r =>
      if r.1 ≠ 0 then handled r.1 { conf with stathost := r.2 } []
      else handled 0 { conf with stathost := r.2 }
        [.log { level := .LOG_INFO,
                text := "Stathost set to \"".toList ++ fmt_s r.2 ++ "\"".toList }])

/-- The function `handle_xtinyproxy`. -/
def handle_xtinyproxy (env : conf_env) (conf : config_s) (line : CString)
    (m : List regmatch_t) : Option handler_result :=
  if env.XTINYPROXY_ENABLE then
    (set_bool_arg line (match_at m 2)).bind
      (fun r => handled r.1 { conf with add_xtinyproxy := r.2 } [])
  else
    handled 1 conf
      [.stderr "XTinyproxy NOT Enabled! Recompile with --enable-xtinyproxy\n".toList]

/-- The function `handle_syslog`. -/
def handle_syslog (env : conf_env) (conf : config_s) (line : CString)
    (m : List regmatch_t) : Option handler_result :=
  if env.HAVE_SYSLOG_H then
    (set_bool_arg line (match_at m 2)).bind
      (fun r => handled r.1 { conf with syslog := r.2 } [])
  else
    handled 1 conf [.stderr "Syslog support not compiled in executable.\n".toList]

/-- The function `handle_bindsame`. -/
def handle_bindsame (_env : conf_env) (conf : config_s) (line : CString)
    (m : List regmatch_t) : Option handler_result :=
  (set_bool_arg line (match_at m 2)).bind
    (fun r =>
      if r.1 ≠ 0 then handled r.1 { conf with bindsame := r.2 } []
      else handled 0 { conf with bindsame := r.2 }
        [.log { level := .LOG_INFO,
                text := "Binding outgoing connection to incoming IP".toList }])

/-- The conversion of an unsigned value to `int`: the value of the same bits
in two-complement form. -/
def to_int (env : conf_env) (v : Nat) : Int :=
  let w := v % (env.UINT_MAX + 1)
  if 2 * w ≤ env.UINT_MAX then (w : Int) else (w : Int) - ((env.UINT_MAX : Int) + 1)

/-- The function `handle_port`; the message prints the port with `%d`. -/
def handle_port (env : conf_env) (conf : config_s) (line : CString)
    (m : List regmatch_t) : Option handler_result :=
  (set_int_arg env line (match_at m 2)).bind
    (fun r =>
      let conf := { conf with port := r.2 }
      if conf.port > 65535 then
        handled 1 conf
          [.stderr ("Bad port number (".toList
            ++ decimal_int (to_int env conf.port)
            ++ ") supplied for Port.\n".toList)]
      else handled 0 conf [])

/-- The handlers that pass `get_long_arg (line, &match[2])` to
`child_configure (type, ...)` and return 0. -/
def handle_child (type : String) (env : conf_env) (conf : config_s) (line : CString)
    (m : List regmatch_t) : Option handler_result :=
  (get_long_arg env.ULONG_MAX line (match_at m 2)).bind
    (fun v => handled 0 conf [.child_configure type.toList v])

/-- The function `handle_maxclients`. -/
def handle_maxclients := handle_child "CHILD_MAXCLIENTS"

/-- The function `handle_maxspareservers`. -/
def handle_maxspareservers := handle_child "CHILD_MAXSPARESERVERS"

/-- The function `handle_minspareservers`. -/
def handle_minspareservers := handle_child "CHILD_MINSPARESERVERS"

/-- The function `handle_startservers`. -/
def handle_startservers := handle_child "CHILD_STARTSERVERS"

/-- The function `handle_maxrequestsperchild`. -/
def handle_maxrequestsperchild := handle_child "CHILD_MAXREQUESTSPERCHILD"

/-- The function `handle_timeout`. -/
def handle_timeout (env : conf_env) (conf : config_s) (line : CString)
    (m : List regmatch_t) : Option handler_result :=
  (set_int_arg env line (match_at m 2)).bind
    (fun r => handled r.1 { conf with idletimeout := r.2 } [])

/-- The function `handle_connectport`. -/
def handle_connectport (env : conf_env) (conf : config_s) (line : CString)
    (m : List regmatch_t) : Option handler_result :=
  (get_long_arg env.ULONG_MAX line (match_at m 2)).bind
    (fun v =>
      handled 0
        { conf with connect_ports := env.add_connect_port_allowed v conf.connect_ports } [])

/-- The function `handle_user`. -/
def handle_user (env : conf_env) (conf : config_s) (line : CString)
    (m : List regmatch_t) : Option handler_result :=
  (set_string_arg env conf.user line (match_at m 2)).bind
    (fun r => handled r.1 { conf with user := r.2 } [])

/-- The function `handle_group`. -/
def handle_group (env : conf_env) (conf : config_s) (line : CString)
    (m : List regmatch_t) : Option handler_result :=
  (set_string_arg env conf.group line (match_at m 2)).bind
    (fun r => handled r.1 { conf with group := r.2 } [])

/-- The body shared by `handle_allow` and `handle_deny`: the argument goes to
`insert_acl`, whose return value is dropped, and the handler returns 0.  A NULL
argument fails the assertion `location != NULL` of `insert_acl`. -/
def handle_acl (access : acl_access_t) (env : conf_env) (conf : config_s)
    (line : CString) (m : List regmatch_t) : Option handler_result :=
  match get_string_arg env line (match_at m 2) with
  | none => none
  | some none => none
  | some (some arg) =>
    let r := insert_acl env.acl arg access conf.access_list
    handled 0 { conf with access_list := r.access_list } (r.log.map conf_event.log)

/-- The function `handle_allow`. -/
def handle_allow := handle_acl .ACL_ALLOW

/-- The function `handle_deny`. -/
def handle_deny := handle_acl .ACL_DENY

/-- The function `handle_bind`. -/
def handle_bind (env : conf_env) (conf : config_s) (line : CString)
    (m : List regmatch_t) : Option handler_result :=
  if env.TRANSPARENT_PROXY = false then
    (set_string_arg env conf.bind_address line (match_at m 2)).bind
      (fun r =>
        if r.1 ≠ 0 then handled r.1 { conf with bind_address := r.2 } []
        else handled 0 { conf with bind_address := r.2 }
          [.log { level := .LOG_INFO,
                  text := "Outgoing connections bound to IP ".toList ++ fmt_s r.2 }])
  else
    handled 1 conf
      [.stderr "\"Bind\" cannot be used with transparent support enabled.\n".toList]

/-- The function `handle_listen`. -/
def handle_listen (env : conf_env) (conf : config_s) (line : CString)
    (m : List regmatch_t) : Option handler_result :=
  (set_string_arg env conf.ipAddr line (match_at m 2)).bind
    (fun r =>
      if r.1 ≠ 0 then handled r.1 { conf with ipAddr := r.2 } []
      else handled 0 { conf with ipAddr := r.2 }
        [.log { level := .LOG_INFO, text := "Listening on IP ".toList ++ fmt_s r.2 }])

/-- The function `handle_errorfile`. -/
def handle_errorfile (env : conf_env) (conf : config_s) (line : CString)
    (m : List regmatch_t) : Option handler_result :=
  (get_long_arg env.ULONG_MAX line (match_at m 2)).bind
    (fun err =>
      (get_string_arg env line (match_at m 4)).bind
        (fun page => handled 0 conf [.add_new_errorpage page err]))

/-- The function `handle_addheader`; `none` when the header record cannot be
allocated and is written through all the same. -/
def handle_addheader (env : conf_env) (conf : config_s) (line : CString)
    (m : List regmatch_t) : Option handler_result :=
  (get_string_arg env line (match_at m 2)).bind
    (fun name =>
      (get_string_arg env line (match_at m 3)).bind
        (fun value =>
          let add_headers : Option (List http_header_t) :=
            match conf.add_headers with
            | none => if env.vector_create_ok then some [] else none
            | some l => some l
          if env.header_malloc_ok = false then none
          else
            let header : http_header_t := { name := name, value := value }
            let add_headers :=
              match add_headers with
              | none => none
              | some l => if env.vector_prepend_ok then some (header :: l) else some l
            handled 0 { conf with add_headers := add_headers } []))

/-- The table `log_levels`: the strings and the names of their levels. -/
def log_levels : List (String × String) :=
  [("critical", "LOG_CRIT"), ("error", "LOG_ERR"), ("warning", "LOG_WARNING"),
   ("notice", "LOG_NOTICE"), ("connect", "LOG_CONN"), ("info", "LOG_INFO")]

/-- The function `handle_loglevel`; `none` when `strcasecmp` receives the NULL of
a failed allocation. -/
def handle_loglevel (env : conf_env) (conf : config_s) (line : CString)
    (m : List regmatch_t) : Option handler_result :=
  match get_string_arg env line (match_at m 2) with
  | none => none
  | some none => none
  | some (some arg) =>
    match log_levels.find? (fun l => strcasecmp_eq arg l.1.toList) with
    | some l => handled 0 conf [.set_log_level l.2.toList]
    | none => handled (-1) conf []

/-- The function `handle_filter`. -/
def handle_filter (env : conf_env) (conf : config_s) (line : CString)
    (m : List regmatch_t) : Option handler_result :=
  (set_string_arg env conf.filter line (match_at m 2)).bind
    (fun r => handled r.1 { conf with filter := r.2 } [])

/-- The function `handle_filterurls`. -/
def handle_filterurls (_env : conf_env) (conf : config_s) (line : CString)
    (m : List regmatch_t) : Option handler_result :=
  (set_bool_arg line (match_at m 2)).bind
    (fun r => handled r.1 { conf with filter_url := r.2 } [])

/-- The function `handle_filterextended`. -/
def handle_filterextended (_env : conf_env) (conf : config_s) (line : CString)
    (m : List regmatch_t) : Option handler_result :=
  (set_bool_arg line (match_at m 2)).bind
    (fun r => handled r.1 { conf with filter_extended := r.2 } [])

/-- The function `handle_filterdefaultdeny`. -/
def handle_filterdefaultdeny (_env : conf_env) (conf : config_s) (line : CString)
    (m : List regmatch_t) : Option handler_result :=
  if (match_at m 2).rm_so = -1 then none
  else
    (get_bool_arg line (match_at m 2)).bind
      (fun b =>
        if b ≠ 0 then
          handled 0 conf [.filter_set_default_policy "FILTER_DEFAULT_DENY".toList]
        else handled 0 conf [])

/-- The function `handle_filtercasesensitive`. -/
def handle_filtercasesensitive (_env : conf_env) (conf : config_s) (line : CString)
    (m : List regmatch_t) : Option handler_result :=
  (set_bool_arg line (match_at m 2)).bind
    (fun r => handled r.1 { conf with filter_casesensitive := r.2 } [])

/-- The function `handle_reverseonly`. -/
def handle_reverseonly (_env : conf_env) (conf : config_s) (line : CString)
    (m : List regmatch_t) : Option handler_result :=
  (set_bool_arg line (match_at m 2)).bind
    (fun r => handled r.1 { conf with reverseonly := r.2 } [])

/-- The function `handle_reversemagic`. -/
def handle_reversemagic (_env : conf_env) (conf : config_s) (line : CString)
    (m : List regmatch_t) : Option handler_result :=
  (set_bool_arg line (match_at m 2)).bind
    (fun r => handled r.1 { conf with reversemagic := r.2 } [])

/-- The function `handle_reversebaseurl`. -/
def handle_reversebaseurl (env : conf_env) (conf : config_s) (line : CString)
    (m : List regmatch_t) : Option handler_result :=
  (set_string_arg env conf.reversebaseurl line (match_at m 2)).bind
    (fun r => handled r.1 { conf with reversebaseurl := r.2 } [])

/-- The function `handle_reversepath`. -/
def handle_reversepath (env : conf_env) (conf : config_s) (line : CString)
    (m : List regmatch_t) : Option handler_result :=
  match get_string_arg env line (match_at m 2) with
  | none => none
  | some none => handled (-1) conf []
  | some (some arg1) =>
    if (match_at m 4).rm_so ≠ -1 then
      match get_string_arg env line (match_at m 4) with
      | none => none
      | some none => handled (-1) conf []
      | some (some arg2) =>
        handled 0
          { conf with
            reversepath_list := env.reversepath_add (some arg1) arg2 conf.reversepath_list }
          []
    else
      handled 0
        { conf with reversepath_list := env.reversepath_add none arg1 conf.reversepath_list }
        []

/-- The function `handle_upstream`.  The call `upstream_add (ip, port, domain,
&conf->upstream_list)` names neither user nor password, which are NULL here. -/
def handle_upstream (env : conf_env) (conf : config_s) (line : CString)
    (m : List regmatch_t) : Option handler_result :=
  match get_string_arg env line (match_at m 2) with
  | none => none
  | some none => handled (-1) conf []
  | some (some ip) =>
    (get_long_arg env.ULONG_MAX line (match_at m 7)).bind
      (fun v =>
        let port := to_int env v
        if (match_at m 10).rm_so ≠ -1 then
          match get_string_arg env line (match_at m 10) with
          | none => none
          | some none => handled 0 conf []
          | some (some domain) =>
            let r := upstream_add env.upstream none none (some ip) port (some domain)
              conf.upstream_list
            handled 0 { conf with upstream_list := r.1 } (r.2.map conf_event.log)
        else
          let r := upstream_add env.upstream none none (some ip) port none conf.upstream_list
          handled 0 { conf with upstream_list := r.1 } (r.2.map conf_event.log))

/-- The function `handle_upstream_no`. -/
def handle_upstream_no (env : conf_env) (conf : config_s) (line : CString)
    (m : List regmatch_t) : Option handler_result :=
  match get_string_arg env line (match_at m 2) with
  | none => none
  | some none => handled (-1) conf []
  | some (some domain) =>
    let r := upstream_add env.upstream none none none 0 (some domain) conf.upstream_list
    handled 0 { conf with upstream_list := r.1 } (r.2.map conf_event.log)

/-! ## Configuration file (`src/conf.c`): the table of directives -/

/-- The macro `WS`. -/
def WS : String := "[[:space:]]+"

/-- The macro `STR`. -/
def STR : String := "\"([^\"]+)\""

/-- The macro `BOOL`. -/
def BOOL : String := "(yes|on|no|off)"

/-- The macro `INT`. -/
def INT : String := "((0x)?[[:digit:]]+)"

/-- The macro `ALNUM`. -/
def ALNUM : String := "([-a-z0-9._]+)"

/-- The macro `IP`. -/
def IP : String := "((([0-9]\x7b1,3\x7d)\\.)\x7b3\x7d[0-9]\x7b1,3\x7d)"

/-- The macro `IPMASK`. -/
def IPMASK : String := "(" ++ IP ++ "(/[[:digit:]]+)?)"

/-- The text `(25[0-5]|2[0-4]\d|[0-1]?\d?\d)(\.(25[0-5]|2[0-4]\d|[0-1]?\d?\d)){3}`
that the alternatives of `IPV6` with an embedded IPv4 address end in. -/
def IPV6_QUAD : String :=
  "(25[0-5]|2[0-4]\\d|[0-1]?\\d?\\d)(\\.(25[0-5]|2[0-4]\\d|[0-1]?\\d?\\d))\x7b3\x7d"

/-- The macro `IPV6`. -/
def IPV6 : String :=
  "("
    ++ "(([0-9a-f]\x7b1,4\x7d:)\x7b1,1\x7d(:[0-9a-f]\x7b1,4\x7d)\x7b1,6\x7d)|"
    ++ "(([0-9a-f]\x7b1,4\x7d:)\x7b1,2\x7d(:[0-9a-f]\x7b1,4\x7d)\x7b1,5\x7d)|"
    ++ "(([0-9a-f]\x7b1,4\x7d:)\x7b1,3\x7d(:[0-9a-f]\x7b1,4\x7d)\x7b1,4\x7d)|"
    ++ "(([0-9a-f]\x7b1,4\x7d:)\x7b1,4\x7d(:[0-9a-f]\x7b1,4\x7d)\x7b1,3\x7d)|"
    ++ "(([0-9a-f]\x7b1,4\x7d:)\x7b1,5\x7d(:[0-9a-f]\x7b1,4\x7d)\x7b1,2\x7d)|"
    ++ "(([0-9a-f]\x7b1,4\x7d:)\x7b1,6\x7d(:[0-9a-f]\x7b1,4\x7d)\x7b1,1\x7d)|"
    ++ "((([0-9a-f]\x7b1,4\x7d:)\x7b1,7\x7d|:):)|"
    ++ "(:(:[0-9a-f]\x7b1,4\x7d)\x7b1,7\x7d)|"
    ++ "([0-9a-f]\x7b1,4\x7d(:[0-9a-f]\x7b1,4\x7d)\x7b1,7\x7d)|"
    ++ "(((([0-9a-f]\x7b1,4\x7d:)\x7b6\x7d)" ++ IPV6_QUAD ++ "))|"
    ++ "((([0-9a-f]\x7b1,4\x7d:)\x7b5\x7d[0-9a-f]\x7b1,4\x7d:" ++ IPV6_QUAD ++ "))|"
    ++ "(([0-9a-f]\x7b1,4\x7d:)\x7b5\x7d:[0-9a-f]\x7b1,4\x7d:" ++ IPV6_QUAD ++ ")|"
    ++ "(([0-9a-f]\x7b1,4\x7d:)\x7b1,1\x7d(:[0-9a-f]\x7b1,4\x7d)\x7b1,4\x7d:"
      ++ IPV6_QUAD ++ ")|"
    ++ "(([0-9a-f]\x7b1,4\x7d:)\x7b1,2\x7d(:[0-9a-f]\x7b1,4\x7d)\x7b1,3\x7d:"
      ++ IPV6_QUAD ++ ")|"
    ++ "(([0-9a-f]\x7b1,4\x7d:)\x7b1,3\x7d(:[0-9a-f]\x7b1,4\x7d)\x7b1,2\x7d:"
      ++ IPV6_QUAD ++ ")|"
    ++ "(([0-9a-f]\x7b1,4\x7d:)\x7b1,4\x7d(:[0-9a-f]\x7b1,4\x7d)\x7b1,1\x7d:"
      ++ IPV6_QUAD ++ ")|"
    ++ "((([0-9a-f]\x7b1,4\x7d:)\x7b1,5\x7d|:):" ++ IPV6_QUAD ++ ")|"
    ++ "(:(:[0-9a-f]\x7b1,4\x7d)\x7b1,5\x7d:" ++ IPV6_QUAD ++ ")"
    ++ ")"

/-- The macro `IPV6MASK`. -/
def IPV6MASK : String := "(" ++ IPV6 ++ "(/[[:digit:]]+)?)"

/-- The macro `BEGIN`. -/
def BEGIN : String := "^[[:space:]]*"

/-- The macro `END`. -/
def END : String := "[[:space:]]*$"

/-- The type `CONFFILE_HANDLER`. -/
abbrev CONFFILE_HANDLER :=
  conf_env → config_s → CString → List regmatch_t → Option handler_result

/-- One element of the table `directives`: the expression and the handler. -/
structure directive where
  re : CString
  handler : CONFFILE_HANDLER

/-- The macro `STDCONF (d, re, func)`. -/
def STDCONF (d re : String) (func : CONFFILE_HANDLER) : directive :=
  { re := (BEGIN ++ "(" ++ d ++ ")" ++ WS ++ re ++ END).toList, handler := func }

/-- The table `directives` of the build described by `env`. -/
def directives (env : conf_env) : List directive :=
  [ { re := (BEGIN ++ "#").toList, handler := handle_nop },
    { re := "^[[:space:]]+$".toList, handler := handle_nop },
    STDCONF "logfile" STR handle_logfile,
    STDCONF "pidfile" STR handle_pidfile,
    STDCONF "anonymous" STR handle_anonymous,
    STDCONF "viaproxyname" STR handle_viaproxyname,
    STDCONF "defaulterrorfile" STR handle_defaulterrorfile,
    STDCONF "statfile" STR handle_statfile,
    STDCONF "stathost" STR handle_stathost,
    STDCONF "xtinyproxy" BOOL handle_xtinyproxy,
    STDCONF "syslog" BOOL handle_syslog,
    STDCONF "bindsame" BOOL handle_bindsame,
    STDCONF "disableviaheader" BOOL handle_disableviaheader,
    STDCONF "port" INT handle_port,
    STDCONF "maxclients" INT handle_maxclients,
    STDCONF "maxspareservers" INT handle_maxspareservers,
    STDCONF "minspareservers" INT handle_minspareservers,
    STDCONF "startservers" INT handle_startservers,
    STDCONF "maxrequestsperchild" INT handle_maxrequestsperchild,
    STDCONF "timeout" INT handle_timeout,
    STDCONF "connectport" INT handle_connectport,
    STDCONF "user" ALNUM handle_user,
    STDCONF "group" ALNUM handle_group,
    STDCONF "listen" ("(" ++ IP ++ "|" ++ IPV6 ++ ")") handle_listen,
    STDCONF "allow" ("(" ++ "(" ++ IPMASK ++ "|" ++ IPV6MASK ++ ")" ++ "|" ++ ALNUM ++ ")")
      handle_allow,
    STDCONF "deny" ("(" ++ "(" ++ IPMASK ++ "|" ++ IPV6MASK ++ ")" ++ "|" ++ ALNUM ++ ")")
      handle_deny,
    STDCONF "bind" ("(" ++ IP ++ "|" ++ IPV6 ++ ")") handle_bind,
    STDCONF "errorfile" (INT ++ WS ++ STR) handle_errorfile,
    STDCONF "addheader" (STR ++ WS ++ STR) handle_addheader ]
  ++ (if env.FILTER_ENABLE then
      [ STDCONF "filter" STR handle_filter,
        STDCONF "filterurls" BOOL handle_filterurls,
        STDCONF "filterextended" BOOL handle_filterextended,
        STDCONF "filterdefaultdeny" BOOL handle_filterdefaultdeny,
        STDCONF "filtercasesensitive" BOOL handle_filtercasesensitive ]
    else [])
  ++ (if env.REVERSE_SUPPORT then
      [ STDCONF "reversebaseurl" STR handle_reversebaseurl,
        STDCONF "reverseonly" BOOL handle_reverseonly,
        STDCONF "reversemagic" BOOL handle_reversemagic,
        STDCONF "reversepath" (STR ++ "(" ++ WS ++ STR ++ ")?") handle_reversepath ]
    else [])
  ++ (if env.UPSTREAM_SUPPORT then
      [ { re := (BEGIN ++ "(no" ++ WS ++ "upstream)" ++ WS ++ STR ++ END).toList,
          handler := handle_upstream_no },
        { re := (BEGIN ++ "(upstream)" ++ WS ++ "(" ++ IP ++ "|" ++ ALNUM ++ ")" ++ ":"
            ++ INT ++ "(" ++ WS ++ STR ++ ")?" ++ END).toList,
          handler := handle_upstream } ]
    else [])
  ++ [ STDCONF "loglevel" "(critical|error|warning|notice|connect|info)" handle_loglevel ]

/-! ## Configuration file (`src/conf.c`): parsing and reloading -/

/-- The loop of `check_match` over the table from `ds` on. -/
def check_match_loop (env : conf_env) (conf : config_s) (line : CString) :
    List directive → Option handler_result
  | [] => handled (-1) conf []
  | d :: ds =>
    match env.regexec d.re line with
    | some m => d.handler env conf line m
    | none => check_match_loop env conf line ds

/-- The function `check_match (conf, line)`. -/
def check_match (env : conf_env) (conf : config_s) (line : CString) :
    Option handler_result :=
  check_match_loop env conf line (directives env)

/-- The characters that `fgets (buffer, n + 1, f)` stores for the text `f` that
is left of the stream: at most `n`, the last one the first newline if there is
one among them. -/
def fgets_line : Nat → CString → CString
  | 0, _ => []
  | _, [] => []
  | n + 1, c :: t => if c = '\n' then [c] else c :: fgets_line n t

/-- The call `fgets (buffer, size, f)`: `none` at the end of the stream, else
the buffer and what is left of the stream. -/
def fgets (size : Nat) (f : CString) : Option (CString × CString) :=
  if f.isEmpty then none
  else some (fgets_line (size - 1) f, f.drop (fgets_line (size - 1) f).length)

/-- The loop of `config_parse`, for at most `fuel` lines. -/
def config_parse_loop (env : conf_env) :
    Nat → config_s → CString → Nat → List conf_event → Option handler_result
  | 0, conf, _, _, ev => handled 0 conf ev
  | fuel + 1, conf, f, lineno, ev =>
    match fgets 1024 f with
    | none => handled 0 conf ev
    | some (buffer, rest) =>
      match check_match env conf buffer with
      | none => none
      | some r =>
        if r.ret ≠ 0 then
          handled 1 r.conf
            (ev ++ r.events
              ++ [.stdout ("Syntax error on line ".toList ++ decimal lineno ++ "\n".toList)])
        else config_parse_loop env fuel r.conf rest (lineno + 1) (ev ++ r.events)

/-- The function `config_parse (conf, f)` on a stream with the text `f`; every
line takes at least one character, so that `f.length` lines are enough. -/
def config_parse (env : conf_env) (conf : config_s) (f : CString) : Option handler_result :=
  config_parse_loop env f.length conf f 1 []

/-- The function `load_config_file (config_fname, conf)`. -/
def load_config_file (env : conf_env) (config_fname : CString) (conf : config_s) :
    Option handler_result :=
  match env.fopen config_fname with
  | none =>
    handled (-1) conf
      [.stderr (env.PACKAGE ++ ": Could not open config file \"".toList ++ config_fname
        ++ "\".\n".toList)]
  | some f =>
    match config_parse env conf f with
    | none => none
    | some r =>
      if r.ret ≠ 0 then
        handled (-1) r.conf
          (r.events ++ [.stderr "Unable to parse config file. Not starting.\n".toList])
      else handled 0 r.conf r.events

/-- The statement `if (defaults->x) conf->x = safestrdup (defaults->x);`. -/
def dup_default (env : conf_env) (x d : Option CString) : Option CString :=
  match d with
  | none => x
  | some s => safestrdup (env.safestrdup_ok s) s

/-- The function `initialize_with_defaults (conf, defaults)`. -/
def initialize_with_defaults (env : conf_env) (conf defaults : config_s) : config_s :=
  let conf := { conf with
    logf_name := dup_default env conf.logf_name defaults.logf_name
    config_file := dup_default env conf.config_file defaults.config_file
    syslog := defaults.syslog
    port := defaults.port
    stathost := dup_default env conf.stathost defaults.stathost
    godaemon := defaults.godaemon
    quit := defaults.quit
    user := dup_default env conf.user defaults.user
    group := dup_default env conf.group defaults.group
    ipAddr := dup_default env conf.ipAddr defaults.ipAddr }
  let conf :=
    if env.FILTER_ENABLE then
      { conf with
        filter := dup_default env conf.filter defaults.filter
        filter_url := defaults.filter_url
        filter_extended := defaults.filter_extended
        filter_casesensitive := defaults.filter_casesensitive }
    else conf
  let conf :=
    if env.XTINYPROXY_ENABLE then { conf with add_xtinyproxy := defaults.add_xtinyproxy }
    else conf
  let conf :=
    if env.REVERSE_SUPPORT then
      { conf with
        reverseonly := defaults.reverseonly
        reversemagic := defaults.reversemagic
        reversebaseurl := dup_default env conf.reversebaseurl defaults.reversebaseurl }
    else conf
  { conf with
    pidpath := dup_default env conf.pidpath defaults.pidpath
    idletimeout := defaults.idletimeout
    bind_address := dup_default env conf.bind_address defaults.bind_address
    bindsame := defaults.bindsame
    via_proxy_name := dup_default env conf.via_proxy_name defaults.via_proxy_name
    disable_viaheader := defaults.disable_viaheader
    errorpage_undef := dup_default env conf.errorpage_undef defaults.errorpage_undef
    statpage := dup_default env conf.statpage defaults.statpage }

/-- The function `free_config (conf)`: everything the record owns is freed and
the record is cleared by `memset (conf, 0, sizeof (*conf))`. -/
def free_config (_conf : config_s) : config_s :=
  config_zero

/-- The function `reload_config_file (config_fname, conf, defaults)`. -/
def reload_config_file (env : conf_env) (config_fname : CString) (conf defaults : config_s) :
    Option handler_result :=
  let ev0 : List conf_event :=
    [.log { level := .LOG_INFO, text := "Reloading config file".toList }]
  let conf := free_config conf
  let conf := initialize_with_defaults env conf defaults
  match load_config_file env config_fname conf with
  | none => none
  | some r =>
    if r.ret ≠ 0 then handled r.ret r.conf (ev0 ++ r.events)
    else if r.conf.port = 0 then
      handled (-1) r.conf
        (ev0 ++ r.events
          ++ [.stderr (env.PACKAGE
            ++ ": You MUST set a Port in the config file.\n".toList)])
    else
      let ev1 : List conf_event :=
        if r.conf.user = none then
          [.log { level := .LOG_WARNING,
                  text := ("You SHOULD set a UserName in the "
                    ++ "config file. Using current user instead.").toList }]
        else []
      if r.conf.idletimeout = 0 then
        handled 0 { r.conf with idletimeout := env.MAX_IDLE_TIME }
          (ev0 ++ r.events ++ ev1
            ++ [.log { level := .LOG_WARNING,
                       text := ("Invalid idle time setting. "
                         ++ "Only values greater than zero are allowed. "
                         ++ "Therefore setting idle timeout to ").toList
                         ++ decimal env.MAX_IDLE_TIME ++ " seconds.".toList }])
      else handled 0 r.conf (ev0 ++ r.events ++ ev1)

/-! ## POSIX extended regular expressions (`regcomp`, `regexec`) -/

/-- One item of a bracket expression: a range of characters (a single character
is the range from it to itself) or a character class such as `[:space:]`. -/
inductive bracket_item where
  | range (lo hi : Char)
  | cls (name : CString)
deriving DecidableEq, Repr

/-- A compiled extended regular expression.  `group n r` is the `n`-th
parenthesised subexpression, counted by its opening parenthesis; `rep r min max`
repeats `r` between `min` and `max` times (`none`: without bound). -/
inductive regex where
  | empty
  | chr (c : Char)
  | any
  | bracket (neg : Bool) (items : List bracket_item)
  | bol
  | eol
  | group (n : Nat) (r : regex)
  | cat (a b : regex)
  | alt (a b : regex)
  | rep (r : regex) (min : Nat) (max : Option Nat)
deriving Repr

/-- The items of a bracket expression up to the closing `]`, and the text after
it; `none` for an expression that is not closed or names an unknown class. -/
def parse_bracket_items : Nat → CString → List bracket_item →
    Option (List bracket_item × CString)
  | 0, _, _ => none
  | _ + 1, [], _ => none
  | _ + 1, ']' :: rest, acc => some (acc, rest)
  | fuel + 1, '[' :: ':' :: rest, acc =>
    let name := rest.takeWhile (fun c => c != ':')
    match rest.drop name.length with
    | ':' :: ']' :: rest2 =>
      if name = "space".toList ∨ name = "digit".toList then
        parse_bracket_items fuel rest2 (acc ++ [.cls name])
      else none
    | _ => none
  | fuel + 1, a :: '-' :: b :: rest, acc =>
    if b = ']' then parse_bracket_items fuel ('-' :: b :: rest) (acc ++ [.range a a])
    else parse_bracket_items fuel rest (acc ++ [.range a b])
  | fuel + 1, a :: rest, acc => parse_bracket_items fuel rest (acc ++ [.range a a])

/-- A bracket expression, from the character after `[` on. -/
def parse_bracket (s : CString) : Option (regex × CString) :=
  let neg : Bool := s.head? == some '^'
  let s1 := if neg then s.tail else s
  -- a `]` in the first place stands for itself
  let first : List bracket_item := if s1.head? == some ']' then [.range ']' ']' ] else []
  let s2 := if s1.head? == some ']' then s1.tail else s1
  (parse_bracket_items (s2.length + 1) s2 first).map (fun r => (.bracket neg r.1, r.2))

/-- The bounds of an interval expression, from the character after the opening
brace on: `m`, `m,` or `m,n` before the closing brace. -/
def parse_interval (s : CString) : Option (Nat × Option Nat × CString) :=
  let m := s.takeWhile Char.isDigit
  if m.isEmpty then none
  else
    match s.drop m.length with
    | '\x7d' :: rest => some (digits_value m, some (digits_value m), rest)
    | ',' :: rest =>
      let n := rest.takeWhile Char.isDigit
      match rest.drop n.length with
      | '\x7d' :: rest2 =>
        some (digits_value m, if n.isEmpty then none else some (digits_value n), rest2)
      | _ => none
    | _ => none

/-- The repetition operators that follow an atom. -/
def parse_postfix : Nat → regex → CString → Option (regex × CString)
  | 0, _, _ => none
  | fuel + 1, r, '*' :: rest => parse_postfix fuel (.rep r 0 none) rest
  | fuel + 1, r, '+' :: rest => parse_postfix fuel (.rep r 1 none) rest
  | fuel + 1, r, '?' :: rest => parse_postfix fuel (.rep r 0 (some 1)) rest
  | fuel + 1, r, '\x7b' :: rest =>
    match parse_interval rest with
    | some (m, n, rest2) => parse_postfix fuel (.rep r m n) rest2
    | none => none
  | _ + 1, r, s => some (r, s)

/-- The concatenation of the pieces of a branch, which are kept last first. -/
def cat_pieces (pieces : List regex) : regex :=
  pieces.foldl (fun acc p => .cat p acc) .empty

/-- The alternation of the branches read so far and the current one. -/
def alt_branches (done : List regex) (current : List regex) : regex :=
  done.foldr (fun b acc => .alt b acc) (cat_pieces current)

/-- An extended regular expression up to the end of the text or an unmatched
`)`: the expression, the text left and the number of the next group.  `done`
holds the branches already closed by `|` and `current` the pieces of the
branch being read, last first; `n` numbers the next group. -/
def parse_regex : Nat → CString → Nat → List regex → List regex →
    Option (regex × CString × Nat)
  | 0, _, _, _, _ => none
  | _ + 1, [], n, done, current => some (alt_branches done current, [], n)
  | _ + 1, ')' :: rest, n, done, current =>
    some (alt_branches done current, ')' :: rest, n)
  | fuel + 1, '|' :: rest, n, done, current =>
    parse_regex fuel rest n (done ++ [cat_pieces current]) []
  | fuel + 1, '(' :: rest, n, done, current =>
    match parse_regex fuel rest (n + 1) [] [] with
    | some (r, ')' :: rest2, n2) =>
      match parse_postfix (rest2.length + 1) (.group n r) rest2 with
      | some (p, rest3) => parse_regex fuel rest3 n2 done (p :: current)
      | none => none
    | _ => none
  | fuel + 1, '[' :: rest, n, done, current =>
    match parse_bracket rest with
    | some (r, rest2) =>
      match parse_postfix (rest2.length + 1) r rest2 with
      | some (p, rest3) => parse_regex fuel rest3 n done (p :: current)
      | none => none
    | none => none
  | fuel + 1, '\\' :: c :: rest, n, done, current =>
    match parse_postfix (rest.length + 1) (.chr c) rest with
    | some (p, rest3) => parse_regex fuel rest3 n done (p :: current)
    | none => none
  | fuel + 1, c :: rest, n, done, current =>
    let atom : regex :=
      if c = '.' then .any else if c = '^' then .bol else if c = '$' then .eol else .chr c
    match parse_postfix (rest.length + 1) atom rest with
    | some (p, rest3) => parse_regex fuel rest3 n done (p :: current)
    | none => none

/-- The function `regcomp` for `REG_EXTENDED`: the compiled expression, `none`
when the text is not an expression of the subset read here. -/
def regcomp (re : CString) : Option regex :=
  match parse_regex (re.length + 1) re 1 [] [] with
  | some (r, [], _) => some r
  | _ => none

/-- Whether a character belongs to an item of a bracket expression. -/
def bracket_item.has (c : Char) : bracket_item → Bool
  | .range lo hi => decide (lo ≤ c ∧ c ≤ hi)
  | .cls name =>
    if name = "space".toList then isspace c
    else if name = "digit".toList then c.isDigit
    else false

/-- Whether a bracket expression matches a character under `REG_ICASE` and
`REG_NEWLINE`: the character in either letter case belongs to one of the items
(to none of them for a non-matching list, which never matches a newline). -/
def bracket_has (neg : Bool) (items : List bracket_item) (c : Char) : Bool :=
  let member := items.any (fun i => i.has c || i.has c.toLower || i.has c.toUpper)
  if neg then !member && c != '\n' else member

/-- A position of the matcher in the line: the offset, the character before
it, the text from it on, and the offsets of the groups matched so far. -/
structure mstate where
  pos : Nat
  prev : Option Char
  rest : CString
  groups : List (Nat × regmatch_t)
deriving Repr

/-- The position one character further. -/
def mstate.next (s : mstate) : mstate :=
  match s.rest with
  | [] => s
  | c :: t => { s with pos := s.pos + 1, prev := some c, rest := t }

/-- The matcher for one character that satisfies `p`. -/
def match_char (p : Char → Bool) (k : mstate → Option mstate) (s : mstate) : Option mstate :=
  match s.rest with
  | [] => none
  | c :: _ => if p c then k s.next else none

/-- The repetitions of `step` from the `cnt`-th on, the longer ones first: one
more repetition when `max` allows it (one that matches the empty string only
to reach `min`), else the continuation when `min` is reached. -/
def rep_loop (step : (mstate → Option mstate) → mstate → Option mstate)
    (k : mstate → Option mstate) (min : Nat) (max : Option Nat) :
    Nat → Nat → mstate → Option mstate
  | 0, cnt, s => if min ≤ cnt then k s else none
  | fuel + 1, cnt, s =>
    let more : Option mstate :=
      if (match max with | none => true | some n => decide (cnt < n)) then
        step (fun s2 =>
          if s.pos < s2.pos ∨ cnt < min then rep_loop step k min max fuel (cnt + 1) s2
          else none) s
      else none
    match more with
    | some r => some r
    | none => if min ≤ cnt then k s else none

/-- The matches of an expression at a position, in continuation-passing style:
`rmatch r k s` is the first result of `k` at the end of a match of `r` from
`s`.  With `REG_ICASE` letters match in either case; with `REG_NEWLINE` the
anchors also match next to a newline, which `.` does not match. -/
def rmatch : regex → (mstate → Option mstate) → mstate → Option mstate
  | .empty, k, s => k s
  | .chr c, k, s => match_char (fun x => x.toLower == c.toLower) k s
  | .any, k, s => match_char (fun x => x != '\n') k s
  | .bracket neg items, k, s => match_char (bracket_has neg items) k s
  | .bol, k, s => if s.prev = none ∨ s.prev = some '\n' then k s else none
  | .eol, k, s => if s.rest.head? = none ∨ s.rest.head? = some '\n' then k s else none
  | .group n r, k, s =>
    rmatch r (fun s2 =>
      k { s2 with groups := (n, { rm_so := s.pos, rm_eo := s2.pos }) :: s2.groups }) s
  | .cat a b, k, s => rmatch a (rmatch b k) s
  | .alt a b, k, s =>
    match rmatch a k s with
    | some r => some r
    | none => rmatch b k s
  | .rep r min max, k, s => rep_loop (rmatch r) k min max (s.rest.length + min + 1) 0 s

/-- The constant `RE_MAX_MATCHES`. -/
def RE_MAX_MATCHES : Nat := 16

/-- The array `match` for a match from offset `start` that ends in the state
`s`: entry 0 is the whole match, entry `i` the last match of group `i`, and
`-1` for a group that matched nothing. -/
def match_array (start : Nat) (s : mstate) : List regmatch_t :=
  (List.range RE_MAX_MATCHES).map (fun i =>
    if i = 0 then { rm_so := start, rm_eo := s.pos }
    else
      match s.groups.find? (fun g => g.1 == i) with
      | some g => g.2
      | none => { rm_so := -1, rm_eo := -1 })

/-- The search of `regexec`: the first offset from which the expression
matches. -/
def regexec_search (r : regex) : Nat → mstate → Option (List regmatch_t)
  | 0, _ => none
  | fuel + 1, s =>
    match rmatch r (fun e => some e) s with
    | some e => some (match_array s.pos e)
    | none => if s.rest.isEmpty then none else regexec_search r fuel s.next

/-- The calls `regcomp (cre, re, REG_EXTENDED | REG_ICASE | REG_NEWLINE)` and
`regexec (cre, line, RE_MAX_MATCHES, match, 0)`: `none` when the line has no
match, else the array `match`.  Whether there is a match is as POSIX defines
it; of several matches the one found first is reported, the longer repetitions
and the earlier alternatives being tried first. -/
def regexec (re line : CString) : Option (List regmatch_t) :=
  match regcomp re with
  | none => none
  | some r =>
    regexec_search r (line.length + 1) { pos := 0, prev := none, rest := line, groups := [] }

/-- A concrete environment for `conf.c`: an LP64 build with every optional
feature but transparent proxying, the environments `env0` and `uenv0`, the
matcher `regexec` above, allocations that succeed, and the files `fs`. -/
def cenv0 (fs : CString → Option CString) : conf_env :=
  { ULONG_MAX := 2 ^ 64 - 1
    UINT_MAX := 2 ^ 32 - 1
    MAX_IDLE_TIME := 600
    PACKAGE := "tinyproxy".toList
    FILTER_ENABLE := true
    REVERSE_SUPPORT := true
    UPSTREAM_SUPPORT := true
    XTINYPROXY_ENABLE := true
    HAVE_SYSLOG_H := true
    TRANSPARENT_PROXY := false
    acl := env0
    upstream := uenv0
    regexec := regexec
    fopen := fs
    safemalloc_ok := fun _ => true
    safestrdup_ok := fun _ => true
    vector_create_ok := true
    header_malloc_ok := true
    vector_prepend_ok := true
    add_connect_port_allowed := fun port l => some (l.getD [] ++ [port])
    reversepath_add := fun path url l => l ++ [{ path := path, url := url }] }

/-- A file system with the one file `name`, whose text is `text`. -/
def one_file (name text : String) : CString → Option CString :=
  fun n => if n = name.toList then some text.toList else none

/-- A configuration in use before a reload: port 8888 and an access list that
denies the peer `10.0.0.1`. -/
def conf_before : config_s :=
  { config_zero with
    port := 8888
    idletimeout := 600
    access_list := (insert_acl env0 "10.0.0.1".toList .ACL_DENY none).access_list }

/-! ## Configuration file: the lines of a file and their directives -/

/-- The first line of a text: its characters up to the first newline, which
belongs to the line. -/
def first_line : CString → CString
  | [] => []
  | c :: t => if c = '\n' then [c] else c :: first_line t

/-- The lines of a text, in order, each with the newline that ends it (the last
line may have none). -/
def file_lines : CString → List CString
  | [] => []
  | c :: t =>
    if c = '\n' then [c] :: file_lines t
    else
      match file_lines t with
      | [] => [[c]]
      | l :: ls => (c :: l) :: ls

/-- The first pattern of the table, in table order, that matches the line, with
the offsets of the match. -/
def first_match (env : conf_env) (line : CString) :
    List directive → Option (directive × List regmatch_t)
  | [] => none
  | d :: ds =>
    match env.regexec d.re line with
    | some m => some (d, m)
    | none => first_match env line ds

/-- The message that `config_parse` prints for a line it refuses. -/
def syntax_error (lineno : Nat) : conf_event :=
  .stdout ("Syntax error on line ".toList ++ decimal lineno ++ "\n".toList)

/-- Parsing in the words of the specification: the lines are taken in order,
each one is given to the handler of the first pattern that matches it; a line
that no pattern matches, or whose handler returns non-zero, ends the parse with
failure and its number, and no later line is looked at; after the last line the
parse succeeds.  `lineno` is the number of the first line of `lines`. -/
def apply_lines (env : conf_env) :
    config_s → List CString → Nat → List conf_event → Option handler_result
  | conf, [], _, ev => handled 0 conf ev
  | conf, line :: lines, lineno, ev =>
    match first_match env line (directives env) with
    | none => handled 1 conf (ev ++ [syntax_error lineno])
    | some (d, m) =>
      match d.handler env conf line m with
      | none => none
      | some r =>
        if r.ret ≠ 0 then handled 1 r.conf (ev ++ r.events ++ [syntax_error lineno])
        else apply_lines env r.conf lines (lineno + 1) (ev ++ r.events)

/-- The access of the directives `allow` and `deny`, which are known by the
start of their patterns, `BEGIN "(allow)"` and `BEGIN "(deny)"`; `none` for
every other directive of the table. -/
def acl_directive (d : directive) : Option acl_access_t :=
  if d.re.take (BEGIN ++ "(allow)").length = (BEGIN ++ "(allow)").toList then some .ACL_ALLOW
  else if d.re.take (BEGIN ++ "(deny)").length = (BEGIN ++ "(deny)").toList then some .ACL_DENY
  else none

/-- The call of `insert_acl` that a line of the file stands for: the line is an
`allow` or `deny` line, that is the first pattern that matches it is the one of
`allow` or of `deny`, and the pattern inserted is its argument. -/
def acl_line (env : conf_env) (line : CString) : Option (Env × CString × acl_access_t) :=
  match first_match env line (directives env) with
  | none => none
  | some (d, m) =>
    match acl_directive d, get_string_arg env line (match_at m 2) with
    | some access, some (some arg) => some (env.acl, arg, access)
    | _, _ => none

/-! # Theorems -/

/-! ## `strtoul` and `fill_netmask_array` -/

theorem fill_netmask_loop_length (k mask : Nat) :
    (fill_netmask_loop k mask).length = k := by
  induction k generalizing mask with
  | zero => rfl
  | succ k ih =>
    unfold fill_netmask_loop
    split_ifs <;> simp [ih]

theorem fill_netmask_loop_getD (len k i : Nat) (hi : i < len) :
    (fill_netmask_loop len k).getD i 0 = (0xff <<< (8 - (k - 8 * i))) % 256 := by
  induction len generalizing k i with
  | zero => omega
  | succ len ih =>
    unfold fill_netmask_loop
    cases i with
    | zero =>
      split_ifs with h1 h2
      · have : 8 - k = 0 := by omega
        simp [this]
      · simp
      · have : k = 0 := by omega
        subst this
        simp
    | succ i =>
      have hi2 : i < len := by omega
      split_ifs with h1 h2
      · rw [List.getD_cons_succ, ih _ _ hi2]
        have : k - 8 - 8 * i = k - 8 * (i + 1) := by omega
        rw [this]
      · rw [List.getD_cons_succ, ih _ _ hi2]
        have : 0 - 8 * i = k - 8 * (i + 1) := by omega
        rw [this]
      · rw [List.getD_cons_succ, ih _ _ hi2]
        have : k - 8 * i = k - 8 * (i + 1) := by omega
        rw [this]

theorem byte_bit : ∀ m < 9, ∀ b < 8,
    ((0xff <<< (8 - m)) % 256).testBit (7 - b) = decide (b < m) := by decide

theorem fill_netmask_loop_mask_bit (len k j : Nat) (hj : j < 8 * len) :
    mask_bit (fill_netmask_loop len k) j = decide (j < k) := by
  unfold mask_bit
  rw [fill_netmask_loop_getD len k (j / 8) (by omega)]
  have h8 : 8 - (k - 8 * (j / 8)) = 8 - min 8 (k - 8 * (j / 8)) := by omega
  rw [h8, byte_bit (min 8 (k - 8 * (j / 8))) (by omega) (j % 8) (by omega)]
  have : (j % 8 < min 8 (k - 8 * (j / 8))) ↔ j < k := by omega
  simp only [this]

theorem fill_netmask_loop_byte_lt (len k i : Nat) (hi : i < len) :
    (fill_netmask_loop len k).getD i 0 < 256 := by
  rw [fill_netmask_loop_getD len k i hi]
  exact Nat.mod_lt _ (by decide)

theorem fill_netmask_loop_bits : ∀ k < 129, ∀ j < 128,
    mask_bit (fill_netmask_loop 16 k) j = decide (j < k) :=
  fun k _ j hj => fill_netmask_loop_mask_bit 16 k j (by omega)

theorem fill_netmask_loop_bytes : ∀ k < 129, ∀ i < 16,
    (fill_netmask_loop 16 k).getD i 0 < 256 :=
  fun k _ i hi => fill_netmask_loop_byte_lt 16 k i hi

set_option maxRecDepth 100000 in
theorem decimal_digits : ∀ n < 129,
    ((decimal n).dropWhile isspace = decimal n
    ∧ ((decimal n).head? == some '-') = false
    ∧ ((decimal n).head? == some '+') = false
    ∧ (decimal n).takeWhile Char.isDigit = decimal n
    ∧ (decimal n).isEmpty = false
    ∧ (decimal n).length ≠ 0
    ∧ digits_value (decimal n) = n) := by decide

theorem strtoul_decimal (U n : Nat) (hn : n < 129) (hU : 128 ≤ U) :
    strtoul U (decimal n) = { value := n, errno := 0, consumed := (decimal n).length } := by
  obtain ⟨h1, h2, h2b, h3, h4, _, h6⟩ := decimal_digits n hn
  have hle : ¬ n > U := by omega
  simp only [strtoul, h1, h2, h2b, Bool.or_self, Bool.false_eq_true, if_false, h3, h4, h6, hle]
  simp

theorem fill_netmask_array_decimal (U n : Nat) (v6 : Int) (array : List Nat)
    (hU : 128 ≤ U) (harr : array.length = IPV6_LEN)
    (hn : (if v6 = 0 then n + 96 else n) ≤ 128) :
    fill_netmask_array U (decimal n) v6 array IPV6_LEN
      = (0, fill_netmask_loop IPV6_LEN (if v6 = 0 then n + 96 else n)) := by
  have hn1 : n < 129 := by split_ifs at hn <;> omega
  obtain ⟨_, _, _, _, _, h5, _⟩ := decimal_digits n hn1
  have hdrop : array.drop IPV6_LEN = [] := by simp [← harr]
  unfold fill_netmask_array
  rw [strtoul_decimal U n hn1 hU]
  by_cases hv : v6 = 0
  · simp only [hv, if_true] at hn ⊢
    have hmod : (n + 12 * 8) % (U + 1) = n + 96 := Nat.mod_eq_of_lt (by omega)
    have h8 : ¬ n + 96 > 8 * IPV6_LEN := by simp only [IPV6_LEN]; omega
    simp [ERANGE, h5, hmod, hdrop, h8]
  · simp only [hv, if_false] at hn ⊢
    have h8 : ¬ n > 8 * IPV6_LEN := by simp only [IPV6_LEN]; omega
    simp [ERANGE, h5, hdrop, h8]

/-- C7: for a prefix length `n` in `0..=32`, `fill_netmask_array` on the decimal
text of `n` with `v6 = 0` returns 0 and writes 16 bytes whose bit `j` (counted
from the most significant bit of byte 0) is one exactly when `j < 96 + n`; with
`v6 = 1` and `n` in `0..=128` bit `j` is one exactly when `j < n`. -/
theorem fill_netmask_array_leading_ones (U n : Nat) (array : List Nat)
    (hU : 128 ≤ U) (harr : array.length = IPV6_LEN) :
    (n ≤ 32 →
      (fill_netmask_array U (decimal n) 0 array IPV6_LEN).1 = 0
      ∧ (fill_netmask_array U (decimal n) 0 array IPV6_LEN).2.length = 16
      ∧ (∀ i < 16, (fill_netmask_array U (decimal n) 0 array IPV6_LEN).2.getD i 0 < 256)
      ∧ ∀ j < 128, mask_bit (fill_netmask_array U (decimal n) 0 array IPV6_LEN).2 j
          = decide (j < 96 + n))
    ∧ (n ≤ 128 →
      (fill_netmask_array U (decimal n) 1 array IPV6_LEN).1 = 0
      ∧ (fill_netmask_array U (decimal n) 1 array IPV6_LEN).2.length = 16
      ∧ (∀ i < 16, (fill_netmask_array U (decimal n) 1 array IPV6_LEN).2.getD i 0 < 256)
      ∧ ∀ j < 128, mask_bit (fill_netmask_array U (decimal n) 1 array IPV6_LEN).2 j
          = decide (j < n)) := by
  constructor
  · intro hn
    rw [fill_netmask_array_decimal U n 0 array hU harr (by simpa using hn)]
    simp only [if_true, IPV6_LEN]
    refine ⟨trivial, fill_netmask_loop_length _ _, fill_netmask_loop_bytes _ (by omega), ?_⟩
    intro j hj
    rw [fill_netmask_loop_bits _ (by omega) j hj, Nat.add_comm]
  · intro hn
    rw [fill_netmask_array_decimal U n 1 array hU harr (by simpa using hn)]
    simp only [one_ne_zero, if_false, IPV6_LEN]
    exact ⟨trivial, fill_netmask_loop_length _ _, fill_netmask_loop_bytes _ (by omega),
      fun j hj => fill_netmask_loop_bits _ (by omega) j hj⟩

/-- Witness of `fill_netmask_array_leading_ones`: the masks of `/24` for an
IPv4 and for an IPv6 address on a 64-bit machine. -/
theorem fill_netmask_array_leading_ones_witness :
    128 ≤ 2 ^ 64 - 1 ∧ (List.replicate 16 0).length = IPV6_LEN
    ∧ fill_netmask_array (2 ^ 64 - 1) (decimal 24) 0 (List.replicate 16 0) IPV6_LEN
      = (0, [255, 255, 255, 255, 255, 255, 255, 255, 255, 255, 255, 255, 255, 255, 255, 0])
    ∧ (∀ j < 128,
      mask_bit (fill_netmask_array (2 ^ 64 - 1) (decimal 24) 0 (List.replicate 16 0)
        IPV6_LEN).2 j = decide (j < 96 + 24))
    ∧ ∀ j < 128,
      mask_bit (fill_netmask_array (2 ^ 64 - 1) (decimal 24) 1 (List.replicate 16 0)
        IPV6_LEN).2 j = decide (j < 24) :=
  ⟨by decide, by decide, by decide,
    ((fill_netmask_array_leading_ones (2 ^ 64 - 1) 24 (List.replicate 16 0)
      (by decide) (by decide)).1 (by decide)).2.2.2,
    ((fill_netmask_array_leading_ones (2 ^ 64 - 1) 24 (List.replicate 16 0)
      (by decide) (by decide)).2 (by decide)).2.2.2⟩

/-! ## `check_acl`: first match wins -/

theorem acl_string_processing_verdict (env : Env) (acl : acl_s) (ip host : CString)
    (h : acl_string_processing env acl ip host = some 0
      ∨ acl_string_processing env acl ip host = some 1) :
    acl_string_processing env acl ip host = some (verdict acl.access) := by
  obtain ⟨access, address⟩ := acl
  cases address with
  | ip network mask => simp [acl_string_processing] at h
  | string s =>
    cases access <;>
      simp only [acl_string_processing, string_perm, verdict] at h ⊢ <;>
      split_ifs at h ⊢ <;> simp_all

theorem check_numeric_acl_verdict (env : Env) (acl : acl_s) (ip : CString)
    (h : check_numeric_acl env acl ip = some 0 ∨ check_numeric_acl env acl ip = some 1) :
    check_numeric_acl env acl ip = some (verdict acl.access) := by
  obtain ⟨access, address⟩ := acl
  cases address with
  | string s => simp [check_numeric_acl] at h
  | ip network mask =>
    simp only [check_numeric_acl, verdict] at h ⊢
    by_cases hip : ip.length = 0
    · simp [hip] at h
    · simp only [hip, if_false] at h ⊢
      cases hp : env.full_inet_pton ip with
      | none => simp [hp] at h
      | some addr =>
        simp only [hp] at h ⊢
        cases access <;> split_ifs at h ⊢ <;> simp_all

theorem check_acl_loop_skip (env : Env) (ip host : CString) (x : acl_s)
    (rest : List acl_s) (h : acl_skips env x ip host) :
    check_acl_loop env ip host (x :: rest) = check_acl_loop env ip host rest := by
  unfold acl_skips at h
  rw [check_acl_loop]
  split at h
  · rename_i ht
    simp [ht, h]
  · rename_i ht
    rcases h with h | h
    · simp [ht, h]
    · simp [ht, h]

theorem check_acl_loop_skips (env : Env) (ip host : CString) (pre rest : List acl_s)
    (h : ∀ x ∈ pre, acl_skips env x ip host) :
    check_acl_loop env ip host (pre ++ rest) = check_acl_loop env ip host rest := by
  induction pre with
  | nil => rfl
  | cons x xs ih =>
    rw [List.cons_append, check_acl_loop_skip env ip host x _ (h x (by simp))]
    exact ih (fun y hy => h y (by simp [hy]))

theorem check_acl_loop_match (env : Env) (ip host : CString) (e : acl_s)
    (post : List acl_s) (h : acl_matches env e ip host) :
    check_acl_loop env ip host (e :: post)
      = some (if e.access = .ACL_ALLOW then (1, []) else (0, [unauthorized ip host])) := by
  unfold acl_matches at h
  rw [check_acl_loop]
  split at h
  · rename_i ht
    have hv := acl_string_processing_verdict env e ip host h
    cases hacc : e.access <;> simp [ht, hv, verdict, hacc]
  · rename_i ht
    have hv := check_numeric_acl_verdict env e ip h.2
    cases hacc : e.access <;> simp [ht, hv, verdict, hacc, h.1]

theorem check_acl_decided_by (env : Env) (pre post : List acl_s) (e : acl_s)
    (ip host : CString)
    (hpre : ∀ x ∈ pre, acl_skips env x ip host)
    (he : acl_matches env e ip host) :
    check_acl env ip host (some (pre ++ e :: post))
      = some (if e.access = .ACL_ALLOW then (1, []) else (0, [unauthorized ip host])) := by
  simp only [check_acl]
  rw [check_acl_loop_skips env ip host pre _ hpre]
  exact check_acl_loop_match env ip host e post he

/-- C1: first match wins.  When no entry of `pre` matches the peer (each is
passed over) and `e` matches it, `check_acl` on `pre ++ [e] ++ post` returns
1 (allow) if `e.access` is allow and 0 (deny, with the notice logged) if not,
whatever `post` holds. -/
theorem check_acl_first_match (env : Env) (pre post : List acl_s) (e : acl_s)
    (ip host : CString)
    (hpre : ∀ x ∈ pre, acl_skips env x ip host)
    (he : acl_matches env e ip host) :
    check_acl env ip host (some (pre ++ [e] ++ post))
      = some (if e.access = .ACL_ALLOW then (1, []) else (0, [unauthorized ip host])) := by
  simp only [List.append_assoc, List.singleton_append]
  exact check_acl_decided_by env pre post e ip host hpre he

/-- Witness of `check_acl_first_match`: `deny .evil.net`, `allow 0.0.0.0/0`,
`deny good.net` and the peer `1.2.3.4`, `good.net`: the second entry decides. -/
theorem check_acl_first_match_witness :
    (∀ x ∈ [acl_s.mk .ACL_DENY (.string ".evil.net".toList)],
        acl_skips env0 x "1.2.3.4".toList "good.net".toList)
    ∧ acl_matches env0
        (acl_s.mk .ACL_ALLOW (.ip (ipv4_mapped 0 0 0 0)
          [255, 255, 255, 255, 255, 255, 255, 255, 255, 255, 255, 255, 0, 0, 0, 0]))
        "1.2.3.4".toList "good.net".toList
    ∧ check_acl env0 "1.2.3.4".toList "good.net".toList
        (some ([acl_s.mk .ACL_DENY (.string ".evil.net".toList)]
          ++ [acl_s.mk .ACL_ALLOW (.ip (ipv4_mapped 0 0 0 0)
            [255, 255, 255, 255, 255, 255, 255, 255, 255, 255, 255, 255, 0, 0, 0, 0])]
          ++ [acl_s.mk .ACL_DENY (.string "good.net".toList)]))
      = some (1, []) :=
  ⟨by decide, by decide,
    check_acl_first_match env0 _ _ _ _ _ (by decide) (by decide)⟩

/-- C3: default deny.  When no entry of a created list matches the peer (each
is passed over), in particular for every such list that holds at least one
entry, `check_acl` returns 0 and logs exactly one message, of level
`LOG_NOTICE`, whose text contains the peer host name and the peer IP. -/
theorem check_acl_default_deny (env : Env) (l : List acl_s) (ip host : CString)
    (h : ∀ x ∈ l, acl_skips env x ip host) :
    check_acl env ip host (some l) = some (0, [unauthorized ip host])
    ∧ (unauthorized ip host).level = .LOG_NOTICE
    ∧ host <:+: (unauthorized ip host).text
    ∧ ip <:+: (unauthorized ip host).text := by
  refine ⟨?_, rfl, ?_, ?_⟩
  · have := check_acl_loop_skips env ip host l [] h
    simpa [check_acl, check_acl_loop] using this
  · exact ⟨"Unauthorized connection from \"".toList, "\" [".toList ++ ip ++ "].".toList,
      by simp [unauthorized]⟩
  · exact ⟨"Unauthorized connection from \"".toList ++ host ++ "\" [".toList, "].".toList,
      by simp [unauthorized]⟩

/-- Witness of `check_acl_default_deny`: the list `allow 127.0.0.1`,
`deny .evil.net` and the peer `10.0.0.1`, `x`. -/
theorem check_acl_default_deny_witness :
    [acl_s.mk .ACL_ALLOW (.ip (ipv4_mapped 127 0 0 1) (List.replicate 16 255)),
      acl_s.mk .ACL_DENY (.string ".evil.net".toList)] ≠ []
    ∧ (∀ x ∈ [acl_s.mk .ACL_ALLOW (.ip (ipv4_mapped 127 0 0 1) (List.replicate 16 255)),
        acl_s.mk .ACL_DENY (.string ".evil.net".toList)],
        acl_skips env0 x "10.0.0.1".toList "x".toList)
    ∧ check_acl env0 "10.0.0.1".toList "x".toList
        (some [acl_s.mk .ACL_ALLOW (.ip (ipv4_mapped 127 0 0 1) (List.replicate 16 255)),
          acl_s.mk .ACL_DENY (.string ".evil.net".toList)])
      = some (0, [unauthorized "10.0.0.1".toList "x".toList]) :=
  ⟨by decide, by decide,
    (check_acl_default_deny env0 _ _ _ (by decide)).1⟩

/-- C4, counterexample: a created access list that holds no entry denies: for
the peer `10.0.0.1`, `x` and the empty vector `check_acl` returns 0, not 1. -/
theorem check_acl_empty_vector_denies :
    ([] : List acl_s).length = 0
    ∧ check_acl env0 "10.0.0.1".toList "x".toList (some [])
      = some (0, [unauthorized "10.0.0.1".toList "x".toList])
    ∧ (check_acl env0 "10.0.0.1".toList "x".toList (some [])).map Prod.fst ≠ some 1 := by
  decide

/-- C4, amended: when no access list has been created (the NULL vector),
`check_acl` returns 1 (allow) for every peer, and logs nothing. -/
theorem check_acl_no_list_allows (env : Env) (ip host : CString) :
    check_acl env ip host none = some (1, []) := rfl

/-- C6, counterexample: in `allow .net`, `allow a.net`, `deny a.net` the last
two entries both match the peer `1.2.3.4`, `x.a.net` and differ in access, yet
the verdict is 1 before and after swapping them, because the first entry
matches. -/
theorem check_acl_swap_counterexample :
    acl_matches env0 (acl_s.mk .ACL_ALLOW (.string "a.net".toList))
      "1.2.3.4".toList "x.a.net".toList
    ∧ acl_matches env0 (acl_s.mk .ACL_DENY (.string "a.net".toList))
      "1.2.3.4".toList "x.a.net".toList
    ∧ (check_acl env0 "1.2.3.4".toList "x.a.net".toList
        (some [acl_s.mk .ACL_ALLOW (.string ".net".toList),
          acl_s.mk .ACL_ALLOW (.string "a.net".toList),
          acl_s.mk .ACL_DENY (.string "a.net".toList)])).map Prod.fst = some 1
    ∧ (check_acl env0 "1.2.3.4".toList "x.a.net".toList
        (some [acl_s.mk .ACL_ALLOW (.string ".net".toList),
          acl_s.mk .ACL_DENY (.string "a.net".toList),
          acl_s.mk .ACL_ALLOW (.string "a.net".toList)])).map Prod.fst = some 1 := by
  decide

/-- C6, amended: when no entry before the two adjacent entries `a`, `b` matches
the peer, both `a` and `b` match it and their accesses differ, `check_acl`
returns the verdict of `a` on `pre ++ a :: b :: post` and the opposite verdict,
that of `b`, on the list with `a` and `b` swapped. -/
theorem check_acl_swap_flips (env : Env) (pre post : List acl_s) (a b : acl_s)
    (ip host : CString)
    (hpre : ∀ x ∈ pre, acl_skips env x ip host)
    (ha : acl_matches env a ip host) (hb : acl_matches env b ip host)
    (hab : a.access ≠ b.access) :
    (check_acl env ip host (some (pre ++ a :: b :: post))).map Prod.fst
      = some (verdict a.access)
    ∧ (check_acl env ip host (some (pre ++ b :: a :: post))).map Prod.fst
      = some (1 - verdict a.access) := by
  rw [check_acl_decided_by env pre (b :: post) a ip host hpre ha,
    check_acl_decided_by env pre (a :: post) b ip host hpre hb]
  cases haa : a.access <;> cases hbb : b.access <;> simp_all [verdict]

/-- Witness of `check_acl_swap_flips`: `deny .evil.net` followed by
`allow a.net`, `deny a.net`, and the peer `1.2.3.4`, `x.a.net`. -/
theorem check_acl_swap_flips_witness :
    (check_acl env0 "1.2.3.4".toList "x.a.net".toList
        (some ([acl_s.mk .ACL_DENY (.string ".evil.net".toList)]
          ++ acl_s.mk .ACL_ALLOW (.string "a.net".toList)
            :: acl_s.mk .ACL_DENY (.string "a.net".toList) :: []))).map Prod.fst
      = some 1
    ∧ (check_acl env0 "1.2.3.4".toList "x.a.net".toList
        (some ([acl_s.mk .ACL_DENY (.string ".evil.net".toList)]
          ++ acl_s.mk .ACL_DENY (.string "a.net".toList)
            :: acl_s.mk .ACL_ALLOW (.string "a.net".toList) :: []))).map Prod.fst
      = some 0 :=
  check_acl_swap_flips env0 [acl_s.mk .ACL_DENY (.string ".evil.net".toList)] []
    (acl_s.mk .ACL_ALLOW (.string "a.net".toList))
    (acl_s.mk .ACL_DENY (.string "a.net".toList))
    "1.2.3.4".toList "x.a.net".toList (by decide) (by decide) (by decide) (by decide)

/-! ## `insert_acl` -/

/-- C5, the code at the failing input: on a 64-bit machine `insert_acl` of the
pattern `1.2.3.4/33` into the not-yet-created list returns -1 and leaves a
created, empty list behind; the peer `10.0.0.1`, `x`, allowed before the call,
is denied after it. -/
theorem insert_acl_failure_creates_list :
    insert_acl env0 "1.2.3.4/33".toList .ACL_ALLOW none
      = { ret := -1, access_list := some [], log := [] }
    ∧ check_acl env0 "10.0.0.1".toList "x".toList none = some (1, [])
    ∧ check_acl env0 "10.0.0.1".toList "x".toList
        (insert_acl env0 "1.2.3.4/33".toList .ACL_ALLOW none).access_list
      = some (0, [unauthorized "10.0.0.1".toList "x".toList]) := by
  decide

theorem vector_append_cases (env : Env) (l : List acl_s) (e : acl_s)
    (log : List log_entry) :
    ((vector_append env l e log).ret ≠ 0
        ∧ (vector_append env l e log).access_list = some l)
    ∨ ((vector_append env l e log).ret = 0
        ∧ (vector_append env l e log).access_list = some (l ++ [e])) := by
  unfold vector_append
  split_ifs with h
  · right; simp
  · left; simp [h]

set_option maxRecDepth 100000 in
theorem byte_and_not_self : ∀ m < 256, m &&& (255 - m) = 0 := by decide

theorem getD_map_range (f : Nat → Nat) (n i : Nat) (h : i < n) :
    ((List.range n).map f).getD i 0 = f i := by
  simp [List.getD, List.getElem?_map, List.getElem?_range h]

theorem fill_netmask_array_ok (U : Nat) (s : CString) (v6 : Int) (array : List Nat)
    (h : ¬ (fill_netmask_array U s v6 array IPV6_LEN).1 < 0) :
    ∃ m ≤ 128, (fill_netmask_array U s v6 array IPV6_LEN).2
      = fill_netmask_loop IPV6_LEN m ++ array.drop IPV6_LEN := by
  revert h
  unfold fill_netmask_array
  simp only []
  by_cases h1 : ((strtoul U s).errno = ERANGE ∧ (strtoul U s).value = U)
      ∨ ((strtoul U s).errno ≠ 0 ∧ (strtoul U s).value = 0) ∨ (strtoul U s).consumed = 0
  · rw [if_pos h1]; intro h; simp at h
  · rw [if_neg h1]
    generalize (if v6 = 0 then ((strtoul U s).value + 12 * 8) % (U + 1)
      else (strtoul U s).value) = mk
    split_ifs with h2
    · intro h; simp at h
    · intro _
      exact ⟨_, by simpa [IPV6_LEN] using h2, rfl⟩

theorem contiguous_fill_netmask_loop (m : Nat) (hm : m ≤ 128) :
    contiguous_mask (fill_netmask_loop IPV6_LEN m) :=
  ⟨fill_netmask_loop_length _ _, fill_netmask_loop_bytes m (by omega),
    m, hm, fill_netmask_loop_bits m (by omega)⟩

theorem acl_invariant_cidr (access : acl_access_t) (ip_dst : List Nat) (m : Nat)
    (hm : m ≤ 128) :
    acl_invariant
      { access := access,
        address := .ip
          ((List.range IPV6_LEN).map
            (fun i => ip_dst.getD i 0 &&& (fill_netmask_loop IPV6_LEN m).getD i 0))
          (fill_netmask_loop IPV6_LEN m) } := by
  refine ⟨by simp [IPV6_LEN], ?_, contiguous_fill_netmask_loop m hm⟩
  intro i hi
  have hb := byte_and_not_self _ (fill_netmask_loop_bytes m (by omega) i hi)
  simp only [IPV6_LEN] at hb ⊢
  rw [getD_map_range _ _ _ hi, Nat.land_assoc, hb, Nat.and_zero]

set_option maxRecDepth 100000 in
theorem full_mask_bits : ∀ j < 128,
    mask_bit (List.replicate IPV6_LEN 0xff) j = decide (j < 128) := by decide

set_option maxRecDepth 100000 in
theorem full_mask_bytes : ∀ i < 16, (List.replicate IPV6_LEN 0xff).getD i 0 = 255 := by
  decide

theorem acl_invariant_full_mask (access : acl_access_t) (ip_dst : List Nat) :
    acl_invariant
      { access := access,
        address := .ip (memcpy16 ip_dst) (List.replicate IPV6_LEN 0xff) } := by
  refine ⟨by simp [memcpy16, IPV6_LEN], ?_, by simp [IPV6_LEN], ?_, 128, le_refl _,
    full_mask_bits⟩
  · intro i hi
    rw [full_mask_bytes i hi]; simp
  · intro i hi
    rw [full_mask_bytes i hi]; decide

/-- On a created list `insert_acl` either fails and leaves the list as it was,
or returns 0 and appends one entry, which carries the given access and
satisfies the invariant. -/
theorem insert_acl_created (env : Env) (location : CString)
    (access_type : acl_access_t) (l : List acl_s) :
    ((insert_acl env location access_type (some l)).ret ≠ 0
        ∧ (insert_acl env location access_type (some l)).access_list = some l)
    ∨ ∃ e, (insert_acl env location access_type (some l)).ret = 0
        ∧ (insert_acl env location access_type (some l)).access_list = some (l ++ [e])
        ∧ e.access = access_type ∧ acl_invariant e := by
  simp only [insert_acl, init_access_list, ne_eq, not_true_eq_false, if_false]
  cases h1 : env.full_inet_pton location with
  | some ip_dst =>
    simp only []
    rcases vector_append_cases env l
      { access := access_type,
        address := .ip (memcpy16 ip_dst) (List.replicate IPV6_LEN 0xff) } [] with h | h
    · left; exact h
    · right
      exact ⟨_, h.1, h.2, rfl, acl_invariant_full_mask access_type ip_dst⟩
  | none =>
    simp only []
    by_cases hc : location.contains '/' = true
    · simp only [hc, if_true]
      cases h2 : env.full_inet_pton (location.takeWhile (fun c => c != '/')) with
      | none => left; simp
      | some ip_dst =>
        simp only []
        by_cases h3 : (fill_netmask_array env.ULONG_MAX
            (location.dropWhile (fun c => c != '/')).tail
            (if env.inet_pton6 (location.takeWhile (fun c => c != '/')) = true then 1 else 0)
            (List.replicate IPV6_LEN 0) IPV6_LEN).1 < 0
        · left; simp [h3]
        · simp only [h3, if_false]
          obtain ⟨m, hm, hmask⟩ := fill_netmask_array_ok _ _ _ _ h3
          have hd : (List.replicate IPV6_LEN 0).drop IPV6_LEN = ([] : List Nat) := by
            simp [IPV6_LEN]
          rw [hd, List.append_nil] at hmask
          rw [hmask]
          rcases vector_append_cases env l
            { access := access_type,
              address := .ip
                ((List.range IPV6_LEN).map
                  (fun i => ip_dst.getD i 0 &&& (fill_netmask_loop IPV6_LEN m).getD i 0))
                (fill_netmask_loop IPV6_LEN m) } [] with h | h
          · left; exact h
          · right
            exact ⟨_, h.1, h.2, rfl, acl_invariant_cidr access_type ip_dst m hm⟩
    · simp only [hc, Bool.false_eq_true, if_false]
      by_cases hs : env.safestrdup_ok = true
      · simp only [hs, if_true]
        rcases vector_append_cases env l
          { access := access_type, address := .string location } [] with h | h
        · left; exact h
        · right
          exact ⟨_, h.1, h.2, rfl, trivial⟩
      · left; simp [hs]

/-- C8, the code at the failing input: the IPv4 prefix length
`18446744073709551615` (`ULONG_MAX` of a 64-bit machine) is accepted, as a mask
of 95 one bits, and so is `4294967295` with a 32-bit `unsigned long`;
`insert_acl` of `1.2.3.4/18446744073709551615` returns 0 and appends an
entry. -/
theorem fill_netmask_array_wraps :
    fill_netmask_array (2 ^ 64 - 1) "18446744073709551615".toList 0
        (List.replicate 16 0) IPV6_LEN
      = (0, [255, 255, 255, 255, 255, 255, 255, 255, 255, 255, 255, 254, 0, 0, 0, 0])
    ∧ fill_netmask_array (2 ^ 32 - 1) "4294967295".toList 0
        (List.replicate 16 0) IPV6_LEN
      = (0, [255, 255, 255, 255, 255, 255, 255, 255, 255, 255, 255, 254, 0, 0, 0, 0])
    ∧ insert_acl env0 "1.2.3.4/18446744073709551615".toList .ACL_ALLOW (some [])
      = { ret := 0,
          access_list := some [acl_s.mk .ACL_ALLOW
            (.ip [0, 0, 0, 0, 0, 0, 0, 0, 0, 0, 255, 254, 0, 0, 0, 0]
              [255, 255, 255, 255, 255, 255, 255, 255, 255, 255, 255, 254, 0, 0, 0, 0])],
          log := [] } := by
  decide

theorem insert_acl_absent (env : Env) (location : CString) (access_type : acl_access_t) :
    insert_acl env location access_type none
      = if env.vector_create_ok then insert_acl env location access_type (some [])
        else { ret := -1, access_list := none,
               log := [{ level := .LOG_ERR,
                         text := "Unable to allocate memory for access list".toList }] } := by
  by_cases h : env.vector_create_ok = true
  · simp [insert_acl, init_access_list, h]
  · simp [insert_acl, init_access_list, h]

theorem insert_acl_invariant (env : Env) (location : CString) (access_type : acl_access_t)
    (access_list : vector_t) (h : ∀ e ∈ entries access_list, acl_invariant e) :
    ∀ e ∈ entries (insert_acl env location access_type access_list).access_list,
      acl_invariant e := by
  have hcreated : ∀ l : List acl_s, (∀ e ∈ l, acl_invariant e) →
      ∀ e ∈ entries (insert_acl env location access_type (some l)).access_list,
        acl_invariant e := by
    intro l hl e he
    rcases insert_acl_created env location access_type l with ⟨_, h2⟩ | ⟨x, _, h2, _, hx⟩
    · rw [h2] at he; exact hl e he
    · rw [h2] at he
      simp only [entries, Option.getD_some, List.mem_append, List.mem_singleton] at he
      rcases he with he | rfl
      · exact hl e he
      · exact hx
  cases access_list with
  | some l => exact hcreated l h
  | none =>
    rw [insert_acl_absent]
    split_ifs
    · exact hcreated [] (by simp)
    · simp [entries]

theorem insert_acls_invariant_from (calls : List (Env × CString × acl_access_t))
    (access_list : vector_t) (h : ∀ e ∈ entries access_list, acl_invariant e) :
    ∀ e ∈ entries (insert_acls calls access_list), acl_invariant e := by
  induction calls generalizing access_list with
  | nil => exact h
  | cons c calls ih =>
    obtain ⟨env, location, access_type⟩ := c
    exact ih _ (insert_acl_invariant env location access_type access_list h)

/-- C9: after any sequence of `insert_acl` calls, started on the not-yet-created
list, every Numeric entry of the access list has `network & ~mask == 0` byte by
byte and a mask that is a run of one bits from the most significant bit
followed only by zero bits. -/
theorem insert_acls_invariant (calls : List (Env × CString × acl_access_t)) :
    ∀ e ∈ entries (insert_acls calls none), acl_invariant e :=
  insert_acls_invariant_from calls none (by simp [entries])

/-- Witness of `insert_acls_invariant`: after `allow 10.1.2.3/8` and
`deny .evil.net` the list holds the Numeric entry `10.0.0.0` with the mask of
104 one bits, which has its host bits zero and a contiguous mask. -/
theorem insert_acls_invariant_witness :
    acl_s.mk .ACL_ALLOW (.ip (ipv4_mapped 10 0 0 0)
        [255, 255, 255, 255, 255, 255, 255, 255, 255, 255, 255, 255, 255, 0, 0, 0])
      ∈ entries (insert_acls
          [(env0, "10.1.2.3/8".toList, .ACL_ALLOW), (env0, ".evil.net".toList, .ACL_DENY)]
          none)
    ∧ (ipv4_mapped 10 0 0 0).length = 16
    ∧ host_bits_zero (ipv4_mapped 10 0 0 0)
        [255, 255, 255, 255, 255, 255, 255, 255, 255, 255, 255, 255, 255, 0, 0, 0]
    ∧ contiguous_mask
        [255, 255, 255, 255, 255, 255, 255, 255, 255, 255, 255, 255, 255, 0, 0, 0] :=
  ⟨by decide,
    insert_acls_invariant
      [(env0, "10.1.2.3/8".toList, .ACL_ALLOW), (env0, ".evil.net".toList, .ACL_DENY)]
      (acl_s.mk .ACL_ALLOW (.ip (ipv4_mapped 10 0 0 0)
        [255, 255, 255, 255, 255, 255, 255, 255, 255, 255, 255, 255, 255, 0, 0, 0]))
      (by decide)⟩

/-! ## `acl_string_processing` -/

theorem strcasecmp_eq_iff (a b : CString) :
    strcasecmp_eq a b = true ↔ a.map Char.toLower = b.map Char.toLower := by
  simp [strcasecmp_eq]

theorem ends_with_nocase_iff (host s : CString) :
    ends_with_nocase host s ↔
      ¬ host.length < s.length
        ∧ strcasecmp_eq (host.drop (host.length - s.length)) s = true := by
  rw [strcasecmp_eq_iff]
  constructor
  · rintro ⟨hlen, front, back, rfl, hback, heq⟩
    refine ⟨by omega, ?_⟩
    have : (front ++ back).length - s.length = front.length := by
      simp [List.length_append, hback]
    rw [this, List.drop_left]
    exact heq
  · rintro ⟨hlen, heq⟩
    refine ⟨by omega, host.take (host.length - s.length),
      host.drop (host.length - s.length), (List.take_append_drop _ _).symm, ?_, heq⟩
    simp [List.length_drop]
    omega

/-- C10: for a String entry with pattern `s` and a peer with non-empty `ip` and
`host`, `acl_string_processing` returns the verdict of the entry's access if
(`s` does not start with `.`, resolving `s` succeeds and some resolved address
prints exactly as `ip`) or (`host` is at least as long as `s` and its last
`len (s)` characters equal `s` ignoring ASCII case), and returns -1 (skip)
otherwise. -/
theorem acl_string_processing_spec (env : Env) (access : acl_access_t)
    (s ip host : CString) (hip : ip ≠ []) (hhost : host ≠ []) :
    (string_rule_matches env s ip host →
      acl_string_processing env { access := access, address := .string s } ip host
        = some (verdict access))
    ∧ (¬ string_rule_matches env s ip host →
      acl_string_processing env { access := access, address := .string s } ip host
        = some (-1)) := by
  have hv : string_perm access = verdict access := by
    cases access <;> simp [string_perm, verdict]
  have hip0 : ¬ ip.length = 0 := by simpa using hip
  have hhost0 : ¬ host.length = 0 := by simpa using hhost
  simp only [string_rule_matches, ends_with_nocase_iff, resolves_to]
  simp only [acl_string_processing, hip0, hhost0, if_false, hv]
  by_cases hdot : s.head? = some '.'
  · simp only [hdot, bne_self_eq_false, Bool.false_eq_true, if_false, ne_eq,
      not_true_eq_false, false_and, false_or]
    by_cases hlen : host.length < s.length
    · simp [hlen]
    · by_cases hcmp : strcasecmp_eq (host.drop (host.length - s.length)) s = true
      · simp [hlen, hcmp]
      · simp [hlen, hcmp]
  · have hne : (s.head? != some '.') = true := by simpa using hdot
    simp only [hne, if_true, ne_eq, hdot, not_false_eq_true, true_and]
    cases hres : env.getaddrinfo s with
    | none =>
      simp only [Bool.false_eq_true, if_false]
      by_cases hlen : host.length < s.length
      · simp [hlen]
      · by_cases hcmp : strcasecmp_eq (host.drop (host.length - s.length)) s = true
        · simp [hlen, hcmp]
        · simp [hlen, hcmp]
    | some res =>
      by_cases hmem : ip ∈ res
      · have hany : (res.any fun ipbuf => ip == ipbuf) = true := by
          simp [List.any_eq_true]; exact hmem
        simp [hany, hmem]
      · have hany : (res.any fun ipbuf => ip == ipbuf) = false := by
          simp only [List.any_eq_false, beq_iff_eq]
          intro x hx hxe
          exact hmem (hxe ▸ hx)
        simp only [hany, Bool.false_eq_true, if_false]
        by_cases hlen : host.length < s.length
        · simp [hlen, hmem]
        · by_cases hcmp : strcasecmp_eq (host.drop (host.length - s.length)) s = true
          · simp [hlen, hcmp]
          · simp [hlen, hcmp, hmem]

/-- Witness of `acl_string_processing_spec`: with `deny .evil.net` the host
`a.evil.net` matches, the hosts `evil.net` and `good.net` do not. -/
theorem acl_string_processing_spec_witness :
    acl_string_processing env0 { access := .ACL_DENY, address := .string ".evil.net".toList }
        "1.2.3.4".toList "a.evil.net".toList = some 0
    ∧ acl_string_processing env0 { access := .ACL_DENY, address := .string ".evil.net".toList }
        "1.2.3.4".toList "evil.net".toList = some (-1)
    ∧ acl_string_processing env0 { access := .ACL_DENY, address := .string ".evil.net".toList }
        "1.2.3.4".toList "good.net".toList = some (-1) :=
  ⟨(acl_string_processing_spec env0 .ACL_DENY ".evil.net".toList "1.2.3.4".toList
      "a.evil.net".toList (by decide) (by decide)).1
      (Or.inr ⟨by decide, ['a'], ".evil.net".toList, by decide, by decide, by decide⟩),
    (acl_string_processing_spec env0 .ACL_DENY ".evil.net".toList "1.2.3.4".toList
      "evil.net".toList (by decide) (by decide)).2
      (fun h => h.elim (fun h1 => h1.1 (by decide)) (fun h2 => absurd h2.1 (by decide))),
    (acl_string_processing_spec env0 .ACL_DENY ".evil.net".toList "1.2.3.4".toList
      "good.net".toList (by decide) (by decide)).2
      (fun h => h.elim (fun h1 => h1.1 (by decide)) (fun h2 => absurd h2.1 (by decide)))⟩

/-! ## CIDR matching of IPv4 entries -/

set_option maxRecDepth 100000 in
theorem byte_and_mask : ∀ k < 9, ∀ x < 256,
    x &&& ((0xff <<< k) % 256) = x / 2 ^ k * 2 ^ k := by decide

set_option maxRecDepth 100000 in
theorem fill_netmask_loop_ipv4 : ∀ n < 33,
    fill_netmask_loop 16 (n + 96)
      = [255, 255, 255, 255, 255, 255, 255, 255, 255, 255, 255, 255,
          (0xff <<< (8 - n)) % 256, (0xff <<< (8 - (n - 8))) % 256,
          (0xff <<< (8 - (n - 16))) % 256, (0xff <<< (8 - (n - 24))) % 256] := by
  decide

theorem div_pow_pair (H K l m t : Nat) (hl : l < 256) (hm : m < 256) (ht : t ≤ 8) :
    (H * 256 + l) / 2 ^ t = (K * 256 + m) / 2 ^ t ↔ H = K ∧ l / 2 ^ t = m / 2 ^ t := by
  interval_cases t <;> simp only [Nat.reducePow] <;> omega

theorem div_pow_add (x k t : Nat) : x / 2 ^ (k + t) = x / 2 ^ k / 2 ^ t := by
  rw [pow_add, Nat.div_div_eq_div_mul]

theorem div_256_byte (x : Nat) (hx : x < 256) : x / 2 ^ 8 = 0 := by
  simp only [Nat.reducePow]; omega

theorem top_bits_iff (a b c d p q r s n : Nat)
    (hb : b < 256) (hc : c < 256) (hd : d < 256)
    (hq : q < 256) (hr : r < 256) (hs : s < 256) (hn : n ≤ 32) :
    (p / 2 ^ (8 - n) = a / 2 ^ (8 - n)
      ∧ q / 2 ^ (8 - (n - 8)) = b / 2 ^ (8 - (n - 8))
      ∧ r / 2 ^ (8 - (n - 16)) = c / 2 ^ (8 - (n - 16))
      ∧ s / 2 ^ (8 - (n - 24)) = d / 2 ^ (8 - (n - 24)))
    ↔ top_bits n (ipv4_value p q r s) = top_bits n (ipv4_value a b c d) := by
  unfold top_bits ipv4_value
  by_cases h1 : n ≤ 8
  · have e0 : 32 - n = 24 + (8 - n) := by omega
    have e1 : 8 - (n - 8) = 8 := by omega
    have e2 : 8 - (n - 16) = 8 := by omega
    have e3 : 8 - (n - 24) = 8 := by omega
    have x1 : (((p * 256 + q) * 256 + r) * 256 + s) / 2 ^ 24 = p := by
      simp only [Nat.reducePow]; omega
    have x2 : (((a * 256 + b) * 256 + c) * 256 + d) / 2 ^ 24 = a := by
      simp only [Nat.reducePow]; omega
    rw [e0, e1, e2, e3, div_pow_add, div_pow_add, x1, x2, div_256_byte q hq,
      div_256_byte b hb, div_256_byte r hr, div_256_byte c hc, div_256_byte s hs,
      div_256_byte d hd]
    simp
  · by_cases h2 : n ≤ 16
    · have e0 : 32 - n = 16 + (8 - (n - 8)) := by omega
      have e1 : 8 - n = 0 := by omega
      have e2 : 8 - (n - 16) = 8 := by omega
      have e3 : 8 - (n - 24) = 8 := by omega
      have x1 : (((p * 256 + q) * 256 + r) * 256 + s) / 2 ^ 16 = p * 256 + q := by
        simp only [Nat.reducePow]; omega
      have x2 : (((a * 256 + b) * 256 + c) * 256 + d) / 2 ^ 16 = a * 256 + b := by
        simp only [Nat.reducePow]; omega
      rw [e0, e1, e2, e3, div_pow_add, div_pow_add, x1, x2,
        div_pow_pair p a q b _ hq hb (by omega),
        div_256_byte r hr, div_256_byte c hc, div_256_byte s hs, div_256_byte d hd]
      simp
    · by_cases h3 : n ≤ 24
      · have e0 : 32 - n = 8 + (8 - (n - 16)) := by omega
        have e1 : 8 - n = 0 := by omega
        have e2 : 8 - (n - 8) = 0 := by omega
        have e3 : 8 - (n - 24) = 8 := by omega
        have x1 : (((p * 256 + q) * 256 + r) * 256 + s) / 2 ^ 8
            = (p * 256 + q) * 256 + r := by
          simp only [Nat.reducePow]; omega
        have x2 : (((a * 256 + b) * 256 + c) * 256 + d) / 2 ^ 8
            = (a * 256 + b) * 256 + c := by
          simp only [Nat.reducePow]; omega
        have x3 : p * 256 + q = a * 256 + b ↔ p = a ∧ q = b := by omega
        rw [e0, e1, e2, e3, div_pow_add, div_pow_add, x1, x2,
          div_pow_pair _ _ r c _ hr hc (by omega), x3,
          div_256_byte s hs, div_256_byte d hd]
        simp [and_assoc]
      · have e1 : 8 - n = 0 := by omega
        have e2 : 8 - (n - 8) = 0 := by omega
        have e3 : 8 - (n - 16) = 0 := by omega
        have e0 : 32 - n = 8 - (n - 24) := by omega
        have x3 : (p * 256 + q) * 256 + r = (a * 256 + b) * 256 + c
            ↔ p = a ∧ q = b ∧ r = c := by omega
        rw [e0, e1, e2, e3, div_pow_pair _ _ s d _ hs hd (by omega), x3]
        simp [and_assoc]
theorem mul_pow_inj (x y e : Nat) : x * 2 ^ e = y * 2 ^ e ↔ x = y :=
  ⟨fun h => Nat.eq_of_mul_eq_mul_right (pow_pos (by decide) e) h, fun h => by rw [h]⟩

theorem cidr_match_iff (a b c d p q r s n : Nat)
    (ha : a < 256) (hb : b < 256) (hc : c < 256) (hd : d < 256)
    (hp : p < 256) (hq : q < 256) (hr : r < 256) (hs : s < 256) (hn : n ≤ 32) :
    ((List.range IPV6_LEN).all (fun i =>
        ((ipv4_mapped p q r s).getD i 0 &&& (fill_netmask_loop IPV6_LEN (n + 96)).getD i 0)
          == ((List.range IPV6_LEN).map (fun i =>
            (ipv4_mapped a b c d).getD i 0
              &&& (fill_netmask_loop IPV6_LEN (n + 96)).getD i 0)).getD i 0)) = true
      ↔ top_bits n (ipv4_value p q r s) = top_bits n (ipv4_value a b c d) := by
  have hr16 : List.range 16 = [0, 1, 2, 3, 4, 5, 6, 7, 8, 9, 10, 11, 12, 13, 14, 15] := by
    decide
  have e : ∀ k x, x < 256 → x &&& ((0xff <<< (8 - k)) % 256)
      = x / 2 ^ (8 - k) * 2 ^ (8 - k) :=
    fun k x hx => byte_and_mask (8 - k) (by omega) x hx
  simp only [IPV6_LEN]
  rw [hr16, fill_netmask_loop_ipv4 n (by omega)]
  simp only [ipv4_mapped, List.all_cons, List.all_nil, List.map_cons, List.map_nil,
    List.getD_cons_zero, List.getD_cons_succ, Bool.and_true, Bool.and_eq_true, beq_iff_eq,
    e _ p hp, e _ q hq, e _ r hr, e _ s hs, e _ a ha, e _ b hb, e _ c hc, e _ d hd,
    true_and, mul_pow_inj]
  exact top_bits_iff a b c d p q r s n hb hc hd hq hr hs hn

theorem takeWhile_slash (txt rest : CString) (h : '/' ∉ txt) :
    (txt ++ '/' :: rest).takeWhile (fun c => c != '/') = txt := by
  induction txt with
  | nil => simp
  | cons c cs ih =>
    have hc : c ≠ '/' := fun hc => h (by simp [hc])
    have hcs : '/' ∉ cs := fun hcs => h (by simp [hcs])
    simp [List.takeWhile_cons, hc, ih hcs]

theorem dropWhile_slash (txt rest : CString) (h : '/' ∉ txt) :
    (txt ++ '/' :: rest).dropWhile (fun c => c != '/') = '/' :: rest := by
  induction txt with
  | nil => simp
  | cons c cs ih =>
    have hc : c ≠ '/' := fun hc => h (by simp [hc])
    have hcs : '/' ∉ cs := fun hcs => h (by simp [hcs])
    simp [List.dropWhile_cons, hc, ih hcs]

theorem acl_matches_numeric (env : Env) (access : acl_access_t) (network mask : List Nat)
    (ip host : CString) (addr : List Nat) (hip : ip ≠ [])
    (hpeer : env.full_inet_pton ip = some addr) :
    acl_matches env { access := access, address := .ip network mask } ip host
      ↔ (List.range IPV6_LEN).all
          (fun i => (addr.getD i 0 &&& mask.getD i 0) == network.getD i 0) = true := by
  have hip0 : ¬ ip.length = 0 := by simpa using hip
  have hh : ip.head? ≠ none := by
    cases ip with
    | nil => exact absurd rfl hip
    | cons c cs => simp
  simp only [acl_matches, acl_s.type, check_numeric_acl, hip0, if_false, hpeer]
  generalize (List.range IPV6_LEN).all
    (fun i => (addr.getD i 0 &&& mask.getD i 0) == network.getD i 0) = t
  cases t <;> cases access <;> simp [hh]

theorem insert_acl_cidr (env : Env) (txt : CString) (n : Nat) (access : acl_access_t)
    (l : List acl_s) (ip_dst : List Nat)
    (hU : 128 ≤ env.ULONG_MAX) (happ : env.vector_append_ret = 0)
    (htxt : env.full_inet_pton txt = some ip_dst) (hn : n ≤ 32) (hslash : '/' ∉ txt)
    (hcidr : env.full_inet_pton (txt ++ '/' :: decimal n) = none)
    (hv6 : env.inet_pton6 txt = false) :
    insert_acl env (txt ++ '/' :: decimal n) access (some l)
      = { ret := 0,
          access_list := some (l ++ [{
            access := access,
            address := .ip
              ((List.range IPV6_LEN).map (fun i =>
                ip_dst.getD i 0 &&& (fill_netmask_loop IPV6_LEN (n + 96)).getD i 0))
              (fill_netmask_loop IPV6_LEN (n + 96)) }]),
          log := [] } := by
  have hfill := fill_netmask_array_decimal env.ULONG_MAX n 0 (List.replicate IPV6_LEN 0) hU
    (by simp) (by simpa using hn)
  simp only [if_true] at hfill
  have hc : (txt ++ '/' :: decimal n).contains '/' = true := by simp
  simp only [insert_acl, init_access_list, ne_eq, not_true_eq_false, if_false, hcidr, hc,
    if_true, takeWhile_slash txt _ hslash, dropWhile_slash txt _ hslash, List.tail_cons,
    htxt, hv6, Bool.false_eq_true, hfill, vector_append, happ]
  simp

theorem full_mask_match_iff (addr net : List Nat) (hlen : addr.length = 16)
    (hbytes : ∀ x ∈ addr, x < 256) (hnet : net.length = 16) :
    (List.range IPV6_LEN).all (fun i =>
        (addr.getD i 0 &&& (List.replicate IPV6_LEN 0xff).getD i 0)
          == (memcpy16 net).getD i 0) = true
      ↔ addr = net := by
  have key : ∀ i, i < 16 →
      ((addr.getD i 0 &&& (List.replicate IPV6_LEN 0xff).getD i 0) = (memcpy16 net).getD i 0
        ↔ addr.getD i 0 = net.getD i 0) := by
    intro i hi
    have hlt : addr.getD i 0 < 256 := by
      rw [List.getD_eq_getElem addr 0 (by omega)]
      exact hbytes _ (List.getElem_mem _)
    have h255 := byte_and_mask 0 (by decide) _ hlt
    simp only [Nat.shiftLeft_zero, pow_zero, Nat.div_one, Nat.mul_one] at h255
    rw [full_mask_bytes i hi, memcpy16, IPV6_LEN, getD_map_range _ _ _ hi]
    have h255b : addr.getD i 0 &&& 255 = addr.getD i 0 := h255
    rw [h255b]
  simp only [List.all_eq_true, List.mem_range, beq_iff_eq, IPV6_LEN]
  constructor
  · intro h
    apply List.ext_getElem (by omega)
    intro i h1 h2
    have := (key i (by omega)).1 (h i (by omega))
    rwa [List.getD_eq_getElem addr 0 h1, List.getD_eq_getElem net 0 h2] at this
  · rintro rfl i hi
    exact (key i hi).2 rfl

theorem insert_acl_ipv4_match_created (env : Env) (txt ip host : CString) (a b c d n : Nat)
    (access : acl_access_t) (l : List acl_s)
    (hU : 128 ≤ env.ULONG_MAX) (happ : env.vector_append_ret = 0)
    (ha : a < 256) (hb : b < 256) (hc : c < 256) (hd : d < 256) (hip : ip ≠ [])
    (htxt : env.full_inet_pton txt = some (ipv4_mapped a b c d)) :
    (n ≤ 32 → '/' ∉ txt → env.full_inet_pton (txt ++ '/' :: decimal n) = none →
      env.inet_pton6 txt = false →
      ∃ e, insert_acl env (txt ++ '/' :: decimal n) access (some l)
          = { ret := 0, access_list := some (l ++ [e]), log := [] }
        ∧ e.type = .ACL_NUMERIC ∧ e.access = access
        ∧ ∀ p q r s, p < 256 → q < 256 → r < 256 → s < 256 →
          env.full_inet_pton ip = some (ipv4_mapped p q r s) →
          (acl_matches env e ip host
            ↔ top_bits n (ipv4_value p q r s) = top_bits n (ipv4_value a b c d)))
    ∧ ∃ e, insert_acl env txt access (some l)
          = { ret := 0, access_list := some (l ++ [e]), log := [] }
        ∧ e.type = .ACL_NUMERIC ∧ e.access = access
        ∧ ∀ addr, addr.length = 16 → (∀ x ∈ addr, x < 256) →
          env.full_inet_pton ip = some addr →
          (acl_matches env e ip host ↔ addr = ipv4_mapped a b c d) := by
  constructor
  · intro hn hslash hcidr hv6
    refine ⟨_, insert_acl_cidr env txt n access l _ hU happ htxt hn hslash hcidr hv6,
      rfl, rfl, ?_⟩
    intro p q r s hp hq hr hs hpeer
    rw [acl_matches_numeric env access _ _ ip host _ hip hpeer]
    exact cidr_match_iff a b c d p q r s n ha hb hc hd hp hq hr hs hn
  · refine ⟨{ access := access,
              address := .ip (memcpy16 (ipv4_mapped a b c d)) (List.replicate IPV6_LEN 0xff) },
      ?_, rfl, rfl, ?_⟩
    · simp [insert_acl, init_access_list, htxt, vector_append, happ]
    · intro addr hlen hbytes hpeer
      rw [acl_matches_numeric env access _ _ ip host _ hip hpeer]
      exact full_mask_match_iff addr _ hlen hbytes rfl

/-- C2: entries made from IPv4 patterns.  Let `txt` be the text of the IPv4
address `a.b.c.d` (the address parser maps it to `::ffff:a.b.c.d`), and let the
allocations of the call succeed.
For a prefix length `n` in `0..=32`, `insert_acl` of `txt/n` appends a Numeric
entry which matches a peer whose IP text parses to the IPv4 address `p.q.r.s`
exactly when the top `n` bits of `p.q.r.s` equal the top `n` bits of `a.b.c.d`.
`insert_acl` of the bare `txt` appends a Numeric entry which matches exactly the
peers whose address is `a.b.c.d`. -/
theorem insert_acl_ipv4_match (env : Env) (txt ip host : CString) (a b c d n : Nat)
    (access : acl_access_t) (access_list : vector_t)
    (hU : 128 ≤ env.ULONG_MAX) (happ : env.vector_append_ret = 0)
    (hcreate : access_list = none → env.vector_create_ok = true)
    (ha : a < 256) (hb : b < 256) (hc : c < 256) (hd : d < 256) (hip : ip ≠ [])
    (htxt : env.full_inet_pton txt = some (ipv4_mapped a b c d)) :
    (n ≤ 32 → '/' ∉ txt → env.full_inet_pton (txt ++ '/' :: decimal n) = none →
      env.inet_pton6 txt = false →
      ∃ e, insert_acl env (txt ++ '/' :: decimal n) access access_list
          = { ret := 0, access_list := some (entries access_list ++ [e]), log := [] }
        ∧ e.type = .ACL_NUMERIC ∧ e.access = access
        ∧ ∀ p q r s, p < 256 → q < 256 → r < 256 → s < 256 →
          env.full_inet_pton ip = some (ipv4_mapped p q r s) →
          (acl_matches env e ip host
            ↔ top_bits n (ipv4_value p q r s) = top_bits n (ipv4_value a b c d)))
    ∧ ∃ e, insert_acl env txt access access_list
          = { ret := 0, access_list := some (entries access_list ++ [e]), log := [] }
        ∧ e.type = .ACL_NUMERIC ∧ e.access = access
        ∧ ∀ addr, addr.length = 16 → (∀ x ∈ addr, x < 256) →
          env.full_inet_pton ip = some addr →
          (acl_matches env e ip host ↔ addr = ipv4_mapped a b c d) := by
  cases access_list with
  | some l =>
    exact insert_acl_ipv4_match_created env txt ip host a b c d n access l hU happ
      ha hb hc hd hip htxt
  | none =>
    rw [insert_acl_absent, insert_acl_absent]
    simp only [hcreate rfl, if_true]
    exact insert_acl_ipv4_match_created env txt ip host a b c d n access [] hU happ
      ha hb hc hd hip htxt

/-- Witness of `insert_acl_ipv4_match`: on the list `allow 127.0.0.1` the rule
`deny 0.0.0.0/0` matches the IPv4 peer `10.0.0.1`, and the entry made from the
bare address `0.0.0.0` does not. -/
theorem insert_acl_ipv4_match_witness :
    (∃ e, insert_acl env0 ("0.0.0.0".toList ++ '/' :: decimal 0) .ACL_DENY
          (some [acl_s.mk .ACL_ALLOW (.ip (ipv4_mapped 127 0 0 1) (List.replicate 16 255))])
        = { ret := 0,
            access_list := some
              ([acl_s.mk .ACL_ALLOW (.ip (ipv4_mapped 127 0 0 1) (List.replicate 16 255))]
                ++ [e]),
            log := [] }
      ∧ acl_matches env0 e "10.0.0.1".toList "x".toList)
    ∧ ∃ e, insert_acl env0 "0.0.0.0".toList .ACL_DENY
          (some [acl_s.mk .ACL_ALLOW (.ip (ipv4_mapped 127 0 0 1) (List.replicate 16 255))])
        = { ret := 0,
            access_list := some
              ([acl_s.mk .ACL_ALLOW (.ip (ipv4_mapped 127 0 0 1) (List.replicate 16 255))]
                ++ [e]),
            log := [] }
      ∧ ¬ acl_matches env0 e "10.0.0.1".toList "x".toList := by
  have h := insert_acl_ipv4_match env0 "0.0.0.0".toList "10.0.0.1".toList "x".toList
    0 0 0 0 0 .ACL_DENY
    (some [acl_s.mk .ACL_ALLOW (.ip (ipv4_mapped 127 0 0 1) (List.replicate 16 255))])
    (by decide) (by decide) (by decide) (by decide) (by decide) (by decide) (by decide)
    (by decide) (by decide)
  obtain ⟨h1, e2, he2, -, -, hm2⟩ := h
  obtain ⟨e1, he1, -, -, hm1⟩ := h1 (by decide) (by decide) (by decide) (by decide)
  refine ⟨⟨e1, he1, ?_⟩, e2, he2, ?_⟩
  · exact (hm1 10 0 0 1 (by decide) (by decide) (by decide) (by decide) (by decide)).2
      (by decide)
  · intro hm
    exact absurd ((hm2 (ipv4_mapped 10 0 0 1) (by decide) (by decide) (by decide)).1 hm)
      (by decide)

/-! ## Resolver independence and totality of `check_acl` -/

theorem acl_string_processing_suffix (env : Env) (access : acl_access_t)
    (s ip host : CString) (hip : ip ≠ []) (hhost : host ≠ [])
    (h : ends_with_nocase host s) :
    acl_string_processing env { access := access, address := .string s } ip host
      = some (verdict access) := by
  have hv : string_perm access = verdict access := by
    cases access <;> simp [string_perm, verdict]
  have hip0 : ¬ ip.length = 0 := by simpa using hip
  have hhost0 : ¬ host.length = 0 := by simpa using hhost
  obtain ⟨hlen, hcmp⟩ := (ends_with_nocase_iff host s).1 h
  simp only [acl_string_processing, hip0, hhost0, if_false, hv, hlen, hcmp, if_true]
  split_ifs <;> rfl

theorem acl_string_processing_assert (env1 env2 : Env) (acl : acl_s) (ip host : CString)
    (h : ip = [] ∨ host = []) :
    acl_string_processing env1 acl ip host = acl_string_processing env2 acl ip host := by
  unfold acl_string_processing
  cases acl.address with
  | ip network mask => rfl
  | string s =>
    rcases h with h | h
    · simp [h]
    · simp [h]

theorem acl_string_processing_dot (env1 env2 : Env) (access : acl_access_t)
    (s ip host : CString) (h : s.head? = some '.') :
    acl_string_processing env1 { access := access, address := .string s } ip host
      = acl_string_processing env2 { access := access, address := .string s } ip host := by
  simp [acl_string_processing, h]

theorem check_acl_loop_suffix_only (env1 env2 : Env)
    (hpton : env1.full_inet_pton = env2.full_inet_pton) (ip host : CString)
    (l : List acl_s) (h : ∀ e ∈ l, suffix_only e = true) :
    check_acl_loop env1 ip host l = check_acl_loop env2 ip host l := by
  induction l with
  | nil => rfl
  | cons e l ih =>
    have ih2 := ih (fun x hx => h x (by simp [hx]))
    have he := h e (by simp)
    obtain ⟨access, address⟩ := e
    cases address with
    | ip network mask =>
      simp only [check_acl_loop, acl_s.type, check_numeric_acl, hpton, ih2]
    | string s =>
      have hs : s.head? = some '.' := by simpa [suffix_only] using he
      simp only [check_acl_loop, acl_s.type,
        acl_string_processing_dot env1 env2 access s ip host hs, ih2]

/-- C11: resolver independence.  (1) For a String entry and a peer whose host
name ends with the entry's pattern ignoring case, `acl_string_processing` gives
the same result under any two environments, whatever their resolvers answer,
and for non-empty `ip` and `host` that result is the verdict of the entry's
access.  (2) For an access list made only of Numeric entries and String entries
whose pattern starts with `.`, `check_acl` gives the same result under any two
environments that differ only in the resolver. -/
theorem check_acl_resolver_independent (env1 env2 : Env)
    (hpton : env1.full_inet_pton = env2.full_inet_pton) :
    (∀ (access : acl_access_t) (s ip host : CString), ends_with_nocase host s →
      acl_string_processing env1 { access := access, address := .string s } ip host
        = acl_string_processing env2 { access := access, address := .string s } ip host
      ∧ (ip ≠ [] → host ≠ [] →
        acl_string_processing env1 { access := access, address := .string s } ip host
          = some (verdict access)))
    ∧ ∀ (l : List acl_s) (ip host : CString), (∀ e ∈ l, suffix_only e = true) →
      check_acl env1 ip host (some l) = check_acl env2 ip host (some l) := by
  refine ⟨?_, ?_⟩
  · intro access s ip host h
    refine ⟨?_, fun hip hhost => acl_string_processing_suffix env1 access s ip host hip hhost h⟩
    by_cases hip : ip = []
    · exact acl_string_processing_assert env1 env2 _ ip host (Or.inl hip)
    · by_cases hhost : host = []
      · exact acl_string_processing_assert env1 env2 _ ip host (Or.inr hhost)
      · rw [acl_string_processing_suffix env1 access s ip host hip hhost h,
          acl_string_processing_suffix env2 access s ip host hip hhost h]
  · intro l ip host h
    exact check_acl_loop_suffix_only env1 env2 hpton ip host l h

/-- Witness of `check_acl_resolver_independent`: the entry `allow evil.net` and
the list `deny .evil.net`, `allow 0.0.0.0/0` give the same results for the peer
`1.2.3.4`, `a.evil.net` without a resolver (`env0`) and with a resolver that
answers every name with `1.2.3.4` (`env_dns`). -/
theorem check_acl_resolver_independent_witness :
    env0.full_inet_pton = env_dns.full_inet_pton
    ∧ acl_string_processing env0 { access := .ACL_ALLOW, address := .string "evil.net".toList }
        "1.2.3.4".toList "a.evil.net".toList = some 1
    ∧ acl_string_processing env_dns
        { access := .ACL_ALLOW, address := .string "evil.net".toList }
        "1.2.3.4".toList "a.evil.net".toList = some 1
    ∧ check_acl env0 "1.2.3.4".toList "a.evil.net".toList
        (some [acl_s.mk .ACL_DENY (.string ".evil.net".toList),
          acl_s.mk .ACL_ALLOW (.ip (ipv4_mapped 0 0 0 0)
            [255, 255, 255, 255, 255, 255, 255, 255, 255, 255, 255, 255, 0, 0, 0, 0])])
      = check_acl env_dns "1.2.3.4".toList "a.evil.net".toList
        (some [acl_s.mk .ACL_DENY (.string ".evil.net".toList),
          acl_s.mk .ACL_ALLOW (.ip (ipv4_mapped 0 0 0 0)
            [255, 255, 255, 255, 255, 255, 255, 255, 255, 255, 255, 255, 0, 0, 0, 0])]) :=
  ⟨rfl,
    ((check_acl_resolver_independent env0 env_dns rfl).1 .ACL_ALLOW "evil.net".toList
      "1.2.3.4".toList "a.evil.net".toList
      ⟨by decide, ['a', '.'], "evil.net".toList, by decide, by decide, by decide⟩).2
      (by decide) (by decide),
    ((check_acl_resolver_independent env_dns env0 rfl).1 .ACL_ALLOW "evil.net".toList
      "1.2.3.4".toList "a.evil.net".toList
      ⟨by decide, ['a', '.'], "evil.net".toList, by decide, by decide, by decide⟩).2
      (by decide) (by decide),
    (check_acl_resolver_independent env0 env_dns rfl).2 _ _ _ (by decide)⟩

/-- C12, the code at the failing input: with the list `deny .evil.net` and an
empty `ip` (or an empty `host`) an assertion of `acl_string_processing` is
violated and `check_acl` does not return a verdict, while a Numeric entry is
passed over on an empty `ip`. -/
theorem check_acl_assertion_violated :
    acl_string_processing env0 { access := .ACL_DENY, address := .string ".evil.net".toList }
        [] "x".toList = none
    ∧ check_acl env0 [] "x".toList
        (some [acl_s.mk .ACL_DENY (.string ".evil.net".toList)]) = none
    ∧ check_acl env0 "1.2.3.4".toList []
        (some [acl_s.mk .ACL_DENY (.string ".evil.net".toList)]) = none
    ∧ check_acl env0 [] "x".toList
        (some [acl_s.mk .ACL_ALLOW (.ip (ipv4_mapped 127 0 0 1) (List.replicate 16 255))])
      = some (0, [unauthorized [] "x".toList]) := by
  decide

theorem check_acl_loop_total (env : Env) (ip host : CString) (l : List acl_s)
    (hip : ip ≠ []) (hhost : host ≠ []) :
    ∃ v log, check_acl_loop env ip host l = some (v, log) ∧ (v = 0 ∨ v = 1) := by
  have hip0 : ¬ ip.length = 0 := by simpa using hip
  have hhost0 : ¬ host.length = 0 := by simpa using hhost
  have hh : ¬ ip.head? = none := by
    cases ip with
    | nil => exact absurd rfl hip
    | cons c cs => simp
  induction l with
  | nil => exact ⟨0, _, rfl, Or.inl rfl⟩
  | cons e l ih =>
    obtain ⟨v, log, hv, hv01⟩ := ih
    obtain ⟨access, address⟩ := e
    cases address with
    | ip network mask =>
      simp only [check_acl_loop, acl_s.type, check_numeric_acl, hip0, if_false, hh, hv]
      cases env.full_inet_pton ip with
      | none => exact ⟨v, log, by simp, hv01⟩
      | some addr =>
        simp only []
        split_ifs <;> first
          | exact ⟨0, _, rfl, Or.inl rfl⟩
          | exact ⟨1, _, rfl, Or.inr rfl⟩
          | exact ⟨v, log, by simp, hv01⟩
    | string s =>
      simp only [check_acl_loop, acl_s.type, acl_string_processing, hip0, hhost0, if_false,
        string_perm, hv]
      split_ifs <;> first
        | exact ⟨0, _, rfl, Or.inl rfl⟩
        | exact ⟨1, _, rfl, Or.inr rfl⟩
        | exact ⟨v, log, by simp, hv01⟩

/-! ## `upstream_add`: the default rule stays single and last -/

theorem upstream_add_loop_none (up : upstream) (l : List upstream)
    (h : ∃ r ∈ l, is_default r = true) : upstream_add_loop up l = none := by
  induction l with
  | nil => simp at h
  | cons tmp rest ih =>
    unfold upstream_add_loop
    by_cases hd : is_default tmp = true
    · simp [hd]
    · have hrest : ∃ r ∈ rest, is_default r = true := by
        obtain ⟨r, hr, hrd⟩ := h
        rcases List.mem_cons.1 hr with rfl | hr
        · exact absurd hrd hd
        · exact ⟨r, hr, hrd⟩
      simp only [hd, Bool.false_eq_true, if_false]
      cases rest with
      | nil => simp at hrest
      | cons x xs => simp [ih hrest]

theorem upstream_add_loop_some (up : upstream) (l : List upstream)
    (h : ∀ r ∈ l, is_default r = false) : upstream_add_loop up l = some (l ++ [up]) := by
  induction l with
  | nil => rfl
  | cons tmp rest ih =>
    unfold upstream_add_loop
    have hd : is_default tmp = false := h tmp (by simp)
    have hrest := ih (fun r hr => h r (by simp [hr]))
    simp only [hd, Bool.false_eq_true, if_false]
    cases rest with
    | nil => rfl
    | cons x xs => simp [hrest]

theorem upstream_add_loop_cases (up : upstream) (l : List upstream) :
    ((∃ r ∈ l, is_default r = true) ∧ upstream_add_loop up l = none)
    ∨ ((∀ r ∈ l, is_default r = false) ∧ upstream_add_loop up l = some (l ++ [up])) := by
  by_cases h : ∃ r ∈ l, is_default r = true
  · exact Or.inl ⟨h, upstream_add_loop_none up l h⟩
  · have h2 : ∀ r ∈ l, is_default r = false := by
      intro r hr
      cases hd : is_default r with
      | false => rfl
      | true => exact absurd ⟨r, hr, hd⟩ h
    exact Or.inr ⟨h2, upstream_add_loop_some up l h2⟩

/-- What `upstream_add` does to the list: nothing, or it appends a default rule
to a list without one, or it prepends a rule that is not a default rule. -/
theorem upstream_add_cases (env : upstream_env) (user pwd host : Option CString)
    (port : Int) (domain : Option CString) (l : List upstream) :
    (upstream_add env user pwd host port domain l).1 = l
    ∨ (∃ up, (upstream_build env user pwd host port domain).1 = some up
        ∧ is_default up = true ∧ (∀ r ∈ l, is_default r = false)
        ∧ (upstream_add env user pwd host port domain l).1 = l ++ [up])
    ∨ (∃ up, (upstream_build env user pwd host port domain).1 = some up
        ∧ is_default up = false
        ∧ (upstream_add env user pwd host port domain l).1 = up :: l) := by
  unfold upstream_add
  rcases hb : upstream_build env user pwd host port domain with ⟨_ | up, log⟩
  · left; rfl
  · simp only []
    by_cases hd : is_default up = true
    · simp only [hd, if_true]
      rcases upstream_add_loop_cases up l with ⟨_, h2⟩ | ⟨h1, h2⟩
      · left; rw [h2]
      · right; left
        exact ⟨up, rfl, hd, h1, by rw [h2]⟩
    · right; right
      simp only [hd, Bool.false_eq_true, if_false]
      exact ⟨up, rfl, by simpa using hd, rfl⟩

theorem default_last_add (env : upstream_env) (user pwd host : Option CString)
    (port : Int) (domain : Option CString) (l : List upstream) (h : default_last l) :
    default_last (upstream_add env user pwd host port domain l).1 := by
  rcases upstream_add_cases env user pwd host port domain l with
    h1 | ⟨up, _, _, hl, h1⟩ | ⟨up, _, hd, h1⟩
  · rw [h1]; exact h
  · rw [h1]
    intro r hr
    rw [List.dropLast_concat] at hr
    exact hl r hr
  · rw [h1]
    intro r hr
    cases l with
    | nil => simp at hr
    | cons x xs =>
      rw [List.dropLast_cons₂] at hr
      rcases List.mem_cons.1 hr with rfl | hr
      · exact hd
      · exact h r hr

theorem default_last_adds (calls : List upstream_call) (l : List upstream)
    (h : default_last l) : default_last (upstream_adds calls l) := by
  induction calls generalizing l with
  | nil => exact h
  | cons c cs ih => exact ih _ (default_last_add c.env c.user c.pwd c.host c.port c.domain l h)

theorem default_last_spec (l : List upstream) (h : default_last l) :
    (l.filter is_default).length ≤ 1
    ∧ ∀ r ∈ l, is_default r = true → l.getLast? = some r := by
  rcases List.eq_nil_or_concat l with rfl | ⟨init, x, rfl⟩
  · simp
  · rw [List.concat_eq_append] at h ⊢
    have hinit : ∀ r ∈ init, is_default r = false := by
      intro r hr
      have := h r
      rw [List.dropLast_concat] at this
      exact this hr
    have hf : init.filter is_default = [] := by
      rw [List.filter_eq_nil_iff]
      intro r hr
      simp [hinit r hr]
    refine ⟨?_, ?_⟩
    · rw [List.filter_append, hf, List.nil_append]
      by_cases hx : is_default x = true
      · simp [List.filter, hx]
      · simp [List.filter, hx]
    · intro r hr hd
      rcases List.mem_append.1 hr with hr | hr
      · rw [hinit r hr] at hd; exact absurd hd (by decide)
      · rw [List.mem_singleton.1 hr, List.getLast?_concat]

/-- C13: after every sequence of `upstream_add` calls that starts from the empty
list, the list holds at most one default rule (a rule with neither a domain nor
a CIDR address), and a default rule in the list is its last element. -/
theorem upstream_adds_default_last (calls : List upstream_call) :
    ((upstream_adds calls []).filter is_default).length ≤ 1
    ∧ ∀ r ∈ upstream_adds calls [], is_default r = true →
      (upstream_adds calls []).getLast? = some r :=
  default_last_spec _ (default_last_adds calls [] (by simp [default_last]))

/-- Witness of `upstream_adds_default_last`: after the three directives of the
scenario the default proxy `p2:3128` is in the list, and it is the last
element. -/
theorem upstream_adds_default_last_witness :
    proxy_p2 ∈ upstream_adds scenario_calls []
    ∧ is_default proxy_p2 = true
    ∧ (upstream_adds scenario_calls []).getLast? = some proxy_p2 :=
  ⟨by decide, by decide,
    (upstream_adds_default_last scenario_calls).2 proxy_p2 (by decide) (by decide)⟩

theorem upstream_build_default (env : upstream_env) (user pwd : Option CString)
    (h : CString) (port : Int) (hm : env.safemalloc_ok = true) (hh : h ≠ [])
    (hp : 1 ≤ port) :
    upstream_build env user pwd (some h) port none
      = (some
          { host := safestrdup env.dup_host_ok h, domain := none, ip := 0, mask := 0,
            user := match user with
              | none => some []
              | some u => safestrdup env.dup_user_ok u,
            pwd := match pwd with
              | none => some []
              | some w => safestrdup env.dup_pwd_ok w,
            port := port },
        [{ level := .LOG_INFO,
           text := "Added upstream ".toList ++ h ++ ":".toList ++ decimal_int port
             ++ " for [default]".toList }]) := by
  have h1 : ¬ (h.head? = none ∨ port < 1) := by
    cases h with
    | nil => exact absurd rfl hh
    | cons c cs => simp; omega
  simp only [upstream_build, hm, Bool.true_eq_false, if_false, h1]

/-- C14: `upstream_add` of a default proxy (no domain, non-empty host,
port >= 1) to a list that already holds a default rule leaves the list as it
was, and logs the notice of `upstream_build` followed by exactly one warning,
`Duplicate default upstream`. -/
theorem upstream_add_duplicate_default (env : upstream_env) (user pwd : Option CString)
    (h : CString) (port : Int) (l : List upstream)
    (hm : env.safemalloc_ok = true) (hh : h ≠ []) (hp : 1 ≤ port)
    (hdef : ∃ r ∈ l, is_default r = true) :
    upstream_add env user pwd (some h) port none l
      = (l,
        [{ level := .LOG_INFO,
           text := "Added upstream ".toList ++ h ++ ":".toList ++ decimal_int port
             ++ " for [default]".toList },
         { level := .LOG_WARNING, text := "Duplicate default upstream".toList }])
    ∧ ((upstream_add env user pwd (some h) port none l).2.filter
        (fun m => m.level = .LOG_WARNING)).length = 1 := by
  have hadd : upstream_add env user pwd (some h) port none l
      = (l,
        [{ level := .LOG_INFO,
           text := "Added upstream ".toList ++ h ++ ":".toList ++ decimal_int port
             ++ " for [default]".toList },
         { level := .LOG_WARNING, text := "Duplicate default upstream".toList }]) := by
    unfold upstream_add
    rw [upstream_build_default env user pwd h port hm hh hp]
    simp only [is_default, Option.isNone_none, beq_self_eq_true, Bool.and_self, if_true]
    rw [upstream_add_loop_none _ l hdef]
    rfl
  refine ⟨hadd, ?_⟩
  rw [hadd]
  simp [List.filter]

/-- Witness of `upstream_add_duplicate_default`: after the three directives of
the scenario, `upstream p3:8080` changes nothing and is answered by the
warning. -/
theorem upstream_add_duplicate_default_witness :
    upstream_add uenv0 none none (some "p3".toList) 8080 none
        (upstream_adds scenario_calls [])
      = (upstream_adds scenario_calls [],
        [{ level := .LOG_INFO, text := "Added upstream p3:8080 for [default]".toList },
         { level := .LOG_WARNING, text := "Duplicate default upstream".toList }]) :=
  (upstream_add_duplicate_default uenv0 none none "p3".toList 8080
    (upstream_adds scenario_calls []) (by decide) (by decide) (by decide)
    ⟨proxy_p2, by decide, by decide⟩).1

/-! ## `upstream_get`: first match -/

theorem upstream_get_loop_find (env : upstream_env) (host : CString) (l : List upstream)
    (my_ip : Nat) (h : my_ip = INADDR_NONE ∨ my_ip = inet_addr env host) :
    upstream_get_loop env host my_ip l = l.find? (upstream_matches env host) := by
  induction l generalizing my_ip with
  | nil => rfl
  | cons up rest ih =>
    unfold upstream_get_loop
    rw [List.find?_cons]
    cases hdom : up.domain with
    | some domain =>
      simp only [upstream_matches, hdom]
      by_cases ht : domain_test host domain = true
      · simp [ht]
      · simp only [ht, Bool.false_eq_true, if_false]
        exact ih my_ip h
    | none =>
      simp only [upstream_matches, hdom]
      by_cases hip : up.ip = 0
      · simp [hip]
      · have hmy : (if my_ip = INADDR_NONE then inet_addr env host else my_ip)
            = inet_addr env host := by
          rcases h with h | h
          · simp [h]
          · rw [h]; simp
        simp only [ne_eq, hip, not_false_eq_true, if_true, hmy]
        by_cases hm : inet_addr env host &&& up.mask = up.ip
        · simp [hm]
        · simp only [hm, if_false]
          rw [ih _ (Or.inr rfl)]
          have : (inet_addr env host &&& up.mask == up.ip) = false := by simpa using hm
          simp only [this]

/-- C15: first match.  If no rule of the list matches the host, `upstream_get`
returns "no upstream" (NULL).  If no rule of `pre` matches the host and `r`
matches it, `upstream_get` on `pre ++ r :: post` returns `r` when `r` has a host
and a non-zero port, and "no upstream" when it has not, whatever rules `post`
holds. -/
theorem upstream_get_first_match (env : upstream_env) (host : CString) :
    (∀ l : List upstream, (∀ x ∈ l, upstream_matches env host x = false) →
      (upstream_get env host l).1 = none)
    ∧ ∀ (pre post : List upstream) (r : upstream),
      (∀ x ∈ pre, upstream_matches env host x = false) →
      upstream_matches env host r = true →
      (upstream_get env host (pre ++ r :: post)).1
        = if r.host.isNone || r.port == 0 then none else some r := by
  refine ⟨?_, ?_⟩
  · intro l hl
    have hfind : l.find? (upstream_matches env host) = none := by
      rw [List.find?_eq_none]
      intro x hx
      simp [hl x hx]
    simp only [upstream_get, upstream_get_loop_find env host l _ (Or.inl rfl), hfind]
  · intro pre post r hpre hr
    have hfind : (pre ++ r :: post).find? (upstream_matches env host) = some r := by
      induction pre with
      | nil => simp [List.find?_cons, hr]
      | cons x xs ih =>
        rw [List.cons_append, List.find?_cons, hpre x (by simp)]
        exact ih (fun y hy => hpre y (by simp [hy]))
    simp only [upstream_get, upstream_get_loop_find env host _ _ (Or.inl rfl), hfind]
    split_ifs <;> rfl

/-- Witness of `upstream_get_first_match`: in the list of the scenario the
rule for `intra.corp` does not match `x.a.com`, the proxy `p1:3128` for `.a.com`
does and is returned; no rule of the list without its default proxy matches
`other.net`. -/
theorem upstream_get_first_match_witness :
    (upstream_get uenv0 "other.net".toList
        [{ host := none, domain := some "intra.corp".toList, user := some [],
           pwd := some [], port := 0, ip := 0, mask := 0 }, proxy_p1]).1 = none
    ∧ (upstream_get uenv0 "x.a.com".toList
        ([{ host := none, domain := some "intra.corp".toList, user := some [],
            pwd := some [], port := 0, ip := 0, mask := 0 }]
          ++ proxy_p1 :: [proxy_p2])).1 = some proxy_p1 :=
  ⟨(upstream_get_first_match uenv0 "other.net".toList).1 _ (by decide),
    (upstream_get_first_match uenv0 "x.a.com".toList).2 _ _ proxy_p1 (by decide)
      (by decide)⟩

/-! ## The selector test for domains -/

theorem toLower_eq_dot (c : Char) (h : c.toLower = '.') : c = '.' := by
  by_cases hc : c.toNat ≥ 65 ∧ c.toNat ≤ 90
  · exfalso
    have hcn : Char.ofNat c.toNat = c := Char.ofNat_toNat c
    generalize c.toNat = n at hc hcn
    subst hcn
    obtain ⟨h1, h2⟩ := hc
    interval_cases n <;> exact absurd h (by decide)
  · have : c.toLower = c := by simp only [Char.toLower, hc, if_false]
    rw [this] at h
    exact h

theorem eq_nocase_dot (host : CString) :
    strcasecmp_eq host ['.'] = true ↔ host = ['.'] := by
  rw [strcasecmp_eq_iff]
  constructor
  · intro h
    cases host with
    | nil => simp at h
    | cons c cs =>
      cases cs with
      | nil =>
        simp only [List.map_cons, List.map_nil, List.cons.injEq, and_true] at h
        have h2 : c.toLower = '.' := by rw [h]; decide
        rw [toLower_eq_dot c h2]
      | cons d ds => simp at h
  · rintro rfl; rfl

theorem dot_search_isSome (domain host : CString) :
    (dot_search domain host).isSome = true ↔ dot_suffix_nocase host domain := by
  induction host with
  | nil =>
    simp only [dot_search, Option.isSome_none, Bool.false_eq_true, false_iff]
    rintro ⟨front, suf, h, hd, _⟩
    have : suf = [] := by
      have := congrArg List.length h
      simp at this
      exact List.length_eq_zero.1 (by omega)
    simp [this] at hd
  | cons x xs ih =>
    unfold dot_search
    by_cases hx : x = '.'
    · by_cases hc : strcasecmp_eq (x :: xs) domain = true
      · simp only [hx, if_true] at hc ⊢
        simp only [hc, if_true, Option.isSome_some, true_iff]
        exact ⟨[], '.' :: xs, rfl, rfl, (strcasecmp_eq_iff _ _).1 hc⟩
      · simp only [hx, if_true] at hc ⊢
        simp only [hc, Bool.false_eq_true, if_false, ih]
        constructor
        · rintro ⟨front, suf, h, hd, he⟩
          exact ⟨'.' :: front, suf, by simp [h], hd, he⟩
        · rintro ⟨front, suf, h, hd, he⟩
          cases front with
          | nil =>
            simp only [List.nil_append] at h
            rw [← h] at he
            exact absurd ((strcasecmp_eq_iff _ _).2 he) hc
          | cons f fs =>
            simp only [List.cons_append, List.cons.injEq] at h
            exact ⟨fs, suf, h.2, hd, he⟩
    · simp only [hx, if_false, ih]
      constructor
      · rintro ⟨front, suf, h, hd, he⟩
        exact ⟨x :: front, suf, by simp [h], hd, he⟩
      · rintro ⟨front, suf, h, hd, he⟩
        cases front with
        | nil =>
          simp only [List.nil_append] at h
          rw [← h] at hd
          simp at hd
          exact absurd hd hx
        | cons f fs =>
          simp only [List.cons_append, List.cons.injEq] at h
          exact ⟨fs, suf, h.2, hd, he⟩

/-- C16: for a rule whose domain `s` begins with `.` and is longer than one
character, the selector test of `upstream_get` matches a host `h` exactly when
`h` equals `s` ignoring case or some suffix of `h` that starts at a `.`
character equals `s` ignoring case; a domain without a leading `.` matches
exactly the hosts equal to it ignoring case. -/
theorem domain_test_spec (host s : CString) :
    (s.head? = some '.' → 1 < s.length →
      (domain_test host s = true ↔ eq_nocase host s ∨ dot_suffix_nocase host s))
    ∧ (s.head? ≠ some '.' → (domain_test host s = true ↔ eq_nocase host s)) := by
  constructor
  · intro hdot hlen
    have htail : ¬ s.tail.head? = none := by
      cases s with
      | nil => simp at hlen
      | cons c cs =>
        cases cs with
        | nil => simp at hlen
        | cons d ds => simp
    unfold domain_test
    by_cases he : strcasecmp_eq host s = true
    · simp only [he, if_true, true_iff]
      exact Or.inl ((strcasecmp_eq_iff _ _).1 he)
    · have he2 : ¬ eq_nocase host s := fun h => he ((strcasecmp_eq_iff _ _).2 h)
      have hb : (s.tail.head? == none) = false := by simpa using htail
      simp only [he, Bool.false_eq_true, if_false, hdot, beq_self_eq_true, if_true, hb,
        Bool.and_false, dot_search_isSome, he2, false_or]
  · intro hdot
    unfold domain_test
    have hb : (s.head? == some '.') = false := by simpa using hdot
    by_cases he : strcasecmp_eq host s = true
    · simp only [he, if_true, true_iff]
      exact (strcasecmp_eq_iff _ _).1 he
    · have he2 : ¬ eq_nocase host s := fun h => he ((strcasecmp_eq_iff _ _).2 h)
      simp [he, hb, he2]

/-- Witness of `domain_test_spec`: the domain `.example.com` matches
`a.example.com` and `a.b.example.com` and does not match `example.com` or
`notexample.com`; the domain `example.com` matches `Example.COM`. -/
theorem domain_test_spec_witness :
    domain_test "a.example.com".toList ".example.com".toList = true
    ∧ domain_test "a.b.example.com".toList ".example.com".toList = true
    ∧ domain_test "example.com".toList ".example.com".toList = false
    ∧ domain_test "notexample.com".toList ".example.com".toList = false
    ∧ domain_test "Example.COM".toList "example.com".toList = true :=
  ⟨((domain_test_spec "a.example.com".toList ".example.com".toList).1 (by decide)
      (by decide)).2 (Or.inr ⟨['a'], ".example.com".toList, by decide, by decide, by decide⟩),
    ((domain_test_spec "a.b.example.com".toList ".example.com".toList).1 (by decide)
      (by decide)).2
      (Or.inr ⟨"a.b".toList, ".example.com".toList, by decide, by decide, by decide⟩),
    by decide, by decide,
    ((domain_test_spec "Example.COM".toList "example.com".toList).2 (by decide)).2
      (by decide)⟩

theorem strchr_isNone (c : Char) (s : CString) :
    (strchr c s).isNone = true ↔ c ∉ s := by
  induction s with
  | nil => simp [strchr]
  | cons x xs ih =>
    unfold strchr
    by_cases hx : x = c
    · simp [hx]
    · have hx2 : ¬ c = x := fun h => hx h.symm
      simp [hx, hx2, ih]

theorem dot_suffix_nocase_dot (host : CString) :
    dot_suffix_nocase host ['.'] ↔ host.getLast? = some '.' := by
  constructor
  · rintro ⟨front, suf, rfl, _, he⟩
    have hs : suf = ['.'] := (eq_nocase_dot suf).1 ((strcasecmp_eq_iff _ _).2 he)
    rw [hs, List.getLast?_concat]
  · intro h
    rcases List.eq_nil_or_concat host with rfl | ⟨init, x, rfl⟩
    · simp at h
    · rw [List.concat_eq_append] at h ⊢
      rw [List.getLast?_concat] at h
      have hx : x = '.' := by simpa using h
      exact ⟨init, ['.'], by rw [hx], rfl, rfl⟩

/-- C17, counterexample: the rule `.` matches the host `example.com.`, which
contains a dot, and the host `.` itself. -/
theorem domain_test_dot_counterexample :
    '.' ∈ "example.com.".toList
    ∧ domain_test "example.com.".toList ".".toList = true
    ∧ domain_test ".".toList ".".toList = true := by
  decide

/-- C17, amended: a rule whose domain is exactly `.` matches a destination host
exactly when the host contains no `.` character or ends with a `.`
character. -/
theorem domain_test_dot (host : CString) :
    domain_test host ['.'] = true ↔ '.' ∉ host ∨ host.getLast? = some '.' := by
  unfold domain_test
  by_cases he : strcasecmp_eq host ['.'] = true
  · have hh := (eq_nocase_dot host).1 he
    simp only [he, if_true, true_iff]
    right
    rw [hh]; rfl
  · simp only [he, Bool.false_eq_true, if_false, List.head?_cons, beq_self_eq_true,
      if_true, List.tail_cons, List.head?_nil, Bool.and_true]
    by_cases hd : '.' ∈ host
    · have hn : (strchr '.' host).isNone = false := by
        cases hs : (strchr '.' host).isNone with
        | false => rfl
        | true => exact absurd hd ((strchr_isNone '.' host).1 hs)
      simp only [hn, Bool.false_eq_true, if_false, dot_search_isSome,
        dot_suffix_nocase_dot, hd, not_true_eq_false, false_or]
    · have hn : (strchr '.' host).isNone = true := (strchr_isNone '.' host).2 hd
      simp [hn, hd]

/-! ## CIDR rules and the default rule in `upstream_get` -/

/-- The selector test of a CIDR rule: with a destination host that parses to
the address `a` it is `(a & mask) == ip`; with a host that does not parse it is
`(INADDR_NONE & mask) == ip`. -/
theorem upstream_matches_cidr (env : upstream_env) (host : CString) (up : upstream)
    (hdom : up.domain = none) (hip : up.ip ≠ 0) :
    (∀ a, env.inet_aton host = some a →
      (upstream_matches env host up = true ↔ a &&& up.mask = up.ip))
    ∧ (env.inet_aton host = none →
      (upstream_matches env host up = true ↔ INADDR_NONE &&& up.mask = up.ip)) := by
  constructor
  · intro a ha
    simp [upstream_matches, hdom, hip, inet_addr, ha]
  · intro ha
    simp [upstream_matches, hdom, hip, inet_addr, ha]

/-- C18, the code at the failing input: the rule made by
`no upstream "255.255.0.0/16"` has `ip = mask`; the destination host
`example.com` is no IPv4 literal, `inet_addr` gives `INADDR_NONE` for it, and the
rule matches it: `upstream_get` leaves its loop at this rule and returns "no
upstream" although the default proxy `p2:3128` follows. -/
theorem upstream_get_cidr_unparsed_host :
    (upstream_add uenv0 none none none 0 (some "255.255.0.0/16".toList) []).1 = [cidr_rule]
    ∧ uenv0.inet_aton "example.com".toList = none
    ∧ upstream_matches uenv0 "example.com".toList cidr_rule = true
    ∧ upstream_get_loop uenv0 "example.com".toList INADDR_NONE [cidr_rule, proxy_p2]
      = some cidr_rule
    ∧ (upstream_get uenv0 "example.com".toList [cidr_rule, proxy_p2]).1 = none
    ∧ (upstream_get uenv0 "example.com".toList [proxy_p2]).1 = some proxy_p2 := by
  decide

/-- C19, the code at the failing input: `no upstream "foo/24"` on the list that
holds the proxy for `.a.com` adds a rule without a domain and without an
address, behind the existing rule; the rule is a default rule, so that a later
`upstream p2:3128` is refused as a duplicate and every host that is not in
`.a.com` gets no upstream.  With a valid address and an invalid mask,
`no upstream "10.0.0.0/foo.bar"`, the rule has no domain either. -/
theorem upstream_add_unparsed_cidr :
    upstream_add uenv0 none none none 0 (some "foo/24".toList) [proxy_p1]
      = ([proxy_p1, empty_rule],
        [{ level := .LOG_INFO, text := "Added no-upstream for foo".toList }])
    ∧ empty_rule.domain = none
    ∧ is_default empty_rule = true
    ∧ (upstream_add uenv0 none none (some "p2".toList) 3128 none [proxy_p1, empty_rule]).1
      = [proxy_p1, empty_rule]
    ∧ (upstream_get uenv0 "other.net".toList [proxy_p1, empty_rule]).1 = none
    ∧ (upstream_add uenv0 none none none 0 (some "10.0.0.0/foo.bar".toList) [proxy_p1]).1
      = [{ host := none, domain := none, user := some [], pwd := some [], port := 0,
           ip := 167772160, mask := 0 }, proxy_p1] := by
  decide

theorem find_first {α : Type} (p : α → Bool) (pre post : List α) (r : α)
    (hpre : ∀ x ∈ pre, p x = false) (hr : p r = true) :
    (pre ++ r :: post).find? p = some r := by
  induction pre with
  | nil => simp [List.find?_cons, hr]
  | cons x xs ih =>
    rw [List.cons_append, List.find?_cons, hpre x (by simp)]
    exact ih (fun y hy => hpre y (by simp [hy]))

/-- C20: the default proxy is the fallback.  In every list built by
`upstream_add` calls from the empty list, a default rule `D` of the list that
has a host and a non-zero port (an accepted default proxy) is returned by
`upstream_get` for every destination host that matches no rule of the list
other than default rules. -/
theorem upstream_get_default_fallback (calls : List upstream_call) (D : upstream)
    (hD : D ∈ upstream_adds calls []) (hdef : is_default D = true)
    (hhost : D.host.isSome = true) (hport : D.port ≠ 0)
    (env : upstream_env) (host : CString)
    (hno : ∀ r ∈ upstream_adds calls [], is_default r = false →
      upstream_matches env host r = false) :
    (upstream_get env host (upstream_adds calls [])).1 = some D := by
  have hinv := default_last_adds calls [] (by simp [default_last])
  have hlast := (default_last_spec _ hinv).2 D hD hdef
  generalize upstream_adds calls [] = l at hD hno hinv hlast
  rcases List.eq_nil_or_concat l with rfl | ⟨init, x, rfl⟩
  · simp at hD
  · rw [List.concat_eq_append] at hinv hlast hno ⊢
    rw [List.getLast?_concat] at hlast
    have hx : x = D := by simpa using hlast
    subst hx
    have hinit : ∀ r ∈ init, is_default r = false := by
      intro r hr
      have := hinv r
      rw [List.dropLast_concat] at this
      exact this hr
    have hpre : ∀ r ∈ init, upstream_matches env host r = false :=
      fun r hr => hno r (by simp [hr]) (hinit r hr)
    have hm : upstream_matches env host x = true := by
      have h1 : x.domain = none := by
        cases hd : x.domain with
        | none => rfl
        | some d => simp [is_default, hd] at hdef
      have h2 : x.ip = 0 := by
        simpa [is_default, h1] using hdef
      simp [upstream_matches, h1, h2]
    have hfind := find_first (upstream_matches env host) init [] x hpre hm
    have hh : x.host.isNone = false := by
      cases hx : x.host with
      | none => simp [hx] at hhost
      | some v => rfl
    simp only [upstream_get, upstream_get_loop_find env host _ _ (Or.inl rfl), hfind, hh,
      Bool.false_or, beq_iff_eq, hport, if_false]

/-- Witness of `upstream_get_default_fallback`: after `upstream p1:3128 ".a.com"`,
`upstream p2:3128` and `no upstream "intra.corp"` the lookup of `other.net`
gives the default proxy `p2:3128`; the lookup of `x.a.com` gives `p1:3128` and the
lookup of `intra.corp` gives no upstream. -/
theorem upstream_get_default_fallback_witness :
    (upstream_get uenv0 "other.net".toList (upstream_adds scenario_calls [])).1
      = some proxy_p2
    ∧ (upstream_get uenv0 "x.a.com".toList (upstream_adds scenario_calls [])).1
      = some proxy_p1
    ∧ (upstream_get uenv0 "intra.corp".toList (upstream_adds scenario_calls [])).1
      = none :=
  ⟨upstream_get_default_fallback scenario_calls proxy_p2 (by decide) (by decide)
      (by decide) (by decide) uenv0 "other.net".toList (by decide),
    by decide, by decide⟩

/-! ## `upstream_add`: order of the list -/

theorem upstream_add_list (env : upstream_env) (user pwd host : Option CString)
    (port : Int) (domain : Option CString) (l : List upstream) :
    (upstream_add env user pwd host port domain l).1
      = match (upstream_build env user pwd host port domain).1 with
        | none => l
        | some up =>
          if is_default up then (if l.any is_default then l else l ++ [up])
          else up :: l := by
  unfold upstream_add
  rcases hb : upstream_build env user pwd host port domain with ⟨_ | up, log⟩
  · rfl
  · simp only []
    by_cases hd : is_default up = true
    · simp only [hd, if_true]
      rcases upstream_add_loop_cases up l with ⟨h1, h2⟩ | ⟨h1, h2⟩
      · have : l.any is_default = true := by
          rw [List.any_eq_true]; exact h1
        simp [h2, this]
      · have : l.any is_default = false := by
          rw [List.any_eq_false]
          intro x hx; simp [h1 x hx]
        simp [h2, this]
    · simp [hd]

theorem upstream_adds_order_from (calls : List upstream_call) (n : List upstream)
    (d : List upstream) (hn : ∀ r ∈ n, is_default r = false)
    (hd : ∀ r ∈ d, is_default r = true) (hd1 : d.length ≤ 1) :
    upstream_adds calls (n ++ d)
      = ((calls.filterMap built).filter (fun r => !is_default r)).reverse ++ n
        ++ (d ++ (calls.filterMap built).filter is_default).take 1 := by
  induction calls generalizing n d with
  | nil =>
    simp only [upstream_adds, List.filterMap_nil, List.filter_nil, List.reverse_nil,
      List.nil_append, List.append_nil]
    rw [List.take_of_length_le hd1]
  | cons c cs ih =>
    simp only [upstream_adds, upstream_add_list]
    rw [List.filterMap_cons]
    cases hb : built c with
    | none =>
      have hb2 : (upstream_build c.env c.user c.pwd c.host c.port c.domain).1 = none := hb
      simp only [hb2]
      exact ih n d hn hd hd1
    | some up =>
      have hb2 : (upstream_build c.env c.user c.pwd c.host c.port c.domain).1 = some up := hb
      simp only [hb2]
      by_cases hup : is_default up = true
      · have hany : (n ++ d).any is_default = !d.isEmpty := by
          cases d with
          | nil =>
            simp only [List.append_nil, List.isEmpty_nil, Bool.not_true]
            rw [List.any_eq_false]
            intro x hx; simp [hn x hx]
          | cons a as =>
            simp only [List.isEmpty_cons, Bool.not_false]
            rw [List.any_eq_true]
            exact ⟨a, by simp, hd a (by simp)⟩
        simp only [hup, if_true, hany]
        cases d with
        | nil =>
          simp only [List.isEmpty_nil, Bool.not_true, Bool.false_eq_true, if_false,
            List.append_nil, List.nil_append]
          have := ih n [up] hn (by simpa using hup) (by simp)
          rw [this]
          simp [List.filter_cons, hup]
        | cons a as =>
          simp only [List.isEmpty_cons, Bool.not_false, if_true]
          rw [ih n (a :: as) hn hd hd1]
          simp [List.filter_cons, hup]
      · have hup2 : is_default up = false := by simpa using hup
        simp only [hup2, Bool.false_eq_true, if_false]
        rw [← List.cons_append, ih (up :: n) d
          (by intro r hr; rcases List.mem_cons.1 hr with rfl | hr; exact hup2; exact hn r hr)
          hd hd1]
        simp [List.filter_cons, hup2]

/-- C21: order of the list.  After any sequence of `upstream_add` calls on the
empty list, the list holds the built rules that are not default rules in
reverse order of their calls, followed by the first built default rule if there
is one (calls whose rule is refused, and further default rules, leave the list
as it is). -/
theorem upstream_adds_order (calls : List upstream_call) :
    upstream_adds calls []
      = ((calls.filterMap built).filter (fun r => !is_default r)).reverse
        ++ ((calls.filterMap built).filter is_default).take 1 := by
  have := upstream_adds_order_from calls [] [] (by simp) (by simp) (by simp)
  simpa using this

/-! ## `upstream_add`: refused arguments -/

/-- The arguments that `upstream_build` refuses: no domain and no usable proxy
(no host, an empty host or a port below 1); no host and an empty domain; a
domain and an unusable proxy (an empty host or a port below 1).  The list is
left as it was. -/
theorem upstream_add_refused (env : upstream_env) (user pwd host : Option CString)
    (port : Int) (domain : Option CString) (l : List upstream)
    (h : (domain = none ∧ (host = none ∨ host = some [] ∨ port < 1))
      ∨ (host = none ∧ domain = some [])
      ∨ (domain ≠ none ∧ host ≠ none ∧ (host = some [] ∨ port < 1))) :
    (upstream_add env user pwd host port domain l).1 = l := by
  have hb : (upstream_build env user pwd host port domain).1 = none := by
    unfold upstream_build
    by_cases hm : env.safemalloc_ok = false
    · simp [hm]
    · simp only [hm, if_false]
      rcases h with ⟨rfl, h⟩ | ⟨rfl, rfl⟩ | ⟨hd, hh, h⟩
      · cases host with
        | none => rfl
        | some hs =>
          have : hs = [] ∨ port < 1 := by
            rcases h with h | h | h
            · simp at h
            · left; simpa using h
            · right; exact h
          simp [this]
      · simp
      · cases domain with
        | none => exact absurd rfl hd
        | some d =>
          cases host with
          | none => exact absurd rfl hh
          | some hs =>
            have : hs = [] ∨ port < 1 := by
              rcases h with h | h
              · left; simpa using h
              · right; exact h
            simp [this]
  rw [upstream_add_list, hb]

/-- C22, the code at the failing input: `upstream_add` with the host `p1`, the
port 3128 and the empty string as domain is not refused: a rule with the empty
domain is put at the head of the list. -/
theorem upstream_add_empty_domain :
    upstream_add uenv0 none none (some "p1".toList) 3128 (some []) [proxy_p2]
      = ([{ host := some "p1".toList, domain := some [], user := some [], pwd := some [],
            port := 3128, ip := 0, mask := 0 }, proxy_p2],
        [{ level := .LOG_INFO,
           text := "Added upstream (null):<pwd>@p1:3128 for ".toList }]) := by
  decide

/-! ## do_transparent_proxy: the Host header -/

theorem isDigit_cases (c : Char) (h : c.isDigit = true) :
    isspace c = false ∧ c ≠ '-' ∧ c ≠ '+' ∧ c ≠ ':' := by
  refine ⟨?_, ?_, ?_, ?_⟩
  · cases hs : isspace c
    · rfl
    · simp only [isspace, Bool.or_eq_true, beq_iff_eq] at hs
      rcases hs with ((((rfl | rfl) | rfl) | rfl) | rfl) | rfl <;> exact absurd h (by decide)
  · rintro rfl; exact absurd h (by decide)
  · rintro rfl; exact absurd h (by decide)
  · rintro rfl; exact absurd h (by decide)

theorem strtoul_digits (U : Nat) (ds : CString) (hne : ds ≠ [])
    (hd : ∀ c ∈ ds, c.isDigit = true) (hv : digits_value ds ≤ U) :
    strtoul U ds = { value := digits_value ds, errno := 0, consumed := ds.length } := by
  obtain ⟨c, t, rfl⟩ := List.exists_cons_of_ne_nil hne
  obtain ⟨h1, h2, h3, _⟩ := isDigit_cases c (hd c (List.mem_cons_self _ _))
  have htw : (c :: t).takeWhile Char.isDigit = c :: t :=
    List.takeWhile_eq_self_iff.mpr hd
  have hle : ¬ digits_value (c :: t) > U := by omega
  simp [strtoul, List.dropWhile, h1, h2, h3, htw, hle]

theorem takeWhile_colon (name rest : CString) (h : ':' ∉ name) :
    (name ++ ':' :: rest).takeWhile (fun c => c != ':') = name
      ∧ (name ++ ':' :: rest).dropWhile (fun c => c != ':') = ':' :: rest := by
  induction name with
  | nil => simp
  | cons a t ih =>
    have ha : a ≠ ':' := fun e => h (e ▸ List.mem_cons_self _ _)
    have ht : ':' ∉ t := fun m => h (List.mem_cons_of_mem _ m)
    have hb : (a != ':') = true := by simpa using ha
    simp [List.takeWhile, List.dropWhile, hb, ih ht]

theorem takeWhile_no_colon (data : CString) (h : ':' ∉ data) :
    data.takeWhile (fun c => c != ':') = data
      ∧ data.dropWhile (fun c => c != ':') = [] := by
  induction data with
  | nil => simp
  | cons a t ih =>
    have ha : a ≠ ':' := fun e => h (e ▸ List.mem_cons_self _ _)
    have ht : ':' ∉ t := fun m => h (List.mem_cons_of_mem _ m)
    have hb : (a != ':') = true := by simpa using ha
    simp [List.takeWhile, List.dropWhile, hb, ih ht]

theorem sscanf_host_port_pair (U : Nat) (name ds : CString) (hname : name ≠ [])
    (hcolon : ':' ∉ name) (hne : ds ≠ []) (hd : ∀ c ∈ ds, c.isDigit = true)
    (hv : digits_value ds ≤ U) :
    sscanf_host_port U (name ++ ':' :: ds)
      = (2, some name, some (digits_value ds % 65536)) := by
  obtain ⟨h1, h2⟩ := takeWhile_colon name ds hcolon
  have hl : ds.length ≠ 0 := fun e => hne (List.length_eq_zero.mp e)
  simp [sscanf_host_port, h1, h2, hname, strtoul_digits U ds hne hd hv, hl]

theorem sscanf_host_port_no_colon (U : Nat) (data : CString) (hcolon : ':' ∉ data) :
    (sscanf_host_port U data).1 ≠ 2 := by
  obtain ⟨h1, h2⟩ := takeWhile_no_colon data hcolon
  simp only [sscanf_host_port, h1, h2]
  split_ifs <;> simp

theorem transparent_check_fields (fd : Int) (conf : config_s) (request : request_s)
    (url : Option CString) (log : List log_entry) (h : request.host ≠ none) :
    ∃ r, transparent_check fd conf request url log = some r
      ∧ r.request = request ∧ r.url = url
      ∧ (r.ret = 0 ↔ conf.ipAddr ≠ none ∧ conf.ipAddr = request.host)
      ∧ (r.ret = 1 ↔ ¬ (conf.ipAddr ≠ none ∧ conf.ipAddr = request.host)) := by
  obtain ⟨hh, hhe⟩ := Option.ne_none_iff_exists'.mp h
  unfold transparent_check
  cases hip : conf.ipAddr with
  | none => exact ⟨_, rfl, rfl, rfl, by simp, by simp⟩
  | some ip =>
    simp only [hhe]
    by_cases e : hh = ip
    · simp only [e, if_true]
      exact ⟨_, rfl, rfl, rfl, by simp, by simp⟩
    · simp only [e, if_false]
      refine ⟨_, rfl, rfl, rfl, ?_, ?_⟩
      · simp only [one_ne_zero, false_iff, not_and, ne_eq, not_false_eq_true, true_implies,
          Option.some.injEq, reduceCtorEq]
        exact fun e2 => e e2.symm
      · simp only [true_iff, not_and, ne_eq, reduceCtorEq, not_false_eq_true, true_implies,
          Option.some.injEq]
        exact fun e2 => e e2.symm

theorem host_header_pair (env : transparent_env) (length : Nat) (name ds : CString)
    (hname : name ≠ [])
    (hcolon : ':' ∉ name) (hne : ds ≠ []) (hd : ∀ c ∈ ds, c.isDigit = true)
    (hv : digits_value ds ≤ 32767) (hU : 32767 ≤ env.ULONG_MAX) :
    host_header env length (name ++ ':' :: ds) = (name, digits_value ds) := by
  have h := sscanf_host_port_pair env.ULONG_MAX name ds hname hcolon hne hd (by omega)
  have hm : digits_value ds % 65536 = digits_value ds := Nat.mod_eq_of_lt (by omega)
  simp only [host_header, h, hm]

theorem host_header_no_colon (env : transparent_env) (length : Nat) (data : CString)
    (hcolon : ':' ∉ data) (hlen : data.length ≤ length) :
    host_header env length data = (data, env.HTTP_PORT % 65536) := by
  have h := sscanf_host_port_no_colon env.ULONG_MAX data hcolon
  have hs : strlcpy data (length + 1) = data := by
    simp only [strlcpy, Nat.add_sub_cancel]
    exact List.take_of_length_le hlen
  unfold host_header
  split
  · rename_i e; rw [e] at h; exact absurd rfl h
  · rw [hs]

theorem decimal_length (n e : Nat) (he : 0 < e) (hn : n < 10 ^ e) :
    (decimal n).length ≤ e :=
  Nat.repr_length n e he hn

theorem build_url_ok (env : transparent_env) (h p : CString) (port : Nat)
    (hm : env.malloc_url_ok = true) (h1 : 0 < port) (h2 : port < 32768) :
    build_url env (some h) (port : Int) (some p)
      = some (((("http://".toList ++ h ++ ":".toList ++ decimal port ++ p).length : Nat) : Int),
              some ("http://".toList ++ h ++ ":".toList ++ decimal port ++ p)) := by
  have hd : decimal_int (port : Int) = decimal port := by
    simp [decimal_int]
  have hl := decimal_length port 5 (by decide) (by omega)
  have hp : (0 : Int) < (port : Int) ∧ (port : Int) < 32768 := by omega
  simp only [build_url, build_url_body, hp, and_self, if_true, hm, hd, Bool.true_eq_false,
    if_false]
  congr 2
  apply congrArg
  apply List.take_of_length_le
  have h7 : "http://".toList.length = 7 := by decide
  have h1 : ":".toList.length = 1 := by decide
  simp only [List.length_append, h7, h1]
  omega

theorem build_url_some (env : transparent_env) (h p : CString) (port : Nat)
    (h1 : 0 < port) (h2 : port < 32768) :
    ∃ r, build_url env (some h) (port : Int) (some p) = some r := by
  have hp : (0 : Int) < (port : Int) ∧ (port : Int) < 32768 := by omega
  simp only [build_url, build_url_body, hp, and_self, if_true]
  split_ifs <;> exact ⟨_, rfl⟩

theorem do_transparent_proxy_header (env : transparent_env) (fd len : Int) (data : CString)
    (request : request_s) (conf : config_s) (url : CString)
    (hh : env.malloc_host_ok = true) (hp : env.malloc_path_ok = true)
    (hlen0 : 0 < len) (hlen : len < 2 ^ 32) :
    do_transparent_proxy env fd (len, data) request conf url
      = match build_url env (some (host_header env len.toNat data).1)
          ((host_header env len.toNat data).2 : Nat) (some url) with
        | none => none
        | some (_, u) =>
          transparent_check fd conf
            { request with
              host := some (host_header env len.toNat data).1,
              port := (host_header env len.toNat data).2,
              path := some url } u
            [{ level := .LOG_INFO,
               text := "process_request: trans Host ".toList ++ fmt_s request.method
                 ++ " ".toList ++ fmt_s u ++ " for ".toList ++ decimal_int fd }] := by
  have hm : (len % 2 ^ 32).toNat = len.toNat := by
    rw [Int.emod_eq_of_lt (by omega) hlen]
  have hpos : ¬ len.toNat ≤ 0 := by omega
  have hs : strlcpy url (url.length + 1) = url := by
    simp [strlcpy]
  simp only [do_transparent_proxy, hm, hpos, if_false, hh, hp, Bool.true_eq_false, or_self, hs]

theorem do_transparent_proxy_parsed (env : transparent_env) (fd len : Int)
    (request : request_s) (conf : config_s) (url data name : CString) (p : Nat)
    (hh : env.malloc_host_ok = true) (hp : env.malloc_path_ok = true)
    (hu : env.malloc_url_ok = true) (hlen0 : 0 < len) (hlen : len < 2 ^ 32)
    (hhp : host_header env len.toNat data = (name, p))
    (h1 : 0 < p) (h2 : p < 32768) :
    ∃ r, do_transparent_proxy env fd (len, data) request conf url = some r
      ∧ r.request = { request with host := some name, port := p, path := some url }
      ∧ r.url = some ("http://".toList ++ name ++ ":".toList ++ decimal p ++ url) := by
  rw [do_transparent_proxy_header env fd len _ request conf url hh hp hlen0 hlen, hhp,
    build_url_ok env name url p hu h1 h2]
  obtain ⟨r, hr, h3, h4, _⟩ := transparent_check_fields fd conf
    { request with host := some name, port := p, path := some url }
    (some ("http://".toList ++ name ++ ":".toList ++ decimal p ++ url))
    [{ level := .LOG_INFO,
       text := "process_request: trans Host ".toList ++ fmt_s request.method
         ++ " ".toList
         ++ fmt_s (some ("http://".toList ++ name ++ ":".toList ++ decimal p ++ url))
         ++ " for ".toList ++ decimal_int fd }] (by simp)
  exact ⟨r, hr, h3, h4⟩

theorem do_transparent_proxy_pair (env : transparent_env) (fd len : Int)
    (request : request_s) (conf : config_s) (url name ds : CString)
    (hh : env.malloc_host_ok = true) (hp : env.malloc_path_ok = true)
    (hu : env.malloc_url_ok = true) (hU : 32767 ≤ env.ULONG_MAX)
    (hlen0 : 0 < len) (hlen : len < 2 ^ 32) (hname : name ≠ []) (hcolon : ':' ∉ name)
    (hne : ds ≠ []) (hd : ∀ c ∈ ds, c.isDigit = true) (h1 : 1 ≤ digits_value ds)
    (h2 : digits_value ds ≤ 32767) :
    ∃ r, do_transparent_proxy env fd (len, name ++ ':' :: ds) request conf url = some r
      ∧ r.request = { request with
          host := some name, port := digits_value ds, path := some url }
      ∧ r.url = some ("http://".toList ++ name ++ ":".toList
          ++ decimal (digits_value ds) ++ url) :=
  do_transparent_proxy_parsed env fd len request conf url _ name _ hh hp hu hlen0 hlen
    (host_header_pair env _ name ds hname hcolon hne hd h2 hU) (by omega) (by omega)

theorem decimal_80 (p : Nat) (h : p = 80) : ":".toList ++ decimal p = ":80".toList := by
  subst h; decide

theorem do_transparent_proxy_no_colon (env : transparent_env) (fd len : Int)
    (request : request_s) (conf : config_s) (url data : CString)
    (hh : env.malloc_host_ok = true) (hp : env.malloc_path_ok = true)
    (hu : env.malloc_url_ok = true)
    (hlen0 : 0 < len) (hlen : len < 2 ^ 32) (hport : env.HTTP_PORT = 80)
    (hcolon : ':' ∉ data) (hdl : (data.length : Int) ≤ len) :
    ∃ r, do_transparent_proxy env fd (len, data) request conf url = some r
      ∧ r.request = { request with host := some data, port := 80, path := some url }
      ∧ r.url = some ("http://".toList ++ data ++ ":80".toList ++ url) := by
  have hdl2 : data.length ≤ len.toNat := by omega
  have hhp : host_header env len.toNat data = (data, env.HTTP_PORT) := by
    rw [host_header_no_colon env _ data hcolon hdl2, hport]
  obtain ⟨r, hr, h3, h4⟩ := do_transparent_proxy_parsed env fd len request conf url data
    data env.HTTP_PORT hh hp hu hlen0 hlen hhp (by omega) (by omega)
  refine ⟨r, hr, by rw [h3, hport], ?_⟩
  rw [h4, List.append_assoc ("http://".toList ++ data), decimal_80 env.HTTP_PORT hport]

/-- C23: when the Host header has the value `name:port`, with a non-empty `name`
without `:` and a decimal `port` between 1 and 32767, `do_transparent_proxy`
sets the host, the port and the path of the request to `name`, `port` and the
incoming url, and the new url is `http://name:port` followed by the path; when
the value holds no `:` the host is the whole value and the port is
`HTTP_PORT`, that is 80.  For
`www.example.com:8080` and `/path` the url is
`http://www.example.com:8080/path`. -/
theorem do_transparent_proxy_host (env : transparent_env) (fd len : Int)
    (request : request_s) (conf : config_s) (url : CString)
    (hh : env.malloc_host_ok = true) (hp : env.malloc_path_ok = true)
    (hu : env.malloc_url_ok = true) (hU : 32767 ≤ env.ULONG_MAX)
    (hlen0 : 0 < len) (hlen : len < 2 ^ 32) :
    (∀ name ds : CString, name ≠ [] → ':' ∉ name → ds ≠ [] →
      (∀ c ∈ ds, c.isDigit = true) → 1 ≤ digits_value ds → digits_value ds ≤ 32767 →
      ∃ r, do_transparent_proxy env fd (len, name ++ ':' :: ds) request conf url = some r
        ∧ r.request = { request with
            host := some name, port := digits_value ds, path := some url }
        ∧ r.url = some ("http://".toList ++ name ++ ":".toList
            ++ decimal (digits_value ds) ++ url))
    ∧ (∀ data : CString, env.HTTP_PORT = 80 → ':' ∉ data → (data.length : Int) ≤ len →
      ∃ r, do_transparent_proxy env fd (len, data) request conf url = some r
        ∧ r.request = { request with host := some data, port := 80, path := some url }
        ∧ r.url = some ("http://".toList ++ data ++ ":80".toList ++ url))
    ∧ ∃ r, do_transparent_proxy tenv0 7 (21, "www.example.com:8080".toList) request0
          config_zero "/path".toList = some r
        ∧ r.request = { method := some "GET".toList, host := some "www.example.com".toList,
                        port := 8080, path := some "/path".toList }
        ∧ r.url = some "http://www.example.com:8080/path".toList := by
  refine ⟨?_, ?_, ?_⟩
  · intro name ds hname hcolon hne hd h1 h2
    exact do_transparent_proxy_pair env fd len request conf url name ds hh hp hu hU hlen0
      hlen hname hcolon hne hd h1 h2
  · intro data hport hcolon hdl
    exact do_transparent_proxy_no_colon env fd len request conf url data hh hp hu hlen0 hlen
      hport hcolon hdl
  · obtain ⟨r, hr, h3, h4⟩ := do_transparent_proxy_pair tenv0 7 21 request0 config_zero
      "/path".toList "www.example.com".toList "8080".toList rfl rfl rfl (by decide)
      (by decide) (by decide) (by decide) (by decide) (by decide) (by decide) (by decide)
      (by decide)
    refine ⟨r, hr, ?_, ?_⟩
    · rw [h3]; decide
    · rw [h4]; decide

theorem do_transparent_proxy_host_witness :
    ∃ r, do_transparent_proxy tenv0 7 (21, "www.example.com".toList ++ ':' :: "8080".toList)
        request0 config_zero "/path".toList = some r
      ∧ r.request = { request0 with
          host := some "www.example.com".toList, port := digits_value "8080".toList,
          path := some "/path".toList }
      ∧ r.url = some ("http://".toList ++ "www.example.com".toList ++ ":".toList
          ++ decimal (digits_value "8080".toList) ++ "/path".toList) :=
  (do_transparent_proxy_host tenv0 7 21 request0 config_zero "/path".toList rfl rfl rfl
    (by decide) (by decide) (by decide)).1 "www.example.com".toList "8080".toList
    (by decide) (by decide) (by decide) (by decide) (by decide) (by decide)

/-- C24: with a Host header present, allocations that succeed and a port that
`build_url` accepts, `do_transparent_proxy` returns 0 exactly when
`conf->ipAddr` is set and equal, character for character, to the host of the
request, and 1 otherwise; with `ipAddr` unset it returns 1, and with `ipAddr`
`127.0.0.1` the Host `localhost` is accepted. -/
theorem do_transparent_proxy_self (env : transparent_env) (fd len : Int) (data : CString)
    (request : request_s) (conf : config_s) (url : CString)
    (hh : env.malloc_host_ok = true) (hp : env.malloc_path_ok = true)
    (hlen0 : 0 < len) (hlen : len < 2 ^ 32)
    (hport : 0 < (host_header env len.toNat data).2
      ∧ (host_header env len.toNat data).2 < 32768) :
    (∃ r, do_transparent_proxy env fd (len, data) request conf url = some r
      ∧ r.request.host = some (host_header env len.toNat data).1
      ∧ (r.ret = 0 ↔ conf.ipAddr ≠ none ∧ conf.ipAddr = r.request.host)
      ∧ (r.ret = 1 ↔ ¬ (conf.ipAddr ≠ none ∧ conf.ipAddr = r.request.host))
      ∧ (conf.ipAddr = none → r.ret = 1))
    ∧ (do_transparent_proxy tenv0 7 (10, "localhost".toList) request0
        { config_zero with ipAddr := some "127.0.0.1".toList } "/".toList).map
          (fun r => r.ret) = some 1 := by
  refine ⟨?_, by decide⟩
  rw [do_transparent_proxy_header env fd len _ request conf url hh hp hlen0 hlen]
  obtain ⟨⟨v, u⟩, hb⟩ := build_url_some env (host_header env len.toNat data).1 url _
    hport.1 hport.2
  rw [hb]
  obtain ⟨r, hr, h3, _, h5, h6⟩ := transparent_check_fields fd conf
    { request with
      host := some (host_header env len.toNat data).1,
      port := (host_header env len.toNat data).2, path := some url } u
    [{ level := .LOG_INFO,
       text := "process_request: trans Host ".toList ++ fmt_s request.method
         ++ " ".toList ++ fmt_s u ++ " for ".toList ++ decimal_int fd }] (by simp)
  refine ⟨r, hr, by rw [h3], by rw [h3]; exact h5, by rw [h3]; exact h6, ?_⟩
  intro hn
  exact h6.mpr (fun h => h.1 hn)

theorem do_transparent_proxy_self_witness :
    ∃ r, do_transparent_proxy tenv0 7 (13, "127.0.0.1:80".toList) request0
        { config_zero with ipAddr := some "127.0.0.1".toList } "/".toList = some r
      ∧ r.request.host = some (host_header tenv0 13 "127.0.0.1:80".toList).1
      ∧ (r.ret = 0 ↔ some "127.0.0.1".toList ≠ none
          ∧ some "127.0.0.1".toList = r.request.host)
      ∧ (r.ret = 1 ↔ ¬ (some "127.0.0.1".toList ≠ none
          ∧ some "127.0.0.1".toList = r.request.host))
      ∧ ((some "127.0.0.1".toList : Option CString) = none → r.ret = 1) :=
  (do_transparent_proxy_self tenv0 7 13 "127.0.0.1:80".toList request0
    { config_zero with ipAddr := some "127.0.0.1".toList } "/".toList rfl rfl
    (by decide) (by decide) (by decide)).1

/-! ## get_long_arg: the base of the numeral -/

theorem digit_of_isDigit (c : Char) (h : c.isDigit = true) :
    digit_of c = digit_value c ∧ digit_of c < 10 := by
  have h1 : '0' ≤ c ∧ c ≤ '9' := by
    simp only [Char.isDigit, Bool.and_eq_true, decide_eq_true_eq] at h
    exact ⟨h.1, h.2⟩
  have h2 : c.toNat ≤ 57 := by
    have := h1.2
    simp only [Char.le_def] at this
    exact this
  have h3 : 48 ≤ c.toNat := by
    have := h1.1
    simp only [Char.le_def] at this
    exact this
  have e : digit_of c = c.toNat - '0'.toNat := by simp only [digit_of, h1, and_self, if_true]
  refine ⟨e, ?_⟩
  rw [e]
  have : '0'.toNat = 48 := by decide
  omega

theorem digit_of_isspace (c : Char) (h : isspace c = true) : digit_of c = 36 := by
  simp only [isspace, Bool.or_eq_true, beq_iff_eq] at h
  rcases h with ((((rfl | rfl) | rfl) | rfl) | rfl) | rfl <;> decide

theorem takeWhile_append_stop (p : Char → Bool) (l r : CString)
    (hr : ∀ c, r.head? = some c → p c = false) :
    (l ++ r).takeWhile p = l.takeWhile p := by
  induction l with
  | nil =>
    cases r with
    | nil => rfl
    | cons c t => simp [List.takeWhile, hr c rfl]
  | cons a t ih =>
    rw [List.cons_append, List.takeWhile_cons, List.takeWhile_cons, ih]

theorem base_value_digits (ds : CString) (hd : ∀ c ∈ ds, c.isDigit = true) :
    base_value 10 ds = digits_value ds := by
  unfold base_value digits_value
  generalize 0 = acc
  induction ds generalizing acc with
  | nil => rfl
  | cons c t ih =>
    simp only [List.foldl_cons]
    rw [(digit_of_isDigit c (hd c (List.mem_cons_self _ _))).1]
    exact ih (fun x hx => hd x (List.mem_cons_of_mem _ hx)) _

theorem strtoul_base_decimal (U : Nat) (ds rest : CString) (hne : ds ≠ [])
    (hd : ∀ c ∈ ds, c.isDigit = true) (hz : ds.head? ≠ some '0')
    (hr : ∀ c, rest.head? = some c → isspace c = true) (hv : digits_value ds ≤ U) :
    (strtoul_base U 0 (ds ++ rest)).value = digits_value ds := by
  obtain ⟨c, t, rfl⟩ := List.exists_cons_of_ne_nil hne
  obtain ⟨h1, h2, h3, _⟩ := isDigit_cases c (hd c (List.mem_cons_self _ _))
  have hc0 : c ≠ '0' := fun e => hz (by rw [e]; rfl)
  have hhex : (match c :: (t ++ rest) with
      | '0' :: x :: d :: _ => (x == 'x' || x == 'X') && decide (digit_of d < 16)
      | _ => false) = false := by
    split
    · rename_i e; simp only [List.cons.injEq] at e; exact absurd e.1 hc0
    · rfl
  have htw : (c :: (t ++ rest)).takeWhile (fun c => decide (digit_of c < 10)) = c :: t := by
    rw [← List.cons_append,
      takeWhile_append_stop _ _ _ (fun x hx => by simp [digit_of_isspace x (hr x hx)])]
    exact List.takeWhile_eq_self_iff.mpr
      (fun x hx => by simpa using (digit_of_isDigit x (hd x hx)).2)
  have hle : ¬ digits_value (c :: t) > U := by omega
  have hbv := base_value_digits (c :: t) hd
  have hd0 : (List.dropWhile isspace (c :: (t ++ rest))) = c :: (t ++ rest) := by
    simp [List.dropWhile, h1]
  have hs : ((c :: (t ++ rest)).head? == some '-' || (c :: (t ++ rest)).head? == some '+')
      = false := by
    simp [h2, h3]
  have h0 : ((c :: (t ++ rest)).head? == some '0') = false := by
    simp [hc0]
  rw [List.cons_append]
  simp only [strtoul_base, hd0, hs, Bool.false_eq_true, if_false, hhex, and_false, h0, htw,
    true_or, if_true, hbv, hle, List.isEmpty_cons]
  simp [h2]

theorem not_x_of_digit_or_space (x : Char) (h : x.isDigit = true ∨ isspace x = true) :
    (x == 'x' || x == 'X') = false := by
  have h1 : x ≠ 'x' := by
    rintro rfl
    rcases h with h | h <;> exact absurd h (by decide)
  have h2 : x ≠ 'X' := by
    rintro rfl
    rcases h with h | h <;> exact absurd h (by decide)
  simp [h1, h2]

theorem strtoul_base_octal (U : Nat) (t rest : CString)
    (hd : ∀ c ∈ t, c.isDigit = true)
    (hr : ∀ c, rest.head? = some c → isspace c = true)
    (hv : base_value 8 (('0' :: t).takeWhile (fun c => decide (digit_of c < 8))) ≤ U) :
    (strtoul_base U 0 ('0' :: t ++ rest)).value
      = base_value 8 (('0' :: t).takeWhile (fun c => decide (digit_of c < 8))) := by
  have hhex : (match '0' :: (t ++ rest) with
      | '0' :: x :: d :: _ => (x == 'x' || x == 'X') && decide (digit_of d < 16)
      | _ => false) = false := by
    split
    · rename_i x d tail e
      simp only [List.cons.injEq, true_and] at e
      have hx : x.isDigit = true ∨ isspace x = true := by
        cases t with
        | nil => exact Or.inr (hr x (by rw [List.nil_append] at e; rw [e]; rfl))
        | cons a t2 =>
          simp only [List.cons_append, List.cons.injEq] at e
          exact Or.inl (e.1 ▸ hd a (List.mem_cons_self _ _))
      rw [not_x_of_digit_or_space x hx]; rfl
    · rfl
  have htw : ('0' :: (t ++ rest)).takeWhile (fun c => decide (digit_of c < 8))
      = ('0' :: t).takeWhile (fun c => decide (digit_of c < 8)) := by
    rw [← List.cons_append,
      takeWhile_append_stop _ _ _ (fun x hx => by simp [digit_of_isspace x (hr x hx)])]
  have hne : (('0' :: t).takeWhile (fun c => decide (digit_of c < 8))).isEmpty = false := by
    have : digit_of '0' < 8 := by decide
    simp [List.takeWhile_cons, this]
  have hle : ¬ base_value 8 (('0' :: t).takeWhile (fun c => decide (digit_of c < 8))) > U := by
    omega
  have hd0 : (List.dropWhile isspace ('0' :: (t ++ rest))) = '0' :: (t ++ rest) := by
    have : isspace '0' = false := by decide
    simp [List.dropWhile, this]
  have hs : (('0' :: (t ++ rest)).head? == some '-' || ('0' :: (t ++ rest)).head? == some '+')
      = false := by
    rfl
  have h0 : (('0' :: (t ++ rest)).head? == some '0') = true := by
    rfl
  rw [List.cons_append]
  simp only [strtoul_base, hd0, hs, Bool.false_eq_true, if_false, hhex, and_false, h0, htw,
    true_or, if_true, hle, hne]
  simp

theorem strtoul_base_hex (U : Nat) (x : Char) (ds rest : CString) (hx : x = 'x' ∨ x = 'X')
    (hne : ds ≠ []) (hd : ∀ c ∈ ds, c.isDigit = true)
    (hr : ∀ c, rest.head? = some c → isspace c = true) (hv : base_value 16 ds ≤ U) :
    (strtoul_base U 0 ('0' :: x :: ds ++ rest)).value = base_value 16 ds := by
  obtain ⟨c, t, rfl⟩ := List.exists_cons_of_ne_nil hne
  have hc := digit_of_isDigit c (hd c (List.mem_cons_self _ _))
  have hxx : (x == 'x' || x == 'X') = true := by
    rcases hx with rfl | rfl <;> decide
  have hhex : ((x == 'x' || x == 'X') && decide (digit_of c < 16)) = true := by
    have : digit_of c < 16 := by omega
    simp only [hxx, this, decide_True, Bool.and_self]
  have htw : (c :: (t ++ rest)).takeWhile (fun c => decide (digit_of c < 16)) = c :: t := by
    rw [← List.cons_append,
      takeWhile_append_stop _ _ _ (fun x hx => by simp [digit_of_isspace x (hr x hx)])]
    exact List.takeWhile_eq_self_iff.mpr
      (fun y hy => by have := (digit_of_isDigit y (hd y hy)).2; simp only [decide_eq_true_eq]; omega)
  have hle : ¬ base_value 16 (c :: t) > U := by omega
  have hd0 : (List.dropWhile isspace ('0' :: x :: c :: (t ++ rest)))
      = '0' :: x :: c :: (t ++ rest) := by
    have : isspace '0' = false := by decide
    simp [List.dropWhile, this]
  have hs : (('0' :: x :: c :: (t ++ rest)).head? == some '-'
      || ('0' :: x :: c :: (t ++ rest)).head? == some '+') = false := by
    rfl
  rw [List.cons_append, List.cons_append, List.cons_append]
  simp only [strtoul_base, hd0, hs, Bool.false_eq_true, if_false, hhex, and_true, true_or,
    if_true, List.drop_succ_cons, List.drop_zero, htw, hle, List.isEmpty_cons]
  simp

theorem get_long_arg_drop (U : Nat) (pre text : CString) (m : regmatch_t)
    (hso : m.rm_so = pre.length) :
    get_long_arg U (pre ++ text) m = some (strtoul_base U 0 text).value := by
  have h1 : m.rm_so ≠ -1 := by omega
  have h2 : m.rm_so.toNat = pre.length := by omega
  simp only [get_long_arg, h1, if_false, h2, List.drop_left]

/-- C29 (amended): for an INT argument `ds` of decimal digits that starts at
`match->rm_so` and is followed by white space or the end of the line,
`get_long_arg` reads the decimal value of `ds` when `ds` does not start with
`0`, the octal value of the longest run of octal digits at the start of `ds`
when it does, and the hexadecimal value of `ds` when `ds` follows a prefix `0x`
or `0X` (for values within the range of `unsigned long`). -/
theorem get_long_arg_base (U : Nat) (pre ds rest : CString) (m : regmatch_t)
    (hso : m.rm_so = pre.length) (hne : ds ≠ []) (hd : ∀ c ∈ ds, c.isDigit = true)
    (hr : ∀ c, rest.head? = some c → isspace c = true) :
    (ds.head? ≠ some '0' → digits_value ds ≤ U →
      get_long_arg U (pre ++ (ds ++ rest)) m = some (digits_value ds))
    ∧ (ds.head? = some '0' →
      base_value 8 (ds.takeWhile (fun c => decide (digit_of c < 8))) ≤ U →
      get_long_arg U (pre ++ (ds ++ rest)) m
        = some (base_value 8 (ds.takeWhile (fun c => decide (digit_of c < 8)))))
    ∧ (∀ x : Char, x = 'x' ∨ x = 'X' → base_value 16 ds ≤ U →
      get_long_arg U (pre ++ ('0' :: x :: ds ++ rest)) m = some (base_value 16 ds)) := by
  refine ⟨?_, ?_, ?_⟩
  · intro hz hv
    rw [get_long_arg_drop U pre _ m hso, strtoul_base_decimal U ds rest hne hd hz hr hv]
  · intro hz hv
    obtain ⟨c, t, rfl⟩ := List.exists_cons_of_ne_nil hne
    have hc : c = '0' := by simpa using hz
    subst hc
    rw [get_long_arg_drop U pre _ m hso,
      strtoul_base_octal U t rest (fun x hx => hd x (List.mem_cons_of_mem _ hx)) hr hv]
  · intro x hx hv
    rw [get_long_arg_drop U pre _ m hso, strtoul_base_hex U x ds rest hx hne hd hr hv]

theorem get_long_arg_base_witness :
    get_long_arg (2 ^ 64 - 1) ("port ".toList ++ ("8080".toList ++ "\n".toList))
      { rm_so := 5, rm_eo := 9 } = some (digits_value "8080".toList) :=
  (get_long_arg_base (2 ^ 64 - 1) "port ".toList "8080".toList "\n".toList
    { rm_so := 5, rm_eo := 9 } (by decide) (by decide) (by decide) (by decide)).1
    (by decide) (by decide)

/-- C29 (as stated) fails: the argument `010` of the line `port 010` has no
prefix `0x` and the decimal value 10, but `get_long_arg` reads 8. -/
theorem get_long_arg_leading_zero :
    get_long_arg (2 ^ 64 - 1) "port 010\n".toList { rm_so := 5, rm_eo := 8 } = some 8
      ∧ digits_value "010".toList = 10 := by
  decide

/-! ## reload_config_file -/

theorem reload_config_file_fresh (env : conf_env) (fname : CString)
    (conf1 conf2 defaults : config_s) :
    reload_config_file env fname conf1 defaults
      = reload_config_file env fname conf2 defaults := rfl

theorem load_config_file_cases (env : conf_env) (fname : CString) (conf : config_s) :
    (env.fopen fname = none ∧ ∃ ev, load_config_file env fname conf = handled (-1) conf ev)
    ∨ (∃ f, env.fopen fname = some f ∧ config_parse env conf f = none
        ∧ load_config_file env fname conf = none)
    ∨ (∃ f p, env.fopen fname = some f ∧ config_parse env conf f = some p ∧ p.ret ≠ 0
        ∧ ∃ ev, load_config_file env fname conf = handled (-1) p.conf ev)
    ∨ (∃ f p, env.fopen fname = some f ∧ config_parse env conf f = some p ∧ p.ret = 0
        ∧ load_config_file env fname conf = handled 0 p.conf p.events) := by
  cases hf : env.fopen fname with
  | none =>
    refine Or.inl ⟨rfl, ?_⟩
    simp only [load_config_file, hf]
    exact ⟨_, rfl⟩
  | some f =>
    cases hp : config_parse env conf f with
    | none =>
      refine Or.inr (Or.inl ⟨f, rfl, hp, ?_⟩)
      simp only [load_config_file, hf, hp]
    | some p =>
      by_cases hr : p.ret = 0
      · refine Or.inr (Or.inr (Or.inr ⟨f, p, rfl, hp, hr, ?_⟩))
        simp only [load_config_file, hf, hp, hr, ne_eq, not_true_eq_false, if_false]
      · refine Or.inr (Or.inr (Or.inl ⟨f, p, rfl, hp, hr, ?_⟩))
        simp only [load_config_file, hf, hp, hr, ne_eq, not_false_eq_true, if_true]
        exact ⟨_, rfl⟩

theorem reload_config_file_cases (env : conf_env) (fname : CString)
    (conf defaults : config_s) :
    (env.fopen fname = none
      ∧ ∃ ev, reload_config_file env fname conf defaults
          = handled (-1) (initialize_with_defaults env config_zero defaults) ev)
    ∨ (∃ f, env.fopen fname = some f
        ∧ config_parse env (initialize_with_defaults env config_zero defaults) f = none
        ∧ reload_config_file env fname conf defaults = none)
    ∨ (∃ f p, env.fopen fname = some f
        ∧ config_parse env (initialize_with_defaults env config_zero defaults) f = some p
        ∧ (p.ret ≠ 0 ∨ p.conf.port = 0)
        ∧ ∃ ev, reload_config_file env fname conf defaults = handled (-1) p.conf ev)
    ∨ (∃ f p, env.fopen fname = some f
        ∧ config_parse env (initialize_with_defaults env config_zero defaults) f = some p
        ∧ p.ret = 0 ∧ p.conf.port ≠ 0
        ∧ ∃ ev, reload_config_file env fname conf defaults
            = handled 0
                (if p.conf.idletimeout = 0 then
                  { p.conf with idletimeout := env.MAX_IDLE_TIME } else p.conf) ev) := by
  unfold reload_config_file free_config
  rcases load_config_file_cases env fname
      (initialize_with_defaults env config_zero defaults) with
    ⟨hf, ev, h⟩ | ⟨f, hf, hp, h⟩ | ⟨f, p, hf, hp, hr, ev, h⟩ | ⟨f, p, hf, hp, hr, h⟩
  · refine Or.inl ⟨hf, ?_⟩
    simp only [h, handled]
    exact ⟨_, rfl⟩
  · exact Or.inr (Or.inl ⟨f, hf, hp, by simp only [h]⟩)
  · refine Or.inr (Or.inr (Or.inl ⟨f, p, hf, hp, Or.inl hr, ?_⟩))
    simp only [h, handled]
    exact ⟨_, rfl⟩
  · by_cases hport : p.conf.port = 0
    · refine Or.inr (Or.inr (Or.inl ⟨f, p, hf, hp, Or.inr hport, ?_⟩))
      simp only [h, handled, ne_eq, not_true_eq_false, if_false, hport, if_true]
      exact ⟨_, rfl⟩
    · refine Or.inr (Or.inr (Or.inr ⟨f, p, hf, hp, hr, hport, ?_⟩))
      simp only [h, handled, ne_eq, not_true_eq_false, if_false, hport]
      by_cases hidle : p.conf.idletimeout = 0
      · simp only [hidle, if_true]; exact ⟨_, rfl⟩
      · simp only [hidle, if_false]; exact ⟨_, rfl⟩

theorem initialize_with_defaults_access_list (env : conf_env) (conf defaults : config_s) :
    (initialize_with_defaults env conf defaults).access_list = conf.access_list := by
  unfold initialize_with_defaults
  simp only []
  split_ifs <;> rfl

/-- C25, counterexample: the configuration `conf_before` has port 8888 and
denies the peer `10.0.0.1`; a reload from a file that cannot be opened fails
with -1 and leaves the port 0 and no access list, so that the same peer is
allowed afterwards. -/
theorem reload_config_file_not_atomic :
    check_acl env0 "10.0.0.1".toList "x".toList conf_before.access_list
      = some (0, [unauthorized "10.0.0.1".toList "x".toList])
    ∧ (reload_config_file (cenv0 (fun _ => none)) "tinyproxy.conf".toList conf_before
        config_zero).map (fun r => (r.ret, r.conf))
      = some (-1, config_zero)
    ∧ config_zero.port ≠ conf_before.port
    ∧ check_acl env0 "10.0.0.1".toList "x".toList config_zero.access_list = some (1, []) := by
  decide

/-- C25 (amended): when `reload_config_file` returns failure, the record does
not keep its values from before the call: the result is the same for every
earlier record, its fields are those that the defaults and the directives
applied before the failure give; in particular, when the file cannot be
opened, the record is the copy of the defaults, its access list is the NULL
one and `check_acl` allows every peer. -/
theorem reload_config_file_failure (env : conf_env) (fname : CString)
    (conf defaults : config_s) (r : handler_result)
    (h : reload_config_file env fname conf defaults = some r) (hfail : r.ret ≠ 0) :
    (∀ conf2, reload_config_file env fname conf2 defaults = some r)
    ∧ (env.fopen fname = none →
        r.conf = initialize_with_defaults env config_zero defaults
        ∧ r.conf.access_list = none
        ∧ ∀ ip host, check_acl env.acl ip host r.conf.access_list = some (1, []))
    ∧ (∀ f, env.fopen fname = some f →
        ∃ p, config_parse env (initialize_with_defaults env config_zero defaults) f = some p
          ∧ r.conf = p.conf) := by
  refine ⟨fun conf2 => by rw [reload_config_file_fresh env fname conf2 conf defaults, h],
    ?_, ?_⟩
  · intro hf
    rcases reload_config_file_cases env fname conf defaults with
      ⟨_, ev, e⟩ | ⟨f, hf2, _, _⟩ | ⟨f, p, hf2, _, _, _, _⟩ | ⟨f, p, hf2, _, _, _, _, _⟩
    · rw [h] at e
      simp only [handled, Option.some.injEq] at e
      have hc : r.conf = initialize_with_defaults env config_zero defaults := by rw [e]
      have ha : r.conf.access_list = none := by
        rw [hc, initialize_with_defaults_access_list]; rfl
      exact ⟨hc, ha, fun ip host => by rw [ha]; rfl⟩
    · rw [hf] at hf2; exact absurd hf2 (by simp)
    · rw [hf] at hf2; exact absurd hf2 (by simp)
    · rw [hf] at hf2; exact absurd hf2 (by simp)
  · intro f hf
    rcases reload_config_file_cases env fname conf defaults with
      ⟨hf2, _, _⟩ | ⟨f2, _, _, e⟩ | ⟨f2, p, hf2, hp, _, ev, e⟩
        | ⟨f2, p, hf2, hp, _, _, ev, e⟩
    · rw [hf] at hf2; exact absurd hf2 (by simp)
    · rw [h] at e; exact absurd e (by simp)
    · rw [hf] at hf2
      simp only [Option.some.injEq] at hf2
      subst hf2
      rw [h] at e
      simp only [handled, Option.some.injEq] at e
      exact ⟨p, hp, by rw [e]⟩
    · rw [h] at e
      simp only [handled, Option.some.injEq] at e
      exact absurd (by rw [e]) hfail

theorem reload_config_file_failure_witness :
    reload_config_file (cenv0 (fun _ => none)) "tinyproxy.conf".toList config_zero
        config_zero
      = some { ret := -1, conf := config_zero,
               events := [.log { level := .LOG_INFO, text := "Reloading config file".toList },
                 .stderr ("tinyproxy: Could not open config file "
                   ++ "\"tinyproxy.conf\".\n").toList] } :=
  (reload_config_file_failure (cenv0 (fun _ => none)) "tinyproxy.conf".toList conf_before
    config_zero _ (by decide) (by decide)).1 config_zero

/-- C26: `reload_config_file` returns 0 exactly when the file can be opened,
`config_parse` accepts every line and the port after the load is not 0;
whenever it returns 0 the idle timeout of the result is not 0, a loaded value
of 0 being replaced by `MAX_IDLE_TIME`, and the user, set or not, plays no part
in the success. -/
theorem reload_config_file_success (env : conf_env) (fname : CString)
    (conf defaults : config_s) (hidle : 0 < env.MAX_IDLE_TIME) :
    ((∃ r, reload_config_file env fname conf defaults = some r ∧ r.ret = 0) ↔
      ∃ f p, env.fopen fname = some f
        ∧ config_parse env (initialize_with_defaults env config_zero defaults) f = some p
        ∧ p.ret = 0 ∧ p.conf.port ≠ 0)
    ∧ (∀ r, reload_config_file env fname conf defaults = some r → r.ret = 0 →
        r.conf.idletimeout ≠ 0)
    ∧ (∀ f p, env.fopen fname = some f →
        config_parse env (initialize_with_defaults env config_zero defaults) f = some p →
        p.ret = 0 → p.conf.port ≠ 0 →
        ∃ r, reload_config_file env fname conf defaults = some r ∧ r.ret = 0
          ∧ r.conf.idletimeout
              = (if p.conf.idletimeout = 0 then env.MAX_IDLE_TIME else p.conf.idletimeout)
          ∧ r.conf.user = p.conf.user) := by
  have hsucc : ∀ f p, env.fopen fname = some f →
      config_parse env (initialize_with_defaults env config_zero defaults) f = some p →
      p.ret = 0 → p.conf.port ≠ 0 →
      ∃ r, reload_config_file env fname conf defaults = some r ∧ r.ret = 0
        ∧ r.conf.idletimeout
            = (if p.conf.idletimeout = 0 then env.MAX_IDLE_TIME else p.conf.idletimeout)
        ∧ r.conf.user = p.conf.user := by
    intro f p hf hp hr hport
    rcases reload_config_file_cases env fname conf defaults with
      ⟨hf2, _, _⟩ | ⟨f2, hf2, hp2, _⟩ | ⟨f2, p2, hf2, hp2, hbad, _, _⟩
        | ⟨f2, p2, hf2, hp2, _, _, ev, e⟩
    · rw [hf] at hf2; exact absurd hf2 (by simp)
    · rw [hf] at hf2; simp only [Option.some.injEq] at hf2; subst hf2
      rw [hp] at hp2; exact absurd hp2 (by simp)
    · rw [hf] at hf2; simp only [Option.some.injEq] at hf2; subst hf2
      rw [hp] at hp2; simp only [Option.some.injEq] at hp2; subst hp2
      rcases hbad with hb | hb
      · exact absurd hr hb
      · exact absurd hb hport
    · rw [hf] at hf2; simp only [Option.some.injEq] at hf2; subst hf2
      rw [hp] at hp2; simp only [Option.some.injEq] at hp2; subst hp2
      refine ⟨_, e, rfl, ?_, ?_⟩
      · by_cases hi : p.conf.idletimeout = 0
        · simp only [hi, if_true]
        · simp only [hi, if_false]
      · by_cases hi : p.conf.idletimeout = 0
        · simp only [hi, if_true]
        · simp only [hi, if_false]
  refine ⟨⟨?_, ?_⟩, ?_, hsucc⟩
  · rintro ⟨r, h, hr⟩
    rcases reload_config_file_cases env fname conf defaults with
      ⟨_, ev, e⟩ | ⟨f, _, _, e⟩ | ⟨f, p, _, _, _, ev, e⟩ | ⟨f, p, hf, hp, hr2, hport, _, _⟩
    · rw [h] at e; simp only [handled, Option.some.injEq] at e
      rw [e] at hr; simp at hr
    · rw [h] at e; exact absurd e (by simp)
    · rw [h] at e; simp only [handled, Option.some.injEq] at e
      rw [e] at hr; simp at hr
    · exact ⟨f, p, hf, hp, hr2, hport⟩
  · rintro ⟨f, p, hf, hp, hr, hport⟩
    obtain ⟨r, h, hr2, _⟩ := hsucc f p hf hp hr hport
    exact ⟨r, h, hr2⟩
  · intro r h hr
    rcases reload_config_file_cases env fname conf defaults with
      ⟨_, ev, e⟩ | ⟨f, _, _, e⟩ | ⟨f, p, _, _, _, ev, e⟩ | ⟨f, p, hf, hp, hr2, hport, _, _⟩
    · rw [h] at e; simp only [handled, Option.some.injEq] at e
      rw [e] at hr; simp at hr
    · rw [h] at e; exact absurd e (by simp)
    · rw [h] at e; simp only [handled, Option.some.injEq] at e
      rw [e] at hr; simp at hr
    · obtain ⟨r2, h2, _, hi, _⟩ := hsucc f p hf hp hr2 hport
      rw [h] at h2; simp only [Option.some.injEq] at h2; subst h2
      rw [hi]
      by_cases h0 : p.conf.idletimeout = 0
      · simp only [h0, if_true]; omega
      · simp only [h0, if_false]; exact h0

set_option maxRecDepth 100000 in
theorem reload_config_file_success_witness :
    ∃ r, reload_config_file (cenv0 (one_file "tinyproxy.conf" "port 8888\n"))
        "tinyproxy.conf".toList conf_before config_zero = some r ∧ r.ret = 0
      ∧ r.conf.idletimeout = 600 ∧ r.conf.user = none :=
  (reload_config_file_success (cenv0 (one_file "tinyproxy.conf" "port 8888\n"))
    "tinyproxy.conf".toList conf_before config_zero (by decide)).2.2
    "port 8888\n".toList { ret := 0, conf := { config_zero with port := 8888 }, events := [] }
    (by decide) (by decide) (by decide) (by decide)

/-! ## The directives `port`, `allow` and `deny` -/

/-- C27, failing input: on a build with a 64-bit `unsigned long` and a 32-bit
`unsigned int` the line `port 65536` is refused with 1, but the line
`port 4294967376`, whose argument is greater still, is accepted: `set_int_arg`
keeps the low 32 bits, `handle_port` returns 0 and the port is 80. -/
theorem handle_port_truncates :
    (check_match (cenv0 (fun _ => none)) config_zero "port 65536\n".toList).map
        (fun r => r.ret) = some 1
    ∧ check_match (cenv0 (fun _ => none)) config_zero "port 4294967376\n".toList
      = some { ret := 0, conf := { config_zero with port := 80 }, events := [] }
    ∧ (65535 : Nat) < 4294967376 := by
  set_option maxRecDepth 1000000 in
  set_option maxHeartbeats 4000000 in
  decide

theorem insert_acl_failed_entries (env : Env) (location : CString)
    (access_type : acl_access_t) (access_list : vector_t)
    (h : (insert_acl env location access_type access_list).ret ≠ 0) :
    entries (insert_acl env location access_type access_list).access_list
      = entries access_list := by
  cases access_list with
  | some l =>
    rcases insert_acl_created env location access_type l with ⟨_, h2⟩ | ⟨e, h1, _⟩
    · rw [h2]
    · exact absurd h1 h
  | none =>
    rw [insert_acl_absent] at h ⊢
    by_cases hv : env.vector_create_ok = true
    · simp only [hv, if_true] at h ⊢
      rcases insert_acl_created env location access_type [] with ⟨_, h2⟩ | ⟨e, h1, _⟩
      · rw [h2]; rfl
      · exact absurd h1 h
    · simp only [hv, Bool.false_eq_true, if_false]

theorem get_string_arg_ok (env : conf_env) (line : CString) (m : regmatch_t)
    (hlen : m.rm_so < m.rm_eo) (hmax : m.rm_eo - m.rm_so ≤ env.UINT_MAX)
    (hmalloc : env.safemalloc_ok ((m.rm_eo - m.rm_so).toNat + 1) = true) :
    get_string_arg env line m
      = some (some ((line.drop m.rm_so.toNat).take (m.rm_eo - m.rm_so).toNat)) := by
  have hm : ((m.rm_eo - m.rm_so) % ((env.UINT_MAX : Int) + 1)).toNat
      = (m.rm_eo - m.rm_so).toNat := by
    rw [Int.emod_eq_of_lt (by omega) (by omega)]
  have h0 : (m.rm_eo - m.rm_so).toNat ≠ 0 := by omega
  simp only [get_string_arg, hm, h0, if_false, hmalloc, Bool.true_eq_false]

theorem handle_acl_zero (access : acl_access_t) (env : conf_env) (conf : config_s)
    (line : CString) (m : List regmatch_t)
    (hlen : (match_at m 2).rm_so < (match_at m 2).rm_eo)
    (hmax : (match_at m 2).rm_eo - (match_at m 2).rm_so ≤ env.UINT_MAX)
    (hmalloc : env.safemalloc_ok
      (((match_at m 2).rm_eo - (match_at m 2).rm_so).toNat + 1) = true) :
    ∃ r, handle_acl access env conf line m = some r ∧ r.ret = 0
      ∧ r.conf.access_list
          = (insert_acl env.acl
              ((line.drop (match_at m 2).rm_so.toNat).take
                ((match_at m 2).rm_eo - (match_at m 2).rm_so).toNat)
              access conf.access_list).access_list
      ∧ ((insert_acl env.acl
            ((line.drop (match_at m 2).rm_so.toNat).take
              ((match_at m 2).rm_eo - (match_at m 2).rm_so).toNat)
            access conf.access_list).ret ≠ 0 →
          entries r.conf.access_list = entries conf.access_list) := by
  simp only [handle_acl, get_string_arg_ok env line _ hlen hmax hmalloc, handled]
  exact ⟨_, rfl, rfl, rfl, fun h => insert_acl_failed_entries _ _ _ _ h⟩

theorem config_parse_loop_next (env : conf_env) (fuel : Nat) (conf : config_s)
    (f buffer rest : CString) (lineno : Nat) (ev : List conf_event) (r : handler_result)
    (hf : fgets 1024 f = some (buffer, rest)) (hc : check_match env conf buffer = some r)
    (hr : r.ret = 0) :
    config_parse_loop env (fuel + 1) conf f lineno ev
      = config_parse_loop env fuel r.conf rest (lineno + 1) (ev ++ r.events) := by
  simp only [config_parse_loop, hf, hc, hr, ne_eq, not_true_eq_false, if_false]

/-- C28, counterexample: the line `allow 10.0.0.0/33` names a prefix length
that is out of range for an IPv4 address, and `insert_acl` refuses the pattern
with -1; yet the handler of the directive returns 0, and `config_parse` reads
on and returns 0 for a file that holds this line. -/
theorem handle_allow_reports_nothing :
    (insert_acl env0 "10.0.0.0/33".toList .ACL_ALLOW none).ret = -1
    ∧ (config_parse (cenv0 (fun _ => none)) config_zero
        "allow 10.0.0.0/33\nport 8888\n".toList).map (fun r => (r.ret, r.conf.port))
      = some (0, 8888) := by
  set_option maxRecDepth 1000000 in
  set_option maxHeartbeats 4000000 in
  decide

/-- C28 (amended): an `allow` or `deny` directive never aborts the load, be its
prefix length out of range or not: with an argument that `get_string_arg` can
copy, the handler passes it to `insert_acl` and returns 0 whatever `insert_acl`
returns; when `insert_acl` fails, the entries of the access list stay as they
were; and after a handler that returned 0 `config_parse` goes on with the next
line. -/
theorem handle_allow_deny_return_zero (env : conf_env) (conf : config_s)
    (line : CString) (m : List regmatch_t)
    (hlen : (match_at m 2).rm_so < (match_at m 2).rm_eo)
    (hmax : (match_at m 2).rm_eo - (match_at m 2).rm_so ≤ env.UINT_MAX)
    (hmalloc : env.safemalloc_ok
      (((match_at m 2).rm_eo - (match_at m 2).rm_so).toNat + 1) = true) :
    (∃ r, handle_allow env conf line m = some r ∧ r.ret = 0
      ∧ r.conf.access_list
          = (insert_acl env.acl
              ((line.drop (match_at m 2).rm_so.toNat).take
                ((match_at m 2).rm_eo - (match_at m 2).rm_so).toNat)
              .ACL_ALLOW conf.access_list).access_list
      ∧ ((insert_acl env.acl
            ((line.drop (match_at m 2).rm_so.toNat).take
              ((match_at m 2).rm_eo - (match_at m 2).rm_so).toNat)
            .ACL_ALLOW conf.access_list).ret ≠ 0 →
          entries r.conf.access_list = entries conf.access_list))
    ∧ (∃ r, handle_deny env conf line m = some r ∧ r.ret = 0
      ∧ r.conf.access_list
          = (insert_acl env.acl
              ((line.drop (match_at m 2).rm_so.toNat).take
                ((match_at m 2).rm_eo - (match_at m 2).rm_so).toNat)
              .ACL_DENY conf.access_list).access_list
      ∧ ((insert_acl env.acl
            ((line.drop (match_at m 2).rm_so.toNat).take
              ((match_at m 2).rm_eo - (match_at m 2).rm_so).toNat)
            .ACL_DENY conf.access_list).ret ≠ 0 →
          entries r.conf.access_list = entries conf.access_list))
    ∧ (∀ (fuel lineno : Nat) (f buffer rest : CString) (ev : List conf_event)
        (r : handler_result), fgets 1024 f = some (buffer, rest) →
        check_match env conf buffer = some r → r.ret = 0 →
        config_parse_loop env (fuel + 1) conf f lineno ev
          = config_parse_loop env fuel r.conf rest (lineno + 1) (ev ++ r.events)) :=
  ⟨handle_acl_zero .ACL_ALLOW env conf line m hlen hmax hmalloc,
    handle_acl_zero .ACL_DENY env conf line m hlen hmax hmalloc,
    fun fuel lineno f buffer rest ev r hf hc hr =>
      config_parse_loop_next env fuel conf f buffer rest lineno ev r hf hc hr⟩

theorem handle_allow_deny_return_zero_witness :
    ∃ r, handle_allow (cenv0 (fun _ => none)) config_zero "allow 10.0.0.0/33\n".toList
        [{ rm_so := 0, rm_eo := 18 }, { rm_so := 0, rm_eo := 5 }, { rm_so := 6, rm_eo := 17 }]
        = some r
      ∧ r.ret = 0
      ∧ r.conf.access_list
          = (insert_acl env0 "10.0.0.0/33".toList .ACL_ALLOW none).access_list
      ∧ ((insert_acl env0 "10.0.0.0/33".toList .ACL_ALLOW none).ret ≠ 0 →
          entries r.conf.access_list = entries config_zero.access_list) :=
  (handle_allow_deny_return_zero (cenv0 (fun _ => none)) config_zero
    "allow 10.0.0.0/33\n".toList
    [{ rm_so := 0, rm_eo := 18 }, { rm_so := 0, rm_eo := 5 }, { rm_so := 6, rm_eo := 17 }]
    (by decide) (by decide) (by decide)).1

/-! ## The argument class INT -/

/-- C30, failing input: the pattern of the directive `port` matches the line
`port 0x10`, whose digits after `0x` are decimal, but not the line `port 0x1F`,
whose digits `1F` are hexadecimal; that line matches no pattern of the table,
and `config_parse` reports a syntax error on line 1. -/
theorem regexec_hex_letters_refused :
    (regexec (STDCONF "port" INT handle_port).re "port 0x10\n".toList).isSome = true
    ∧ regexec (STDCONF "port" INT handle_port).re "port 0x1F\n".toList = none
    ∧ config_parse (cenv0 (fun _ => none)) config_zero "port 0x1F\n".toList
      = some { ret := 1, conf := config_zero,
               events := [.stdout "Syntax error on line 1\n".toList] } := by
  set_option maxRecDepth 1000000 in
  set_option maxHeartbeats 4000000 in
  decide

/-! ## get_bool_arg -/

theorem get_bool_arg_drop (pre text : CString) (m : regmatch_t)
    (hso : m.rm_so = pre.length) :
    get_bool_arg (pre ++ text) m
      = if (text.getD 0 '\x00').toLower = 'y' ∨ (text.getD 1 '\x00').toLower = 'n' then some 1
        else some 0 := by
  have h1 : m.rm_so ≠ -1 := by omega
  have h2 : m.rm_so.toNat = pre.length := by omega
  simp only [get_bool_arg, h1, if_false, h2, List.drop_left]

theorem map_eq_two {α β : Type} (f : α → β) (l : List α) (x y : β) (h : l.map f = [x, y]) :
    ∃ a b, l = [a, b] ∧ f a = x ∧ f b = y := by
  match l, h with
  | [a, b], h =>
    simp only [List.map_cons, List.map_nil, List.cons.injEq, and_true] at h
    exact ⟨a, b, rfl, h.1, h.2⟩

theorem map_eq_three {α β : Type} (f : α → β) (l : List α) (x y z : β)
    (h : l.map f = [x, y, z]) :
    ∃ a b c, l = [a, b, c] ∧ f a = x ∧ f b = y ∧ f c = z := by
  match l, h with
  | [a, b, c], h =>
    simp only [List.map_cons, List.map_nil, List.cons.injEq, and_true] at h
    exact ⟨a, b, c, rfl, h.1, h.2.1, h.2.2⟩

/-- C31: for a BOOL argument that starts at `match->rm_so` and is one of the
four tokens in any letter case, `get_bool_arg` returns 1 for `yes` and `on` and
0 for `no` and `off`, whatever follows the token. -/
theorem get_bool_arg_tokens (pre tok rest : CString) (m : regmatch_t)
    (hso : m.rm_so = pre.length) :
    (tok.map Char.toLower = "yes".toList → get_bool_arg (pre ++ (tok ++ rest)) m = some 1)
    ∧ (tok.map Char.toLower = "on".toList → get_bool_arg (pre ++ (tok ++ rest)) m = some 1)
    ∧ (tok.map Char.toLower = "no".toList → get_bool_arg (pre ++ (tok ++ rest)) m = some 0)
    ∧ (tok.map Char.toLower = "off".toList →
        get_bool_arg (pre ++ (tok ++ rest)) m = some 0) := by
  rw [get_bool_arg_drop pre _ m hso]
  refine ⟨?_, ?_, ?_, ?_⟩
  · intro h
    obtain ⟨a, b, c, rfl, ha, _, _⟩ := map_eq_three _ _ _ _ _ h
    simp [ha]
  · intro h
    obtain ⟨a, b, rfl, _, hb⟩ := map_eq_two _ _ _ _ h
    simp [hb]
  · intro h
    obtain ⟨a, b, rfl, ha, hb⟩ := map_eq_two _ _ _ _ h
    simp [ha, hb]
  · intro h
    obtain ⟨a, b, c, rfl, ha, hb, _⟩ := map_eq_three _ _ _ _ _ h
    simp [ha, hb]

theorem get_bool_arg_tokens_witness :
    get_bool_arg ("syslog ".toList ++ ("On".toList ++ "\n".toList)) { rm_so := 7, rm_eo := 9 }
      = some 1 :=
  (get_bool_arg_tokens "syslog ".toList "On".toList "\n".toList { rm_so := 7, rm_eo := 9 }
    (by decide)).2.1 (by decide)

/-! ## upstream_add: a default proxy after a rule without a selector -/

theorem upstream_add_default_appends (env : upstream_env) (user pwd : Option CString)
    (h : CString) (port : Int) (l : List upstream) (hm : env.safemalloc_ok = true)
    (hh : h ≠ []) (hp : 1 ≤ port) (hl : ∀ r ∈ l, is_default r = false) :
    ∃ up, (upstream_build env user pwd (some h) port none).1 = some up
      ∧ up.domain = none ∧ up.host = safestrdup env.dup_host_ok h ∧ up.port = port
      ∧ (upstream_add env user pwd (some h) port none l).1 = l ++ [up] := by
  have hb := upstream_build_default env user pwd h port hm hh hp
  refine ⟨_, by rw [hb], rfl, rfl, rfl, ?_⟩
  rw [upstream_add_list, hb]
  have hany : l.any is_default = false := by
    rw [List.any_eq_false]
    intro r hr
    simp [hl r hr]
  simp [is_default, hany]

/-- C34, the code at the failing input: the list made by `no upstream "foo/24"`
holds one rule, which has no host and is no proxy; `upstream_add` of the valid
default proxy `p2:3128` to this list is refused as a duplicate default and
leaves the list as it was. -/
theorem upstream_add_default_refused :
    (upstream_add uenv0 none none none 0 (some "foo/24".toList) []).1 = [empty_rule]
    ∧ empty_rule.host = none
    ∧ upstream_add uenv0 none none (some "p2".toList) 3128 none [empty_rule]
      = ([empty_rule],
        [{ level := .LOG_INFO, text := "Added upstream p2:3128 for [default]".toList },
         { level := .LOG_WARNING, text := "Duplicate default upstream".toList }])
    ∧ (upstream_add uenv0 none none (some "p2".toList) 3128 none [proxy_p1]).1
      = [proxy_p1, proxy_p2] := by
  decide

/-! ## build_url: the assertion on the port and the size of the buffer -/

/-- C37, the code at the failing inputs: with the Host values
`example.com:40000` and `example.com:0`, and with an original destination whose
port is 40000 when there is no Host header, `do_transparent_proxy` calls
`build_url` with a port outside `0 < port < 32768`: the assertion fails and the
function does not return. -/
theorem do_transparent_proxy_assertion_fails :
    host_header tenv0 18 "example.com:40000".toList = ("example.com".toList, 40000)
    ∧ do_transparent_proxy tenv0 7 (18, "example.com:40000".toList) request0 config_zero
        "/".toList = none
    ∧ host_header tenv0 14 "example.com:0".toList = ("example.com".toList, 0)
    ∧ do_transparent_proxy tenv0 7 (14, "example.com:0".toList) request0 config_zero
        "/".toList = none
    ∧ do_transparent_proxy { tenv0 with getsockname := some ("10.0.0.1".toList, 40000) } 7
        (0, []) request0 config_zero "/".toList = none
    ∧ (do_transparent_proxy tenv0 7 (17, "example.com:8080".toList) request0 config_zero
        "/".toList).isSome = true := by
  decide

theorem build_url_body_ok (env : transparent_env) (h p : CString) (port : Nat)
    (hm : env.malloc_url_ok = true) (h2 : port ≤ 65535) :
    build_url_body env h (port : Int) p
      = (((h.length + p.length + 8 + (decimal port).length : Nat) : Int),
          some ("http://".toList ++ h ++ ":".toList ++ decimal port ++ p)) := by
  have hd : decimal_int (port : Int) = decimal port := by
    simp [decimal_int]
  have hl := decimal_length port 5 (by decide) (by omega)
  have h7 : "http://".toList.length = 7 := by decide
  have h1 : ":".toList.length = 1 := by decide
  have hlen : ("http://".toList ++ h ++ ":".toList ++ decimal port ++ p).length
      = h.length + p.length + 8 + (decimal port).length := by
    simp only [List.length_append, h7, h1]; omega
  simp only [build_url_body, hm, hd, Bool.true_eq_false, if_false, hlen]
  congr 2
  apply List.take_of_length_le
  rw [hlen]
  omega

/-- C38: `build_url` never truncates.  When the allocation succeeds, for every
host and path and every port with `0 < port < 32768`, the url written is the
whole string `http://host:port` followed by the path, and the value returned is
`strlen (host) + strlen (path) + 8` plus the number of digits of the port; the
statements after the assertions do the same for every port up to 65535, and
the string with its terminator fits in the buffer of
`strlen (host) + strlen (path) + 14` bytes. -/
theorem build_url_never_truncates (env : transparent_env) (h p : CString) (port : Nat)
    (hm : env.malloc_url_ok = true) (h1 : 0 < port) (h2 : port ≤ 65535) :
    (port < 32768 →
      build_url env (some h) (port : Int) (some p)
        = some (((h.length + p.length + 8 + (decimal port).length : Nat) : Int),
            some ("http://".toList ++ h ++ ":".toList ++ decimal port ++ p)))
    ∧ build_url_body env h (port : Int) p
        = (((h.length + p.length + 8 + (decimal port).length : Nat) : Int),
            some ("http://".toList ++ h ++ ":".toList ++ decimal port ++ p))
    ∧ ("http://".toList ++ h ++ ":".toList ++ decimal port ++ p).length + 1
        ≤ h.length + p.length + 14 := by
  have hb := build_url_body_ok env h p port hm h2
  refine ⟨?_, hb, ?_⟩
  · intro h3
    have hp : (0 : Int) < (port : Int) ∧ (port : Int) < 32768 := by omega
    simp only [build_url, hp, and_self, if_true, hb]
  · have hl := decimal_length port 5 (by decide) (by omega)
    have h7 : "http://".toList.length = 7 := by decide
    have h1 : ":".toList.length = 1 := by decide
    simp only [List.length_append, h7, h1]
    omega

theorem build_url_never_truncates_witness :
    build_url tenv0 (some "www.example.com".toList) ((8080 : Nat) : Int) (some "/path".toList)
      = some ((("www.example.com".toList.length + "/path".toList.length + 8
                + (decimal 8080).length : Nat) : Int),
          some ("http://".toList ++ "www.example.com".toList ++ ":".toList ++ decimal 8080
            ++ "/path".toList)) :=
  (build_url_never_truncates tenv0 "www.example.com".toList "/path".toList 8080 rfl
    (by decide) (by decide)).1 (by decide)

/-! ## upstream_build: CIDR rules -/

theorem testBit_prefix_mask (k i : Nat) (hk : k ≤ 32) :
    (2 ^ 32 - 2 ^ k).testBit i = (decide (k ≤ i) && decide (i < 32)) := by
  have e : 2 ^ 32 - 2 ^ k = 2 ^ k * (2 ^ (32 - k) - 1) := by
    have : (2 : Nat) ^ 32 = 2 ^ k * 2 ^ (32 - k) := by
      rw [← pow_add]; congr 1; omega
    rw [Nat.mul_sub, mul_one, this]
  rw [e, Nat.testBit_mul_pow_two, Nat.testBit_two_pow_sub_one]
  by_cases h1 : k ≤ i
  · have : (i - k < 32 - k) ↔ i < 32 := by omega
    simp [h1, this]
  · simp [h1]

theorem and_prefix_mask (x k : Nat) (hx : x < 2 ^ 32) (hk : k ≤ 32) :
    x &&& (2 ^ 32 - 2 ^ k) = x / 2 ^ k * 2 ^ k := by
  apply Nat.eq_of_testBit_eq
  intro i
  rw [Nat.testBit_and, testBit_prefix_mask k i hk, Nat.mul_comm, Nat.testBit_mul_pow_two,
    ← Nat.shiftRight_eq_div_pow, Nat.testBit_shiftRight]
  by_cases h1 : k ≤ i
  · have e : k + (i - k) = i := by omega
    by_cases h2 : i < 32
    · simp [h1, h2, e]
    · have : x.testBit i = false :=
        Nat.testBit_lt_two_pow (lt_of_lt_of_le hx (Nat.pow_le_pow_right (by decide) (by omega)))
      simp [h1, h2, e, this]
  · simp [h1]

theorem prefix_match_iff (h ip k : Nat) :
    h / 2 ^ k * 2 ^ k = ip ↔ h / 2 ^ k = ip / 2 ^ k ∧ ip % 2 ^ k = 0 := by
  have hpos : 0 < 2 ^ k := pow_pos (by decide) k
  constructor
  · intro e
    rw [← e]
    exact ⟨(Nat.mul_div_cancel _ hpos).symm, Nat.mul_mod_left _ _⟩
  · rintro ⟨e1, e2⟩
    rw [e1]
    have := Nat.div_add_mod ip (2 ^ k)
    rw [e2, add_zero, Nat.mul_comm] at this
    exact this

set_option maxRecDepth 100000 in
theorem atoi_decimal : ∀ n < 33,
    atoi (decimal n) = (n : Int) ∧ (decimal n).contains '.' = false := by
  decide

theorem upstream_build_slash (env : upstream_env) (user pwd : Option CString) (port : Int)
    (left right : CString) (ip : Nat) (hm : env.safemalloc_ok = true) (hleft : left ≠ [])
    (hslash : '/' ∉ left) (hip : env.inet_aton left = some ip) :
    ∃ up, (upstream_build env user pwd none port (some (left ++ '/' :: right))).1 = some up
      ∧ up.domain = none ∧ up.host = none ∧ up.ip = ip
      ∧ up.mask = (if right.contains '.' then
                    match env.inet_aton right with
                    | some m => m
                    | none => 0
                  else shift_mask env (atoi right)) := by
  have h1 : (left ++ '/' :: right).head? ≠ none := by
    cases left with
    | nil => exact absurd rfl hleft
    | cons c t => simp
  have h2 : (left ++ '/' :: right).contains '/' = true := by simp
  have h3 := takeWhile_slash left right hslash
  have h4 := dropWhile_slash left right hslash
  simp only [upstream_build, hm, Bool.true_eq_false, if_false, h1, h2, if_true, h3, h4,
    List.tail_cons, hip]
  exact ⟨_, rfl, rfl, rfl, rfl, rfl⟩

theorem upstream_get_loop_single (env : upstream_env) (host : CString) (up : upstream)
    (a : Nat) (hdom : up.domain = none) (hip : up.ip ≠ 0)
    (ha : env.inet_aton host = some a) :
    upstream_get_loop env host INADDR_NONE [up] = some up ↔ a &&& up.mask = up.ip := by
  simp only [upstream_get_loop, hdom, hip, ne_eq, not_false_eq_true, if_true, inet_addr, ha]
  by_cases h : a &&& up.mask = up.ip
  · simp [h]
  · simp [h]

/-- C35: for a no-upstream rule `a.b.c.d/n` whose address parses to a non-zero
value `ip` and whose prefix length `n` is a decimal number in 1..=32,
`upstream_build` stores `ip` unmasked and the mask with `n` leading one bits;
`upstream_get` stops at the rule for a destination that parses to the address
`h` exactly when the top `n` bits of `h` and `ip` agree and `ip` has no bit set
below them, so that a rule with host bits set matches no such destination.  A
dotted-quad mask `m` after the `/` is stored as `mask = m`. -/
theorem upstream_build_cidr (env : upstream_env) (user pwd : Option CString) (port : Int)
    (left : CString) (ip n : Nat) (hm : env.safemalloc_ok = true) (hleft : left ≠ [])
    (hslash : '/' ∉ left) (hip : env.inet_aton left = some ip) (hip0 : ip ≠ 0)
    (hn1 : 1 ≤ n) (hn : n ≤ 32) :
    (∃ up, (upstream_build env user pwd none port (some (left ++ '/' :: decimal n))).1
        = some up
      ∧ up.domain = none ∧ up.host = none ∧ up.ip = ip ∧ up.mask = 2 ^ 32 - 2 ^ (32 - n)
      ∧ (∀ host h, env.inet_aton host = some h → h < 2 ^ 32 →
          (upstream_get_loop env host INADDR_NONE [up] = some up
            ↔ top_bits n h = top_bits n ip ∧ ip % 2 ^ (32 - n) = 0))
      ∧ (ip % 2 ^ (32 - n) ≠ 0 → ∀ host h, env.inet_aton host = some h → h < 2 ^ 32 →
          upstream_get_loop env host INADDR_NONE [up] ≠ some up))
    ∧ (∀ right m, right.contains '.' = true → env.inet_aton right = some m →
        ∃ up, (upstream_build env user pwd none port (some (left ++ '/' :: right))).1
          = some up
        ∧ up.domain = none ∧ up.host = none ∧ up.ip = ip ∧ up.mask = m) := by
  constructor
  · obtain ⟨up, hb, hd, hh, hi, hmask⟩ :=
      upstream_build_slash env user pwd port left (decimal n) ip hm hleft hslash hip
    obtain ⟨hat, hdot⟩ := atoi_decimal n (by omega)
    have hsm : shift_mask env (n : Int) = 2 ^ 32 - 2 ^ (32 - n) := by
      have h1 : (0 : Int) ≤ 32 - (n : Int) ∧ 32 - (n : Int) ≤ 31 := by omega
      have h2 : (32 - (n : Int)).toNat = 32 - n := by omega
      simp only [shift_mask, h1, and_self, if_true, h2]
    rw [hdot, hat, hsm] at hmask
    simp only [Bool.false_eq_true, if_false] at hmask
    have key : ∀ host h, env.inet_aton host = some h → h < 2 ^ 32 →
        (upstream_get_loop env host INADDR_NONE [up] = some up
          ↔ top_bits n h = top_bits n ip ∧ ip % 2 ^ (32 - n) = 0) := by
      intro host h hh1 hh2
      rw [upstream_get_loop_single env host up h hd (by rw [hi]; exact hip0) hh1, hmask, hi,
        and_prefix_mask h (32 - n) hh2 (by omega), prefix_match_iff]
      rfl
    refine ⟨up, hb, hd, hh, hi, hmask, key, ?_⟩
    intro hbits host h hh1 hh2 hget
    exact hbits ((key host h hh1 hh2).mp hget).2
  · intro right m hdot hmk
    obtain ⟨up, hb, hd, hh, hi, hmask⟩ :=
      upstream_build_slash env user pwd port left right ip hm hleft hslash hip
    rw [hdot, hmk] at hmask
    exact ⟨up, hb, hd, hh, hi, by simpa using hmask⟩

theorem upstream_build_cidr_witness :
    ∃ up, (upstream_build uenv0 none none none 0
        (some ("10.1.0.0".toList ++ '/' :: decimal 16))).1 = some up
      ∧ up.domain = none ∧ up.host = none ∧ up.ip = 167837696
      ∧ up.mask = 2 ^ 32 - 2 ^ (32 - 16)
      ∧ (∀ host h, uenv0.inet_aton host = some h → h < 2 ^ 32 →
          (upstream_get_loop uenv0 host INADDR_NONE [up] = some up
            ↔ top_bits 16 h = top_bits 16 167837696 ∧ 167837696 % 2 ^ (32 - 16) = 0))
      ∧ (167837696 % 2 ^ (32 - 16) ≠ 0 → ∀ host h, uenv0.inet_aton host = some h →
          h < 2 ^ 32 → upstream_get_loop uenv0 host INADDR_NONE [up] ≠ some up) :=
  (upstream_build_cidr uenv0 none none 0 "10.1.0.0".toList 167837696 16 rfl (by decide)
    (by decide) (by decide) (by decide) (by decide) (by decide)).1

/-! ## insert_acl: the entry appended -/

theorem insert_acl_entry_created (env : Env) (location : CString)
    (access_type : acl_access_t) (l : List acl_s)
    (hret : (insert_acl env location access_type (some l)).ret = 0) :
    ∃ e, (insert_acl env location access_type (some l)).access_list = some (l ++ [e])
      ∧ e.access = access_type
      ∧ (∀ ip_dst, env.full_inet_pton location = some ip_dst →
          e.address = .ip (memcpy16 ip_dst) (List.replicate IPV6_LEN 0xff))
      ∧ (env.full_inet_pton location = none → location.contains '/' = true →
          ∃ ip_dst mask,
            env.full_inet_pton (location.takeWhile (fun c => c != '/')) = some ip_dst
            ∧ e.address = .ip
                ((List.range IPV6_LEN).map (fun i => ip_dst.getD i 0 &&& mask.getD i 0)) mask)
      ∧ (env.full_inet_pton location = none → location.contains '/' = false →
          e.address = .string location) := by
  simp only [insert_acl, init_access_list, ne_eq, not_true_eq_false, if_false] at hret ⊢
  cases h1 : env.full_inet_pton location with
  | some ip_dst =>
    simp only [h1] at hret ⊢
    rcases vector_append_cases env l
      { access := access_type,
        address := .ip (memcpy16 ip_dst) (List.replicate IPV6_LEN 0xff) } [] with h | h
    · exact absurd hret h.1
    · refine ⟨_, h.2, rfl, ?_, ?_, ?_⟩
      · intro x hx; simp only [Option.some.injEq] at hx; rw [hx]
      · intro hx; exact absurd hx (by simp)
      · intro hx; exact absurd hx (by simp)
  | none =>
    simp only [h1] at hret ⊢
    by_cases hc : location.contains '/' = true
    · simp only [hc, if_true] at hret ⊢
      cases h2 : env.full_inet_pton (location.takeWhile (fun c => c != '/')) with
      | none => simp [h2] at hret
      | some ip_dst =>
        simp only [h2] at hret ⊢
        by_cases h3 : (fill_netmask_array env.ULONG_MAX
            (location.dropWhile (fun c => c != '/')).tail
            (if env.inet_pton6 (location.takeWhile (fun c => c != '/')) = true then 1 else 0)
            (List.replicate IPV6_LEN 0) IPV6_LEN).1 < 0
        · simp [h3] at hret
        · simp only [h3, if_false] at hret ⊢
          rcases vector_append_cases env l
            { access := access_type,
              address := .ip
                ((List.range IPV6_LEN).map (fun i => ip_dst.getD i 0 &&&
                  (fill_netmask_array env.ULONG_MAX
                    (location.dropWhile (fun c => c != '/')).tail
                    (if env.inet_pton6 (location.takeWhile (fun c => c != '/')) = true
                      then 1 else 0)
                    (List.replicate IPV6_LEN 0) IPV6_LEN).2.getD i 0))
                (fill_netmask_array env.ULONG_MAX
                    (location.dropWhile (fun c => c != '/')).tail
                    (if env.inet_pton6 (location.takeWhile (fun c => c != '/')) = true
                      then 1 else 0)
                    (List.replicate IPV6_LEN 0) IPV6_LEN).2 } [] with h | h
          · exact absurd hret h.1
          · refine ⟨_, h.2, rfl, ?_, ?_, ?_⟩
            · intro x hx; exact absurd hx (by simp)
            · intro _ _; exact ⟨ip_dst, _, rfl, rfl⟩
            · intro _ hx; simp at hx
    · simp only [hc, Bool.false_eq_true, if_false] at hret ⊢
      by_cases hs : env.safestrdup_ok = true
      · simp only [hs, if_true] at hret ⊢
        rcases vector_append_cases env l
          { access := access_type, address := .string location } [] with h | h
        · exact absurd hret h.1
        · refine ⟨_, h.2, rfl, ?_, ?_, ?_⟩
          · intro x hx; exact absurd hx (by simp)
          · intro _ hx; simp at hx
          · intro _ _; rfl
      · simp [hs] at hret

theorem insert_acl_no_slash_created (env : Env) (location : CString)
    (access_type : acl_access_t) (l : List acl_s) (hc : location.contains '/' = false)
    (hs : env.safestrdup_ok = true) (happ : env.vector_append_ret = 0) :
    (insert_acl env location access_type (some l)).ret = 0 := by
  simp only [insert_acl, init_access_list, ne_eq, not_true_eq_false, if_false]
  cases h1 : env.full_inet_pton location with
  | some ip_dst => simp [vector_append, happ]
  | none => simp only [hc, hs, vector_append, happ, Bool.false_eq_true, if_false, if_true]

/-- C36: a successful `insert_acl` appends exactly one entry behind the entries
the access list had, which stay as they were, in their order; the entry carries
the given access; it is Numeric with the mask of all ones when the pattern
parses as an IP address, else Numeric with `network = ip & mask` when the
pattern holds a `/`, else a String entry with the pattern as given.  A pattern
without `/` is never refused on parsing: with the list, the copy of the string
and the new element allocated, `insert_acl` returns 0. -/
theorem insert_acl_appends (env : Env) (location : CString) (access_type : acl_access_t)
    (access_list : vector_t) :
    ((insert_acl env location access_type access_list).ret = 0 →
      ∃ e, (insert_acl env location access_type access_list).access_list
          = some (entries access_list ++ [e])
        ∧ e.access = access_type
        ∧ (∀ ip_dst, env.full_inet_pton location = some ip_dst →
            e.address = .ip (memcpy16 ip_dst) (List.replicate IPV6_LEN 0xff))
        ∧ (env.full_inet_pton location = none → location.contains '/' = true →
            ∃ ip_dst mask,
              env.full_inet_pton (location.takeWhile (fun c => c != '/')) = some ip_dst
              ∧ e.address = .ip
                  ((List.range IPV6_LEN).map (fun i => ip_dst.getD i 0 &&& mask.getD i 0))
                  mask)
        ∧ (env.full_inet_pton location = none → location.contains '/' = false →
            e.address = .string location))
    ∧ (location.contains '/' = false →
        (access_list ≠ none ∨ env.vector_create_ok = true) → env.safestrdup_ok = true →
        env.vector_append_ret = 0 →
        (insert_acl env location access_type access_list).ret = 0) := by
  cases access_list with
  | some l =>
    exact ⟨fun h => insert_acl_entry_created env location access_type l h,
      fun hc _ hs happ => insert_acl_no_slash_created env location access_type l hc hs happ⟩
  | none =>
    rw [insert_acl_absent]
    by_cases hv : env.vector_create_ok = true
    · simp only [hv, if_true]
      exact ⟨fun h => insert_acl_entry_created env location access_type [] h,
        fun hc _ hs happ =>
          insert_acl_no_slash_created env location access_type [] hc hs happ⟩
    · simp only [hv, Bool.false_eq_true, if_false]
      refine ⟨fun h => absurd h (by decide), fun _ h => ?_⟩
      rcases h with h | h
      · exact absurd rfl h
      · exact h.elim

/-! ## config_parse: line by line, first pattern first -/

theorem check_match_loop_first (env : conf_env) (conf : config_s) (line : CString)
    (ds : List directive) :
    check_match_loop env conf line ds
      = match first_match env line ds with
        | none => handled (-1) conf []
        | some (d, m) => d.handler env conf line m := by
  induction ds with
  | nil => rfl
  | cons d ds ih =>
    simp only [check_match_loop, first_match]
    cases env.regexec d.re line with
    | some m => rfl
    | none => exact ih

theorem first_line_length (f : CString) (h : f ≠ []) : 1 ≤ (first_line f).length := by
  cases f with
  | nil => exact absurd rfl h
  | cons c t =>
    simp only [first_line]
    split_ifs <;> simp

theorem file_lines_eq (f : CString) (h : f ≠ []) :
    file_lines f = first_line f :: file_lines (f.drop (first_line f).length) := by
  induction f with
  | nil => exact absurd rfl h
  | cons c t ih =>
    by_cases hc : c = '\n'
    · simp [file_lines, first_line, hc]
    · cases t with
      | nil => simp [file_lines, first_line, hc]
      | cons c2 t2 =>
        have := ih (by simp)
        simp only [file_lines, first_line, hc, if_false] at this ⊢
        rw [this]
        simp

theorem fgets_line_eq (n : Nat) (f : CString) (h : (first_line f).length ≤ n) :
    fgets_line n f = first_line f := by
  induction f generalizing n with
  | nil => cases n <;> rfl
  | cons c t ih =>
    cases n with
    | zero =>
      simp only [first_line] at h
      split_ifs at h <;> simp at h
    | succ n =>
      by_cases hc : c = '\n'
      · simp [fgets_line, first_line, hc]
      · simp only [first_line, hc, if_false, List.length_cons] at h
        simp only [fgets_line, first_line, hc, if_false]
        rw [ih n (by omega)]

theorem fgets_eq (f : CString) (h : f ≠ []) (hl : (first_line f).length ≤ 1023) :
    fgets 1024 f = some (first_line f, f.drop (first_line f).length) := by
  have he : f.isEmpty = false := by
    cases f with
    | nil => exact absurd rfl h
    | cons c t => rfl
  simp only [fgets, he, Bool.false_eq_true, if_false, Nat.add_one_sub_one,
    fgets_line_eq 1023 f hl]

theorem config_parse_loop_lines (env : conf_env) (fuel : Nat) (conf : config_s) (f : CString)
    (lineno : Nat) (ev : List conf_event) (hfuel : f.length ≤ fuel)
    (hlines : ∀ l ∈ file_lines f, l.length ≤ 1023) :
    config_parse_loop env fuel conf f lineno ev
      = apply_lines env conf (file_lines f) lineno ev := by
  induction fuel generalizing conf f lineno ev with
  | zero =>
    have : f = [] := List.length_eq_zero.mp (by omega)
    subst this
    rfl
  | succ fuel ih =>
    by_cases hf : f = []
    · subst hf; rfl
    · have hfl := file_lines_eq f hf
      have hl : (first_line f).length ≤ 1023 := hlines _ (by rw [hfl]; simp)
      have h1 := first_line_length f hf
      have hrest : ∀ l ∈ file_lines (f.drop (first_line f).length), l.length ≤ 1023 :=
        fun l hlm => hlines l (by rw [hfl]; simp [hlm])
      have hlen : (f.drop (first_line f).length).length ≤ fuel := by
        rw [List.length_drop]; omega
      rw [hfl]
      simp only [config_parse_loop, fgets_eq f hf hl, check_match, check_match_loop_first,
        apply_lines]
      cases hm : first_match env (first_line f) (directives env) with
      | none =>
        simp [handled, syntax_error]
      | some dm =>
        obtain ⟨d, m⟩ := dm
        simp only []
        cases hh : d.handler env conf (first_line f) m with
        | none => rfl
        | some r =>
          simp only []
          by_cases hr : r.ret = 0
          · simp only [hr, ne_eq, not_true_eq_false, if_false]
            exact ih r.conf _ (lineno + 1) (ev ++ r.events) hlen hrest
          · simp only [hr, ne_eq, not_false_eq_true, if_true, syntax_error]

/-- C32: for a file whose lines, each with its newline, have at most 1023 bytes,
`config_parse` is the parse of the specification: it takes the lines in order
and gives each one to the handler of the first pattern of the table that
matches it; it fails, with the number of that line, at the first line that no
pattern matches or whose handler returns non-zero, without looking at a later
line, and succeeds when there is no such line. -/
theorem config_parse_first_match (env : conf_env) (conf : config_s) (f : CString)
    (hlines : ∀ l ∈ file_lines f, l.length ≤ 1023) :
    config_parse env conf f = apply_lines env conf (file_lines f) 1 [] :=
  config_parse_loop_lines env f.length conf f 1 [] (le_refl _) hlines

set_option maxRecDepth 100000 in
theorem config_parse_first_match_witness :
    config_parse (cenv0 (fun _ => none)) config_zero "port 8888\nbogus\nuser nobody\n".toList
      = apply_lines (cenv0 (fun _ => none)) config_zero
          (file_lines "port 8888\nbogus\nuser nobody\n".toList) 1 [] :=
  config_parse_first_match (cenv0 (fun _ => none)) config_zero
    "port 8888\nbogus\nuser nobody\n".toList (by decide)

/-! ## reload_config_file: a fresh record -/

theorem directives_acl (env : conf_env) (d : directive) (hd : d ∈ directives env)
    (hne : acl_directive d ≠ none) :
    (acl_directive d = some .ACL_ALLOW ∧ d.handler = handle_allow)
    ∨ (acl_directive d = some .ACL_DENY ∧ d.handler = handle_deny) := by
  revert hne
  unfold directives at hd
  simp only [List.mem_append] at hd
  rcases hd with (((hd | hd) | hd) | hd) | hd
  · revert d
    simp only [List.forall_mem_cons]
    refine ⟨?_, ?_, ?_, ?_, ?_, ?_, ?_, ?_, ?_, ?_, ?_, ?_, ?_, ?_, ?_, ?_, ?_, ?_, ?_, ?_, ?_,
      ?_, ?_, ?_,
      fun _ => Or.inl ⟨by decide, rfl⟩,
      fun _ => Or.inr ⟨by decide, rfl⟩,
      ?_, ?_, ?_, ?_⟩
    all_goals first
      | (intro hne; exact absurd (by decide) hne)
      | (intro x hx; exact absurd hx (List.not_mem_nil x))
  · split_ifs at hd
    · revert d
      simp only [List.forall_mem_cons]
      refine ⟨?_, ?_, ?_, ?_, ?_, ?_⟩
      all_goals first
        | (intro hne; exact absurd (by decide) hne)
        | (intro x hx; exact absurd hx (List.not_mem_nil x))
    · exact absurd hd (List.not_mem_nil d)
  · split_ifs at hd
    · revert d
      simp only [List.forall_mem_cons]
      refine ⟨?_, ?_, ?_, ?_, ?_⟩
      all_goals first
        | (intro hne; exact absurd (by decide) hne)
        | (intro x hx; exact absurd hx (List.not_mem_nil x))
    · exact absurd hd (List.not_mem_nil d)
  · split_ifs at hd
    · revert d
      simp only [List.forall_mem_cons]
      refine ⟨?_, ?_, ?_⟩
      all_goals first
        | (intro hne; exact absurd (by decide) hne)
        | (intro x hx; exact absurd hx (List.not_mem_nil x))
    · exact absurd hd (List.not_mem_nil d)
  · revert d
    simp only [List.forall_mem_cons]
    refine ⟨?_, ?_⟩
    all_goals first
      | (intro hne; exact absurd (by decide) hne)
      | (intro x hx; exact absurd hx (List.not_mem_nil x))

theorem acl_directive_allow :
    acl_directive (STDCONF "allow"
      ("(" ++ "(" ++ IPMASK ++ "|" ++ IPV6MASK ++ ")" ++ "|" ++ ALNUM ++ ")") handle_allow)
      = some .ACL_ALLOW := by
  decide

theorem acl_directive_deny :
    acl_directive (STDCONF "deny"
      ("(" ++ "(" ++ IPMASK ++ "|" ++ IPV6MASK ++ ")" ++ "|" ++ ALNUM ++ ")") handle_deny)
      = some .ACL_DENY := by
  decide

theorem directives_frame (env : conf_env) (d : directive) (hd : d ∈ directives env)
    (hnone : acl_directive d = none) (conf : config_s) (line : CString)
    (m : List regmatch_t) (r : handler_result) (h : d.handler env conf line m = some r) :
    r.conf.access_list = conf.access_list := by
  revert hnone conf line m r
  unfold directives at hd
  simp only [List.mem_append] at hd
  rcases hd with (((hd | hd) | hd) | hd) | hd
  · revert d
    simp only [List.forall_mem_cons]
    refine ⟨?_, ?_, ?_, ?_, ?_, ?_, ?_, ?_, ?_, ?_, ?_, ?_, ?_, ?_, ?_, ?_, ?_, ?_, ?_, ?_, ?_,
      ?_, ?_, ?_,
      fun hnone => absurd (acl_directive_allow.symm.trans hnone) (by simp),
      fun hnone => absurd (acl_directive_deny.symm.trans hnone) (by simp),
      ?_, ?_, ?_, ?_⟩
    all_goals first
      | (intro x hx; exact absurd hx (List.not_mem_nil x))
      | (intro _ conf line m r h
         simp only [STDCONF, handle_nop, handle_logfile, handle_pidfile, handle_anonymous,
           handle_viaproxyname, handle_defaulterrorfile, handle_statfile, handle_stathost,
           handle_xtinyproxy, handle_syslog, handle_bindsame, handle_disableviaheader,
           handle_port, handle_maxclients, handle_maxspareservers, handle_minspareservers,
           handle_startservers, handle_maxrequestsperchild, handle_child, handle_timeout,
           handle_connectport, handle_user, handle_group, handle_listen, handle_bind,
           handle_errorfile, handle_addheader, handled] at h
         repeat' (first
           | (cases h <;> rfl)
           | (obtain ⟨_, _, h⟩ := h)
           | (simp only [Option.bind_eq_some] at h)
           | (split at h)))
  · split_ifs at hd
    · revert d
      simp only [List.forall_mem_cons]
      refine ⟨?_, ?_, ?_, ?_, ?_, ?_⟩
      all_goals first
        | (intro x hx; exact absurd hx (List.not_mem_nil x))
        | (intro _ conf line m r h
           simp only [STDCONF, handle_filter, handle_filterurls, handle_filterextended,
             handle_filterdefaultdeny, handle_filtercasesensitive, handled] at h
           repeat' (first
             | (cases h <;> rfl)
             | (obtain ⟨_, _, h⟩ := h)
             | (simp only [Option.bind_eq_some] at h)
             | (split at h)))
    · exact absurd hd (List.not_mem_nil d)
  · split_ifs at hd
    · revert d
      simp only [List.forall_mem_cons]
      refine ⟨?_, ?_, ?_, ?_, ?_⟩
      all_goals first
        | (intro x hx; exact absurd hx (List.not_mem_nil x))
        | (intro _ conf line m r h
           simp only [STDCONF, handle_reversebaseurl, handle_reverseonly, handle_reversemagic,
             handle_reversepath, handled] at h
           repeat' (first
             | (cases h <;> rfl)
             | (obtain ⟨_, _, h⟩ := h)
             | (simp only [Option.bind_eq_some] at h)
             | (split at h)))
    · exact absurd hd (List.not_mem_nil d)
  · split_ifs at hd
    · revert d
      simp only [List.forall_mem_cons]
      refine ⟨?_, ?_, ?_⟩
      all_goals first
        | (intro x hx; exact absurd hx (List.not_mem_nil x))
        | (intro _ conf line m r h
           simp only [handle_upstream, handle_upstream_no, handled] at h
           repeat' (first
             | (cases h <;> rfl)
             | (obtain ⟨_, _, h⟩ := h)
             | (simp only [Option.bind_eq_some] at h)
             | (split at h)))
    · exact absurd hd (List.not_mem_nil d)
  · revert d
    simp only [List.forall_mem_cons]
    refine ⟨?_, ?_⟩
    all_goals first
      | (intro x hx; exact absurd hx (List.not_mem_nil x))
      | (intro _ conf line m r h
         simp only [STDCONF, handle_loglevel, handled] at h
         repeat' (first
           | (cases h <;> rfl)
           | (obtain ⟨_, _, h⟩ := h)
           | (simp only [Option.bind_eq_some] at h)
           | (split at h)))

theorem handle_acl_some (access : acl_access_t) (env : conf_env) (conf : config_s)
    (line : CString) (m : List regmatch_t) (r : handler_result)
    (h : handle_acl access env conf line m = some r) :
    ∃ arg, get_string_arg env line (match_at m 2) = some (some arg)
      ∧ r.conf.access_list = (insert_acl env.acl arg access conf.access_list).access_list := by
  unfold handle_acl at h
  split at h
  · exact absurd h (by simp)
  · exact absurd h (by simp)
  · rename_i arg harg
    simp only [handled, Option.some.injEq] at h
    exact ⟨arg, harg, by rw [← h]⟩

theorem first_match_mem (env : conf_env) (line : CString) (ds : List directive)
    (d : directive) (m : List regmatch_t) (h : first_match env line ds = some (d, m)) :
    d ∈ ds := by
  induction ds with
  | nil => simp [first_match] at h
  | cons x xs ih =>
    simp only [first_match] at h
    cases hx : env.regexec x.re line with
    | some mx =>
      simp only [hx, Option.some.injEq, Prod.mk.injEq] at h
      rw [← h.1]; exact List.mem_cons_self _ _
    | none =>
      simp only [hx] at h
      exact List.mem_cons_of_mem _ (ih h)

/-- The access list after a line whose handler returned: the list after the
call of `insert_acl` that the line stands for, or the list as it was. -/
theorem handler_access_list (env : conf_env) (conf : config_s) (line : CString)
    (d : directive) (m : List regmatch_t) (r : handler_result)
    (hm : first_match env line (directives env) = some (d, m))
    (h : d.handler env conf line m = some r) :
    r.conf.access_list
      = insert_acls ((acl_line env line).toList) conf.access_list := by
  have hd := first_match_mem env line _ d m hm
  unfold acl_line
  rw [hm]
  simp only []
  cases ha : acl_directive d with
  | none =>
    simp only [Option.toList, insert_acls]
    exact directives_frame env d hd ha conf line m r h
  | some access =>
    rcases directives_acl env d hd (by rw [ha]; simp) with ⟨h1, h2⟩ | ⟨h1, h2⟩
    · rw [h2] at h
      obtain ⟨arg, harg, hr⟩ := handle_acl_some .ACL_ALLOW env conf line m r h
      rw [ha] at h1
      simp only [Option.some.injEq] at h1
      subst h1
      simp only [harg, Option.toList, insert_acls]
      exact hr
    · rw [h2] at h
      obtain ⟨arg, harg, hr⟩ := handle_acl_some .ACL_DENY env conf line m r h
      rw [ha] at h1
      simp only [Option.some.injEq] at h1
      subst h1
      simp only [harg, Option.toList, insert_acls]
      exact hr

theorem insert_acls_append (a b : List (Env × CString × acl_access_t)) (l : vector_t) :
    insert_acls (a ++ b) l = insert_acls b (insert_acls a l) := by
  induction a generalizing l with
  | nil => rfl
  | cons x xs ih =>
    obtain ⟨e, loc, acc⟩ := x
    simp only [List.cons_append, insert_acls]
    exact ih _

theorem apply_lines_access_list (env : conf_env) (conf : config_s) (lines : List CString)
    (lineno : Nat) (ev : List conf_event) (r : handler_result)
    (h : apply_lines env conf lines lineno ev = some r) (hr : r.ret = 0) :
    r.conf.access_list
      = insert_acls (lines.filterMap (acl_line env)) conf.access_list := by
  induction lines generalizing conf lineno ev with
  | nil =>
    simp only [apply_lines, handled, Option.some.injEq] at h
    rw [← h]; rfl
  | cons line lines ih =>
    simp only [apply_lines] at h
    cases hm : first_match env line (directives env) with
    | none =>
      simp only [hm, handled, Option.some.injEq] at h
      rw [← h] at hr; simp at hr
    | some dm =>
      obtain ⟨d, m⟩ := dm
      simp only [hm] at h
      cases hh : d.handler env conf line m with
      | none => simp only [hh] at h; exact absurd h (by simp)
      | some r1 =>
        simp only [hh] at h
        by_cases hr1 : r1.ret = 0
        · simp only [hr1, ne_eq, not_true_eq_false, if_false] at h
          have h1 := ih r1.conf (lineno + 1) (ev ++ r1.events) h
          have h2 := handler_access_list env conf line d m r1 hm hh
          rw [h1, h2]
          cases hal : acl_line env line with
          | none => simp [List.filterMap_cons, hal, insert_acls]
          | some c =>
            obtain ⟨e, loc, acc⟩ := c
            simp [List.filterMap_cons, hal, insert_acls]
        · simp only [hr1, ne_eq, not_false_eq_true, if_true, handled, Option.some.injEq] at h
          rw [← h] at hr; simp at hr

/-- C33: a reload gives a record that depends only on the file and the
defaults: for any two earlier records the result of `reload_config_file` is the
same, return value, record and all; and after a successful reload from a file
whose lines have at most 1023 bytes the access list is the one built from
nothing by the `insert_acl` calls of the `allow` and `deny` lines of the file,
in the order of the lines: no entry comes from the earlier record or from the
defaults.  So the file `allow 127.0.0.1`, `port 8888`, `deny 10.0.0.0/8`, loaded
over the record `conf_before`, leaves the list of these two calls. -/
theorem reload_config_file_fresh_record (env : conf_env) (fname : CString)
    (cfg1 cfg2 defaults : config_s) :
    reload_config_file env fname cfg1 defaults = reload_config_file env fname cfg2 defaults
    ∧ (∀ f r, env.fopen fname = some f → (∀ l ∈ file_lines f, l.length ≤ 1023) →
        reload_config_file env fname cfg1 defaults = some r → r.ret = 0 →
        r.conf.access_list
          = insert_acls ((file_lines f).filterMap (acl_line env)) none)
    ∧ (reload_config_file
          (cenv0 (one_file "tinyproxy.conf" "allow 127.0.0.1\nport 8888\ndeny 10.0.0.0/8\n"))
          "tinyproxy.conf".toList conf_before config_zero).map
        (fun r => (r.ret, r.conf.access_list))
      = some (0, insert_acls [(env0, "127.0.0.1".toList, .ACL_ALLOW),
          (env0, "10.0.0.0/8".toList, .ACL_DENY)] none) := by
  refine ⟨reload_config_file_fresh env fname cfg1 cfg2 defaults, ?_, by
    set_option maxRecDepth 1000000 in
    set_option maxHeartbeats 4000000 in
    decide⟩
  intro f r hf hlines h hr
  rcases reload_config_file_cases env fname cfg1 defaults with
    ⟨hf2, _, _⟩ | ⟨f2, _, _, e⟩ | ⟨f2, p, _, _, _, ev, e⟩ | ⟨f2, p, hf2, hp, hr2, _, ev, e⟩
  · rw [hf] at hf2; exact absurd hf2 (by simp)
  · rw [h] at e; exact absurd e (by simp)
  · rw [h] at e; simp only [handled, Option.some.injEq] at e
    rw [e] at hr; simp at hr
  · rw [hf] at hf2; simp only [Option.some.injEq] at hf2; subst hf2
    rw [h] at e; simp only [handled, Option.some.injEq] at e
    have hacc : r.conf.access_list = p.conf.access_list := by
      rw [e]; split_ifs <;> rfl
    rw [config_parse, config_parse_loop_lines env _ _ f 1 [] (le_refl _) hlines] at hp
    rw [hacc, apply_lines_access_list env _ _ 1 [] p hp hr2,
      initialize_with_defaults_access_list]
    rfl

end Tinyproxy
